import Mathlib

/-!
# KrakatoaForSoftimage: `KrakatoaRendererPlugin.cpp`

A shallow embedding of the three parts of the plugin its specification is
about, and the properties the specification states about them:

* the particle stream adapter `SIPointCloudParticleStream` (the channel mapping
  table, `ScanForChannels`, `particle_count`, `get_next_particle`, `close`);
* the frame buffer compositor (`linearToSRGB`, `KrakFragment`,
  `SIFrameBufferInterface`);
* the render session (`LockRendererData`, `AddLight`, `AddOcclusionMesh`,
  `KrakatoaSR_Process`).

Conventions of the embedding:
* `INT64` fields are `Int`, the increment wraps at 64 bits (`wrapINT64`);
  the `(ULONG)` cast of the cursor is `toULONG`; `unsigned int` arithmetic
  wraps at 32 bits (`wrapUInt`).
* in the stream adapter a float32 value is carried as its 32-bit pattern: the
  adapter only moves values. In the compositor, which computes with them, a
  float32 value is the rational it denotes and every operation rounds.
* the host SDK and the render engine are not part of the repository; the few
  calls of theirs the plugin relies on are modelled next to their use.
-/

namespace Krakatoa

/-! ## Host side: ICE attributes and geometry -/

/-- Type tags of host ICE attributes (`siICENodeDataType` of the host SDK). -/
inductive siICENodeDataType where
  | siICENodeDataBool
  | siICENodeDataLong
  | siICENodeDataFloat
  | siICENodeDataVector2
  | siICENodeDataVector3
  | siICENodeDataVector4
  | siICENodeDataQuaternion
  | siICENodeDataMatrix33
  | siICENodeDataMatrix44
  | siICENodeDataColor4
  | siICENodeDataGeometry
  | siICENodeDataLocation
  | siICENodeDataExecute
  | siICENodeDataReference
  | siICENodeDataRotation
  | siICENodeDataShape
  | siICENodeDataCustomType
  | siICENodeDataString
  | siICENodeDataIcon
  deriving DecidableEq, Repr

/-- Context tags of host ICE attributes (`siICENodeContextType`). -/
inductive siICENodeContextType where
  | siICENodeContextSingleton
  | siICENodeContextComponent0D
  | siICENodeContextComponent1D
  | siICENodeContextComponent2D
  | siICENodeContextComponent0D2D
  | siICENodeContextElementGenerator
  deriving DecidableEq, Repr

/-- One machine value of a particle record: a byte, a 32-bit integer or a
float32 given by its bit pattern. -/
inductive Scalar where
  | u8 (v : Nat)
  | i32 (v : Int)
  | f32 (bits : Nat)
  deriving DecidableEq, Repr

/-- One element of a host attribute, as the typed data arrays of the SDK hold
it. `outOfRange` stands for what `operator[]` yields past the end of an array,
which the SDK leaves unspecified. -/
inductive ICEValue where
  | bool (b : Bool)
  | long (v : Int)
  | float (x : Nat)
  | vector2 (x y : Nat)
  | vector3 (x y z : Nat)
  | vector4 (x y z w : Nat)
  | quaternion (w x y z : Nat)
  | color4 (r g b a : Nat)
  | rotation (x y z w : Nat)
  | matrix (cells : List Nat)
  | outOfRange
  deriving DecidableEq, Repr

/-- The scalars found at the address of an array element, in memory order:
what a `const void*` to the element lets `set_channel_value` read. -/
def rawScalars : ICEValue → List Scalar
  | .bool b => [Scalar.u8 (if b then 1 else 0)]
  | .long v => [Scalar.i32 v]
  | .float x => [Scalar.f32 x]
  | .vector2 x y => [Scalar.f32 x, Scalar.f32 y]
  | .vector3 x y z => [Scalar.f32 x, Scalar.f32 y, Scalar.f32 z]
  | .vector4 x y z w => [Scalar.f32 x, Scalar.f32 y, Scalar.f32 z, Scalar.f32 w]
  | .quaternion w x y z => [Scalar.f32 w, Scalar.f32 x, Scalar.f32 y, Scalar.f32 z]
  | .color4 r g b a => [Scalar.f32 r, Scalar.f32 g, Scalar.f32 b, Scalar.f32 a]
  | .rotation x y z w => [Scalar.f32 x, Scalar.f32 y, Scalar.f32 z, Scalar.f32 w]
  | .matrix cells => cells.map Scalar.f32
  | .outOfRange => []

/-- A host ICE attribute: the answers of `GetName`, `IsDefined`,
`GetContextType`, `GetDataType`, and the per-point values `GetDataArray`
hands out. -/
structure ICEAttribute where
  name : String
  defined : Bool
  context : siICENodeContextType
  dataType : siICENodeDataType
  values : List ICEValue
  deriving DecidableEq, Repr

/-- A host point cloud geometry: its name, `GetPoints().GetCount()` and
`GetICEAttributes()`. -/
structure Geometry where
  name : String
  pointCount : Nat
  attributes : List ICEAttribute
  deriving DecidableEq, Repr

/-! ## Engine side: channel descriptors and particle records -/

/-- Storage types of engine channels (`data_type_t`). -/
inductive data_type_t where
  | DATA_TYPE_INVALID
  | DATA_TYPE_INT8
  | DATA_TYPE_INT16
  | DATA_TYPE_INT32
  | DATA_TYPE_INT64
  | DATA_TYPE_UINT8
  | DATA_TYPE_UINT16
  | DATA_TYPE_UINT32
  | DATA_TYPE_UINT64
  | DATA_TYPE_FLOAT16
  | DATA_TYPE_FLOAT32
  | DATA_TYPE_FLOAT64
  deriving DecidableEq, Repr

/-- Modelled from the spec: the `channel_data` handle of the render engine,
a channel descriptor (name, storage type, arity) together with the place the
registration call assigned to the channel in the particle record. The engine
library is not part of the repository; `slot` numbers the places in
registration order. -/
structure channel_data where
  name : String
  dataType : data_type_t
  arity : Nat
  slot : Nat
  deriving DecidableEq, Repr

/-- The buffer behind the `void* particleData` of `get_next_particle`: for
every place of the record what it holds, `none` while nothing was written
there. -/
abbrev Record := Nat → Option (List Scalar)

/-- A buffer nothing has been written to. -/
def Record.blank : Record := fun _ => none

/-- Modelled from the spec: `set_channel_value` of the engine's
`particle_stream_interface`, absent from the repository. It copies `arity`
values of the channel's storage type from `inValue` to the place of the
channel in the record and leaves every other place alone. -/
def set_channel_value (cd : channel_data) (particleData : Record) (inValue : List Scalar) :
    Record :=
  fun p => if p = cd.slot then some (inValue.take cd.arity) else particleData p

/-- A typed attribute data array (`CBaseICEAttributeDataArray` and its
subclasses): the element type it was created for and the elements
`GetDataArray` filled in. -/
structure CBaseICEAttributeDataArray where
  elementType : siICENodeDataType
  elements : List ICEValue
  deriving DecidableEq, Repr

/-- Element access `operator[]` of the typed data arrays. -/
def CBaseICEAttributeDataArray.index (a : CBaseICEAttributeDataArray) (i : Nat) : ICEValue :=
  a.elements.getD i ICEValue.outOfRange

/-! ## Machine integers -/

/-- Value of a 64-bit signed integer after an operation whose exact result is
`x`. -/
def wrapINT64 (x : Int) : Int := (x + 9223372036854775808) % 18446744073709551616 - 9223372036854775808

/-- The cast `(ULONG)` of a 64-bit integer: its low 32 bits. -/
def toULONG (x : Int) : Nat := (x % 4294967296).toNat

/-! ## The stream -/

/-- State of an `SIPointCloudParticleStream`. `appended` is the channel list
of the `particle_stream_interface` base class, which `append_channel` grows. -/
structure SIPointCloudParticleStream where
  geometry : Geometry
  attributes : List ICEAttribute
  channels : List channel_data
  particleCount : Int
  particleIndex : Int
  dataArrays : List CBaseICEAttributeDataArray
  appended : List channel_data
  deriving DecidableEq, Repr

/-! ## The channel mapping table -/

/-- A `std::map<string, string>`, kept as the list of its entries. -/
abbrev StringMap := List (String × String)

/-- The assignment `m[key] = value` of `std::map`: it overwrites the entry of
`key` if there is one and adds an entry otherwise. -/
def StringMap.assign : StringMap → String → String → StringMap
  | [], key, value => [(key, value)]
  | (k, v) :: rest, key, value =>
      if k = key then (k, value) :: rest else (k, v) :: StringMap.assign rest key value

/-- The lookup `m.find(key)` of `std::map`: the mapped value, `none` for
`m.end()`. -/
def StringMap.find : StringMap → String → Option String
  | [], _ => none
  | (k, v) :: rest, key => if k = key then some v else StringMap.find rest key

/-- The assignments the constructor makes to the static table the first time
it runs, in source order. -/
def populateMappings (m : StringMap) : StringMap :=
  let m := m.assign "PointPosition" "Position"
  let m := m.assign "Color" "Color"
  let m := m.assign "Density" "Density"
  let m := m.assign "Lighting" "Lighting"
  let m := m.assign "MBlurTime" "MBlurTime"
  let m := m.assign "Absorption" "Absorption"
  let m := m.assign "Emission" "Emission"
  let m := m.assign "PointNormal" "Normal"
  let m := m.assign "Tangent" "Tangent"
  let m := m.assign "PointVelocity" "Velocity"
  let m := m.assign "Eccentricity" "Eccentricity"
  let m := m.assign "PhaseEccentricity" "Eccentricity"
  let m := m.assign "SpecularPower" "SpecularPower"
  let m := m.assign "SpecularLevel" "SpecularLevel"
  let m := m.assign "DiffuseLevel" "DiffuseLevel"
  let m := m.assign "GlintGlossiness" "GlintGlossiness"
  let m := m.assign "GlintLevel" "GlintLevel"
  let m := m.assign "GlintSize" "GlintSize"
  let m := m.assign "Specular2Glossiness" "Specular2Glossiness"
  let m := m.assign "Specular2Level" "Specular2Level"
  let m := m.assign "Specular2Shift" "Specular2Shift"
  let m := m.assign "SpecularGlossiness" "SpecularGlossiness"
  let m := m.assign "SpecularShift" "SpecularShift"
  m

/-- The guard at the head of the constructor: the static table is filled
only while it is empty. -/
def initMappings (m : StringMap) : StringMap :=
  if m.length = 0 then populateMappings m else m

/-- The static `channelNameMappings` as every `ScanForChannels` finds it: the
table starts out empty and each constructor passes through `initMappings`
before it scans. -/
def channelNameMappings : StringMap := initMappings []

/-! ## Scanning -/

/-- Modelled from the spec: `append_channel` of the engine's
`particle_stream_interface`, absent from the repository. It registers a
channel of the given name, storage type and arity with the stream and hands
back its descriptor; the place of the channel in the record is the next free
one. -/
def append_channel (s : SIPointCloudParticleStream) (name : String) (dataType : data_type_t)
    (arity : Nat) : channel_data × SIPointCloudParticleStream :=
  let data : channel_data :=
    { name := name, dataType := dataType, arity := arity, slot := s.appended.length }
  (data, { s with appended := s.appended ++ [data] })

/-- The call `attr.GetDataArray(*dataArray)`: the array takes the values of the
attribute as they are now. -/
def ICEAttribute.GetDataArray (attr : ICEAttribute) (dataArray : CBaseICEAttributeDataArray) :
    CBaseICEAttributeDataArray :=
  { dataArray with elements := attr.values }

/-- One supported `case` of the type switch of `ScanForChannels` followed by
the tail of the loop body: `append_channel`, a new empty array of the matching
element type, then the three `push_back`s with the array filled in between. -/
def acceptAttribute (s : SIPointCloudParticleStream) (attr : ICEAttribute) (krakName : String)
    (dataType : data_type_t) (arity : Nat) (elementType : siICENodeDataType) :
    SIPointCloudParticleStream :=
  let (data, s) := append_channel s krakName dataType arity
  let dataArray : CBaseICEAttributeDataArray := { elementType := elementType, elements := [] }
  { s with
    channels := s.channels ++ [data]
    attributes := s.attributes ++ [attr]
    dataArrays := s.dataArrays ++ [attr.GetDataArray dataArray] }

/-- Body of the attribute loop of `ScanForChannels`; each `continue` leaves
the stream as it is. -/
def scanAttribute (table : StringMap) (s : SIPointCloudParticleStream) (attr : ICEAttribute) :
    SIPointCloudParticleStream :=
  if attr.defined = false ∨ attr.context ≠ siICENodeContextType.siICENodeContextComponent0D then
    s
  else
    match table.find attr.name with
    | none => s
    | some krakName =>
      match attr.dataType with
      | .siICENodeDataBool =>
          acceptAttribute s attr krakName .DATA_TYPE_UINT8 1 .siICENodeDataBool
      | .siICENodeDataLong =>
          acceptAttribute s attr krakName .DATA_TYPE_INT32 1 .siICENodeDataLong
      | .siICENodeDataFloat =>
          acceptAttribute s attr krakName .DATA_TYPE_FLOAT32 1 .siICENodeDataFloat
      | .siICENodeDataVector2 =>
          acceptAttribute s attr krakName .DATA_TYPE_FLOAT32 2 .siICENodeDataVector2
      | .siICENodeDataVector3 =>
          acceptAttribute s attr krakName .DATA_TYPE_FLOAT32 3 .siICENodeDataVector3
      | .siICENodeDataVector4 =>
          acceptAttribute s attr krakName .DATA_TYPE_FLOAT32 4 .siICENodeDataVector4
      | .siICENodeDataQuaternion =>
          acceptAttribute s attr krakName .DATA_TYPE_FLOAT32 4 .siICENodeDataQuaternion
      | .siICENodeDataColor4 =>
          acceptAttribute s attr krakName .DATA_TYPE_FLOAT32 3 .siICENodeDataColor4
      | .siICENodeDataRotation =>
          acceptAttribute s attr krakName .DATA_TYPE_FLOAT32 4 .siICENodeDataRotation
      | _ => s

/-- `SIPointCloudParticleStream::ScanForChannels`, reading the static table
`table`. -/
def ScanForChannels (table : StringMap) (s : SIPointCloudParticleStream) :
    SIPointCloudParticleStream :=
  let s := { s with particleCount := (s.geometry.pointCount : Int), attributes := [], channels := [] }
  if s.particleCount = 0 then
    s
  else
    s.geometry.attributes.foldl (scanAttribute table) s

/-- The constructor of `SIPointCloudParticleStream`, run while the static
table holds `static`: the member initialisers, the first-time fill of the
table, the scan. It hands back the table and the new stream. -/
def SIPointCloudParticleStream.construct (static : StringMap) (geometry : Geometry) :
    StringMap × SIPointCloudParticleStream :=
  let s : SIPointCloudParticleStream :=
    { geometry := geometry, attributes := [], channels := [], particleCount := -1,
      particleIndex := 0, dataArrays := [], appended := [] }
  let table := initMappings static
  (table, ScanForChannels table s)

/-- The stream `new SIPointCloudParticleStream(geometry)` yields. -/
def SIPointCloudParticleStream.create (geometry : Geometry) : SIPointCloudParticleStream :=
  (SIPointCloudParticleStream.construct [] geometry).2

/-- What one call of `get_next_particle` leaves behind: the record buffer, the
returned flag and the stream. -/
structure PullResult where
  particleData : Record
  ret : Bool
  stream : SIPointCloudParticleStream

/-- Body of the channel loop of `get_next_particle` for channel `i`: the
`switch` on the attribute type. Only the five listed types have a case; for
the others nothing is written. -/
def copyChannel (particleIndex : Int) (particleData : Record)
    (attr : ICEAttribute) (cd : channel_data) (pDataArray : CBaseICEAttributeDataArray) :
    Record :=
  match attr.dataType with
  | .siICENodeDataLong =>
      set_channel_value cd particleData (rawScalars (pDataArray.index (toULONG particleIndex)))
  | .siICENodeDataFloat =>
      set_channel_value cd particleData (rawScalars (pDataArray.index (toULONG particleIndex)))
  | .siICENodeDataVector3 =>
      set_channel_value cd particleData (rawScalars (pDataArray.index (toULONG particleIndex)))
  | .siICENodeDataVector4 =>
      set_channel_value cd particleData (rawScalars (pDataArray.index (toULONG particleIndex)))
  | .siICENodeDataColor4 =>
      set_channel_value cd particleData (rawScalars (pDataArray.index (toULONG particleIndex)))
  | _ => particleData

/-- The channel loop of `get_next_particle`, `i` running over `channels`
with `attributes[i]` and `dataArrays[i]` alongside (the three vectors grow
together in `ScanForChannels`). -/
def copyChannels (particleIndex : Int) :
    Record → List ICEAttribute → List channel_data → List CBaseICEAttributeDataArray → Record
  | particleData, attr :: attrs, cd :: cds, arr :: arrs =>
      copyChannels particleIndex (copyChannel particleIndex particleData attr cd arr) attrs cds arrs
  | particleData, _, _, _ => particleData

/-- `SIPointCloudParticleStream::get_next_particle`. -/
def get_next_particle (s : SIPointCloudParticleStream) (particleData : Record) : PullResult :=
  let written := copyChannels s.particleIndex particleData s.attributes s.channels s.dataArrays
  let next := wrapINT64 (s.particleIndex + 1)
  { particleData := written
    ret := decide (next ≤ s.particleCount)
    stream := { s with particleIndex := next } }

/-- `SIPointCloudParticleStream::close`. -/
def close (s : SIPointCloudParticleStream) : SIPointCloudParticleStream :=
  { s with particleIndex := 0 }

/-- `SIPointCloudParticleStream::particle_count`; the thrown `std::exception`
is the error of the result. -/
def particle_count (s : SIPointCloudParticleStream) : Except String Int :=
  if s.particleCount = -1 then
    Except.error "particle_count() called before attributes were scanned"
  else
    Except.ok s.particleCount

/-- The stream after `get_next_particle` has been called once for each buffer
of `bufs`, in order. -/
def afterCalls (s : SIPointCloudParticleStream) : List Record → SIPointCloudParticleStream
  | [] => s
  | buf :: bufs => afterCalls (get_next_particle s buf).stream bufs

/-- What successive calls of `get_next_particle`, one per buffer of `bufs`,
hand back: for each call the record written and the flag returned. -/
def pullAll (s : SIPointCloudParticleStream) : List Record → List (Record × Bool)
  | [] => []
  | buf :: bufs =>
      let r := get_next_particle s buf
      (r.particleData, r.ret) :: pullAll r.stream bufs

/-! ## The statements of the specification -/

/-- The type-driven storage mapping as the specification lists it: storage
type and arity for each of the nine supported attribute types, nothing for
any other type. -/
def specStorage : siICENodeDataType → Option (data_type_t × Nat)
  | .siICENodeDataBool => some (.DATA_TYPE_UINT8, 1)
  | .siICENodeDataLong => some (.DATA_TYPE_INT32, 1)
  | .siICENodeDataFloat => some (.DATA_TYPE_FLOAT32, 1)
  | .siICENodeDataVector2 => some (.DATA_TYPE_FLOAT32, 2)
  | .siICENodeDataVector3 => some (.DATA_TYPE_FLOAT32, 3)
  | .siICENodeDataVector4 => some (.DATA_TYPE_FLOAT32, 4)
  | .siICENodeDataQuaternion => some (.DATA_TYPE_FLOAT32, 4)
  | .siICENodeDataColor4 => some (.DATA_TYPE_FLOAT32, 3)
  | .siICENodeDataRotation => some (.DATA_TYPE_FLOAT32, 4)
  | _ => none

/-- The nine attribute types the specification calls supported. -/
def supportedType (t : siICENodeDataType) : Bool :=
  decide (t ∈ [siICENodeDataType.siICENodeDataBool, .siICENodeDataLong, .siICENodeDataFloat,
    .siICENodeDataVector2, .siICENodeDataVector3, .siICENodeDataVector4,
    .siICENodeDataQuaternion, .siICENodeDataColor4, .siICENodeDataRotation])

/-- The attributes the specification says become channels: defined, of
per-point (0-D) context, with a name the table resolves, of a supported
type. -/
def accepted (table : StringMap) (attr : ICEAttribute) : Bool :=
  attr.defined
    && decide (attr.context = siICENodeContextType.siICENodeContextComponent0D)
    && (table.find attr.name).isSome
    && supportedType attr.dataType

/-- How the specification pairs an accepted attribute with its channel
descriptor: the channel carries the engine name the table gives for the
attribute name and the storage the attribute type calls for. -/
def describes (table : StringMap) (attr : ICEAttribute) (cd : channel_data) : Prop :=
  table.find attr.name = some cd.name ∧ specStorage attr.dataType = some (cd.dataType, cd.arity)

/-- The 18 host names the specification says resolve to themselves. -/
def selfMappedNames : List String :=
  ["Color", "Density", "Lighting", "MBlurTime", "Absorption", "Emission", "Tangent",
   "SpecularPower", "SpecularLevel", "DiffuseLevel", "GlintGlossiness", "GlintLevel",
   "GlintSize", "Specular2Glossiness", "Specular2Level", "Specular2Shift",
   "SpecularGlossiness", "SpecularShift"]

/-- The 23 host names the specification says the table resolves. -/
def resolvedNames : List String :=
  ["Eccentricity", "PhaseEccentricity", "PointPosition", "PointNormal", "PointVelocity"]
    ++ selfMappedNames

/-- The names whose assignments are commented out in the constructor. -/
def commentedOutNames : List String :=
  ["Mapping2", "Mapping3", "Mapping4", "Mapping5", "Mapping6", "Mapping7", "Mapping8",
   "Mapping9", "Orientation", "Rotation", "Spin", "ID"]

/-- The resolution the specification states: both spellings of eccentricity
give `Eccentricity`, the three `Point...` names lose their prefixed part, 18
names give themselves, every other name gives nothing. -/
def specResolve (hostName : String) : Option String :=
  if hostName = "Eccentricity" ∨ hostName = "PhaseEccentricity" then some "Eccentricity"
  else if hostName = "PointPosition" then some "Position"
  else if hostName = "PointNormal" then some "Normal"
  else if hostName = "PointVelocity" then some "Velocity"
  else if hostName ∈ selfMappedNames then some hostName
  else none

/-! ## Sample inputs -/

/-- A point cloud of two points with a position (3-vector), a boolean
attribute stored under the mapped name `Density`, and a 3x3 matrix attribute.
The float32 patterns are those of 1.0, 2.0, 3.0 and 0.5. -/
def sampleCloud : Geometry :=
  { name := "cloud"
    pointCount := 2
    attributes :=
      [ { name := "PointPosition", defined := true,
          context := .siICENodeContextComponent0D, dataType := .siICENodeDataVector3,
          values := [.vector3 1065353216 1073741824 1077936128, .vector3 1056964608 0 0] },
        { name := "Tangent", defined := true,
          context := .siICENodeContextComponent0D, dataType := .siICENodeDataMatrix33,
          values := [.matrix [0, 0, 0, 0, 0, 0, 0, 0, 0], .matrix [0, 0, 0, 0, 0, 0, 0, 0, 0]] },
        { name := "Density", defined := true,
          context := .siICENodeContextComponent0D, dataType := .siICENodeDataBool,
          values := [.bool true, .bool false] } ] }

/-! ## Frame buffer compositor: float32 arithmetic

The compositor computes with `float`. A finite float32 value is carried as the
rational number it denotes; every arithmetic operation is the exact operation
followed by rounding to the nearest float32 (ties to even, 24-bit significand,
gradual underflow). NaN, the infinities and overflow are left out. `pow` is
the C library's and is a parameter wherever it is used. -/

/-- A finite float32 value, as the rational it denotes. -/
abbrev float := Rat

/-- Number of binary digits of `n`, counted with at most `fuel` halvings
(`fuel = n` is always enough). -/
def bitLength : Nat → Nat → Nat
  | 0, _ => 0
  | fuel + 1, n => if n = 0 then 0 else bitLength fuel (n / 2) + 1

/-- The integer `e` with `2 ^ e ≤ x < 2 ^ (e + 1)`, for a positive `x`. -/
def floorLog2 (x : Rat) : Int :=
  let n := x.num.natAbs
  let e : Int := ((bitLength n n : Nat) : Int) - ((bitLength x.den x.den : Nat) : Int)
  if x < (2 : Rat) ^ e then e - 1 else e

/-- The integer nearest to `x`, the even one of the two when `x` lies halfway. -/
def roundNearestEven (x : Rat) : Int :=
  let f : Int := x.num / (x.den : Int)
  let r : Rat := x - (f : Rat)
  if r < 1 / 2 then f
  else if 1 / 2 < r then f + 1
  else if f % 2 = 0 then f else f + 1

/-- Rounding of an exact result to float32. -/
def roundToFloat (x : Rat) : float :=
  if x = 0 then 0
  else
    let e := max (floorLog2 |x|) (-126)
    let quantum : Rat := (2 : Rat) ^ (e - 23)
    (roundNearestEven (x / quantum) : Rat) * quantum

/-- The float32 sum `a + b`. -/
def fadd (a b : float) : float := roundToFloat (a + b)

/-- The float32 difference `a - b`. -/
def fsub (a b : float) : float := roundToFloat (a - b)

/-- The float32 product `a * b`. -/
def fmul (a b : float) : float := roundToFloat (a * b)

/-- The float32 quotient `a / b`. -/
def fdiv (a b : float) : float := roundToFloat (a / b)

/-- The cast `(unsigned char)` of a float: the fraction is dropped. The cast is
only defined for values that fit a byte; elsewhere the model keeps the low
eight bits. -/
def toUnsignedChar (x : float) : Nat :=
  ((if 0 ≤ x then x.num / (x.den : Int) else -((-x.num) / (x.den : Int))) % 256).toNat

/-- The function `linearToSRGB`; `pow` is the C library function. -/
def linearToSRGB (pow : float → float → float) (v : float) : Nat :=
  if v ≤ 0 then 0
  else if 1 ≤ v then 255
  else if v ≤ roundToFloat (31308 / 10000000) then
    toUnsignedChar (fadd (fmul (fmul (roundToFloat (1292 / 100)) v) 255) (1 / 2))
  else
    toUnsignedChar
      (fadd
        (fmul
          (fsub (fmul (roundToFloat (1055 / 1000)) (pow v (fdiv 1 (roundToFloat (24 / 10)))))
            (roundToFloat (55 / 1000)))
          255)
        (1 / 2))

/-! ## Frame buffer compositor: the fragment -/

/-- One pixel of the engine's frame buffer (`frame_buffer_pixel_data`): three
colour components and one alpha per colour component. -/
structure frame_buffer_pixel_data where
  r : float
  g : float
  b : float
  r_alpha : float
  g_alpha : float
  b_alpha : float
  deriving DecidableEq, Repr

/-- The struct `RGBA`: four bytes. -/
structure RGBA where
  r : Nat
  g : Nat
  b : Nat
  a : Nat
  deriving DecidableEq, Repr

/-- The bit depths the host may ask a scanline in (`siImageBitDepth`);
`GetScanlineRGBA` does not look at it. -/
inductive siImageBitDepth where
  | siImageBitDepthUnknown
  | siImageBitDepthInteger8
  | siImageBitDepthInteger16
  | siImageBitDepthInteger32
  | siImageBitDepthFloat16
  | siImageBitDepthFloat32
  deriving DecidableEq, Repr

/-- Value of an `unsigned int` after an operation whose exact result is `n`. -/
def wrapUInt (n : Nat) : Nat := n % 4294967296

/-- Conversion of an `int` to `unsigned int`. -/
def toUnsignedInt (x : Int) : Nat := (x % 4294967296).toNat

/-- State of a `KrakFragment`. `pLastData` is `none` for the null pointer and
otherwise the buffer the pointer refers to. -/
structure KrakFragment where
  krakWidth : Nat
  krakHeight : Nat
  fragWidth : Nat
  fragHeight : Nat
  offsetX : Nat
  offsetY : Nat
  pLastData : Option (List frame_buffer_pixel_data)
  deriving DecidableEq, Repr

/-- The constructor of `KrakFragment`. -/
def KrakFragment.create (fragWidth fragHeight offsetX offsetY : Nat) : KrakFragment :=
  { fragWidth := fragWidth, fragHeight := fragHeight, krakWidth := 0, krakHeight := 0,
    offsetX := offsetX, offsetY := offsetY, pLastData := none }

/-- The method `KrakFragment::Update`. -/
def KrakFragment.Update (f : KrakFragment) (width height : Int)
    (data : Option (List frame_buffer_pixel_data)) : KrakFragment :=
  { f with krakWidth := toUnsignedInt width, krakHeight := toUnsignedInt height,
           pLastData := data }

/-- The fragment after a sequence of `Update` calls, given by their
arguments. -/
def KrakFragment.afterUpdates (f : KrakFragment) :
    List (Int × Int × Option (List frame_buffer_pixel_data)) → KrakFragment
  | [] => f
  | (width, height, data) :: rest => (f.Update width height data).afterUpdates rest

/-- What a read past the end of the source buffer yields; the language leaves
it unspecified. -/
def frame_buffer_pixel_data.unspecified : frame_buffer_pixel_data :=
  { r := 0, g := 0, b := 0, r_alpha := 0, g_alpha := 0, b_alpha := 0 }

/-- The index `kx + krakY*krakWidth` computed in the loop of `GetScanlineRGBA`
for column `i` of row `in_uiRow`, in `unsigned int` arithmetic. -/
def KrakFragment.sourceIndex (f : KrakFragment) (in_uiRow i : Nat) : Nat :=
  let fullOffsetY := wrapUInt (f.offsetY + in_uiRow)
  let krakY := fullOffsetY
  let krakXStart := f.offsetX
  let kx := wrapUInt (krakXStart + i)
  wrapUInt (kx + wrapUInt (krakY * f.krakWidth))

/-- The four assignments to `pScanline[i]` in the loop of `GetScanlineRGBA`:
sRGB conversion of the three colour components, and for alpha the average of
the three alphas times 255, cast to a byte. -/
def convertPixel (pow : float → float → float) (pKrakPixel : frame_buffer_pixel_data) : RGBA :=
  { r := linearToSRGB pow pKrakPixel.r
    g := linearToSRGB pow pKrakPixel.g
    b := linearToSRGB pow pKrakPixel.b
    a := toUnsignedChar
      (fmul (fdiv (fadd (fadd pKrakPixel.r_alpha pKrakPixel.g_alpha) pKrakPixel.b_alpha) 3) 255) }

/-- The method `KrakFragment::GetScanlineRGBA`: the returned flag and the
output buffer, seen as an array of `RGBA` cells. -/
def KrakFragment.GetScanlineRGBA (pow : float → float → float) (f : KrakFragment)
    (in_uiRow : Nat) (_in_eBitDepth : siImageBitDepth) (out_pScanline : Nat → RGBA) :
    Bool × (Nat → RGBA) :=
  match f.pLastData with
  | none => (false, out_pScanline)
  | some data =>
    (true,
      (List.range f.fragWidth).foldl
        (fun pScanline i =>
          Function.update pScanline i
            (convertPixel pow
              (data.getD (f.sourceIndex in_uiRow i) frame_buffer_pixel_data.unspecified)))
        out_pScanline)

/-- State of an `SIFrameBufferInterface`: the fragment it owns. -/
structure SIFrameBufferInterface where
  pFrag : KrakFragment
  deriving DecidableEq, Repr

/-- The constructor of `SIFrameBufferInterface`; its `int` arguments become the
`unsigned int` parameters of the fragment. -/
def SIFrameBufferInterface.create (cropWidth cropHeight offsetX offsetY : Int) :
    SIFrameBufferInterface :=
  { pFrag := KrakFragment.create (toUnsignedInt cropWidth) (toUnsignedInt cropHeight)
      (toUnsignedInt offsetX) (toUnsignedInt offsetY) }

/-- The callback `set_frame_buffer`: the fragment is updated and then handed to
the host (`ctx.NewFragment`), which is the second component. -/
def SIFrameBufferInterface.set_frame_buffer (fb : SIFrameBufferInterface) (width height : Int)
    (data : Option (List frame_buffer_pixel_data)) : SIFrameBufferInterface × KrakFragment :=
  let frag := fb.pFrag.Update width height data
  ({ fb with pFrag := frag }, frag)

/-- The tile invariant of the specification: the fragment lies inside the
source image. -/
def FrameTileInvariant (f : KrakFragment) : Prop :=
  f.offsetX + f.fragWidth ≤ f.krakWidth ∧ f.offsetY + f.fragHeight ≤ f.krakHeight

instance (f : KrakFragment) : Decidable (FrameTileInvariant f) := by
  unfold FrameTileInvariant
  infer_instance

/-- The alpha byte the specification states: 255 times the mean of the three
alphas, rounded to the nearest integer (exact arithmetic, halves upwards). -/
def specAlpha (a b c : Rat) : Int := ⌊255 * ((a + b + c) / 3) + 1 / 2⌋

/-- A pixel whose three alphas are 0.25 (colour components 0). -/
def quarterAlphaPixel : frame_buffer_pixel_data :=
  { r := 0, g := 0, b := 0, r_alpha := 1 / 4, g_alpha := 1 / 4, b_alpha := 1 / 4 }

/-- A pixel whose alphas are 1.0, 0.0 and 0.0 (colour components 0). -/
def redAlphaPixel : frame_buffer_pixel_data :=
  { r := 0, g := 0, b := 0, r_alpha := 1, g_alpha := 0, b_alpha := 0 }

/-- A fragment of one pixel at offset (0, 0) that has received a 1 x 1 image
holding `quarterAlphaPixel`. -/
def quarterAlphaFragment : KrakFragment :=
  (KrakFragment.create 1 1 0 0).Update 1 1 (some [quarterAlphaPixel])

/-- A stand-in for the C library's `pow` where a closed example needs one. -/
def samplePow : float → float → float := fun v _ => v

/-- A stand-in for the C library's `pow` that is non-decreasing in its first
argument and stays between 0.09 and 1. -/
def clampedPow : float → float → float := fun v _ => max (9 / 100) (min v 1)

/-- A 2 x 2 source image. -/
def sampleImage : List frame_buffer_pixel_data :=
  [quarterAlphaPixel, redAlphaPixel, redAlphaPixel, quarterAlphaPixel]

/-! ## Render session: the host and the engine as `KrakatoaSR_Process` sees them

`KrakatoaSR_Process` is embedded as a function from what the host and the
engine answer during one run (`ProcessInput`) to the returned status and the
log of what the run did to the host, the engine and the heap (`Event`). Log
messages, progress updates and the scalar render settings copied to the engine
are left out of the log. -/

/-- Status codes of the host SDK (`CStatus`). -/
inductive CStatus where
  | OK
  | Fail
  | Abort
  | Unexpected
  | InvalidArgument
  | AccessDenied
  | OutOfMemory
  | NotImpl
  deriving DecidableEq, Repr

/-- Rendering methods of the engine (`rendering_method_t`). -/
inductive rendering_method_t where
  | METHOD_PARTICLE
  | METHOD_VOXEL
  deriving DecidableEq, Repr

/-- What the blocking call `krakatoa.render()` does: it returns its flag or
raises a `std::exception` with a message. -/
inductive RenderOutcome where
  | returned (successful : Bool)
  | raised (what : String)
  deriving DecidableEq, Repr

/-- A host framebuffer: `GetName`, the `Enabled` parameter and the resolved
path with the frame tokens filled in. -/
structure Framebuffer where
  name : String
  enabled : Bool
  resolvedPath : String
  deriving DecidableEq, Repr

/-- A host light: its name, `IsValid` and the `Type` parameter of its
primitive. -/
structure Light where
  name : String
  valid : Bool
  type : Int
  deriving DecidableEq, Repr

/-- What the geometry accessor of a polygon mesh hands out: the two counts,
the triangle vertex indices and the vertex positions (doubles, as the
rationals they denote). -/
structure PolygonMesh where
  triangleCount : Int
  vertexCount : Int
  triangleVertexIndices : List Int
  vertexPositions : List Rat
  deriving DecidableEq, Repr

/-- A member of a host group, seen as the source sees it: as an `X3DObject`
(name, type, polygon mesh geometry if it has a valid one) and as a `Light`. -/
structure GroupMember where
  name : String
  type : String
  polygonMesh : Option PolygonMesh
  light : Light
  deriving DecidableEq, Repr

/-- A host group. -/
structure Group where
  name : String
  members : List GroupMember
  deriving DecidableEq, Repr

/-- One entry of the `Scene` array of the render context: whether it is an
`X3DObject`, the point clouds `FindChildren2` finds below it, whether it is a
valid `Model`, and the groups of that model. -/
structure SceneRef where
  isX3DObject : Bool
  pointClouds : List Geometry
  isModel : Bool
  groups : List Group
  deriving DecidableEq, Repr

/-- Modelled from the spec: the engine's `triangle_mesh`, absent from the
repository: the two declared counts, the vertices and faces set so far, and
the two visibility flags. -/
structure triangle_mesh where
  num_vertices : Int
  num_triangle_faces : Int
  vertex_position : Int → Option (float × float × float)
  face : Int → Option (Int × Int × Int)
  visible_to_camera : Bool
  visible_to_lights : Bool

/-- An object on the heap that `KrakatoaSR_Process` creates with `new` and
has to `delete`: a stream adapter, an occlusion mesh (both numbered in order
of creation) or the EXR file saver. -/
inductive Resource where
  | stream (id : Nat)
  | mesh (id : Nat)
  | saver
  deriving DecidableEq, Repr

/-- What a run of `KrakatoaSR_Process` does, in order. -/
inductive Event where
  | LockSceneData (res : CStatus)
  | UnlockSceneData (res : CStatus)
  | sceneQuery (what : String)
  | created (r : Resource)
  | released (r : Resource)
  | set_render_save_callback (path : Option String)
  | save_output_prt (path : String)
  | add_particle_stream (id : Nat) (stream : SIPointCloudParticleStream)
  | add_mesh (id : Nat)
  | add_light (name : String)
  | NewFrame
  | render (outcome : RenderOutcome)
  | reset_renderer
  deriving DecidableEq, Repr

/-- What the host and the engine answer during one run of
`KrakatoaSR_Process`: the results of the successive `LockSceneData` and
`UnlockSceneData` calls, the attributes of the render context, the parameters
of the renderer property, the scene, and what `render()` does. -/
structure ProcessInput where
  lockResults : Nat → CStatus
  unlockResults : Nat → CStatus
  renderType : String
  fileOutput : Bool
  outputPrt : Bool
  frameBuffers : List Framebuffer
  prtPathExpression : String
  prtOutputResolved : String
  frame : Int
  slash : Char
  folderExists : String → Bool
  method : rendering_method_t
  useOcclusionMeshes : Bool
  occlusionGroupName : String
  useLightGroup : Bool
  lightGroupName : String
  scene : List SceneRef
  lights : List Light
  imageWidth : Nat
  imageHeight : Nat
  cropLeft : Nat
  cropBottom : Nat
  cropWidth : Nat
  cropHeight : Nat
  renderOutcome : RenderOutcome

/-- The guard `LockRendererData`. -/
structure LockRendererData where
  locked : Bool
  deriving DecidableEq, Repr

/-- The local state of a run of `KrakatoaSR_Process` that matters for what it
returns and releases, with the log so far. -/
structure ProcessState where
  trace : List Event
  locker : LockRendererData
  pSaver : Option String
  pStreamInterfaces : List (Nat × SIPointCloudParticleStream)
  meshPtrs : List (Nat × triangle_mesh)

/-- What `KrakatoaSR_Process` leaves behind: the returned status and the
log. -/
structure ProcessResult where
  status : CStatus
  trace : List Event

/-- Either the function returns here with a status, or it goes on. -/
inductive Step where
  | exit (status : CStatus) (st : ProcessState)
  | next (st : ProcessState)

/-- Appends events to the log. -/
def ProcessState.emit (st : ProcessState) (events : List Event) : ProcessState :=
  { st with trace := st.trace ++ events }

/-- Number of `LockSceneData` calls in a log. -/
def lockCalls (t : List Event) : Nat :=
  t.countP (fun e => match e with | .LockSceneData _ => true | _ => false)

/-- Number of `UnlockSceneData` calls in a log. -/
def unlockCalls (t : List Event) : Nat :=
  t.countP (fun e => match e with | .UnlockSceneData _ => true | _ => false)

/-- The method `LockRendererData::lock`. -/
def LockRendererData.lock (inp : ProcessInput) (st : ProcessState) : CStatus × ProcessState :=
  if st.locker.locked = false then
    let res := inp.lockResults (lockCalls st.trace)
    let st := st.emit [Event.LockSceneData res]
    if res = CStatus.OK then (res, { st with locker := { locked := true } }) else (res, st)
  else
    (CStatus.OK, st)

/-- The method `LockRendererData::unlock`. -/
def LockRendererData.unlock (inp : ProcessInput) (st : ProcessState) : CStatus × ProcessState :=
  if st.locker.locked then
    let res := inp.unlockResults (unlockCalls st.trace)
    let st := st.emit [Event.UnlockSceneData res]
    if res = CStatus.OK then (res, { st with locker := { locked := false } }) else (res, st)
  else
    (CStatus.OK, st)

/-- A `return` of `KrakatoaSR_Process`: the guard goes out of scope, its
destructor calls `unlock()`, and the status is handed to the host. -/
def leave (inp : ProcessInput) (status : CStatus) (st : ProcessState) : ProcessResult :=
  { status := status, trace := (LockRendererData.unlock inp st).2.trace }

/-! ## Render session: strings -/

/-- `CString::ReverseFindString` for a one-character pattern: the index of
the last occurrence, `none` for `ULONG_MAX`. -/
def reverseFind : List Char → Char → Option Nat
  | [], _ => none
  | x :: rest, c =>
    match reverseFind rest c with
    | some i => some (i + 1)
    | none => if x = c then some 0 else none

/-- `CString::ReverseFindString`, for the one-character patterns the source
uses. -/
def ReverseFindString (s : String) (c : Char) : Option Nat := reverseFind s.toList c

/-- `CString::GetSubString` from an index to the end. -/
def GetSubString (s : String) (start : Nat) : String := String.mk (s.toList.drop start)

/-- `CString::GetSubString` with a length. -/
def GetSubStringLen (s : String) (start len : Nat) : String :=
  String.mk ((s.toList.drop start).take len)

/-- `CString::Lower`. -/
def Lower (s : String) : String := String.mk (s.toList.map Char.toLower)

/-- `CString::FindString(pattern) != ULONG_MAX`. -/
def containsString (s pattern : String) : Bool := decide (pattern.toList <:+: s.toList)

/-- The text `sprintf` writes for `%04d`. -/
def format04d (n : Int) : String :=
  let digits := toString n.natAbs
  if n < 0 then "-" ++ String.mk (List.replicate (3 - digits.length) '0') ++ digits
  else String.mk (List.replicate (4 - digits.length) '0') ++ digits

/-! ## Render session: the phases of `KrakatoaSR_Process` -/

/-- The function `AddLight`: it reads the parameters of the light and
registers a point, direct or spot light; the `switch` has no case for any
other value of `Type`. -/
def AddLight (st : ProcessState) (light : Light) : ProcessState :=
  let st := st.emit [Event.sceneQuery "light"]
  if light.type = 0 ∨ light.type = 1 ∨ light.type = 2 then
    st.emit [Event.add_light light.name]
  else
    st

/-- A `triangle_mesh` as `new triangle_mesh()` leaves it. -/
def triangle_mesh.empty : triangle_mesh :=
  { num_vertices := 0, num_triangle_faces := 0, vertex_position := fun _ => none,
    face := fun _ => none, visible_to_camera := true, visible_to_lights := true }

/-- The calls `AddOcclusionMesh` makes on the new mesh: the two counts are
taken from the lengths of the position and index arrays, then one
`set_vertex_position` per vertex and one `set_face` per triangle. -/
def fillTriangleMesh (geom : PolygonMesh) : triangle_mesh :=
  let triCount := geom.triangleCount
  let vertCount := geom.vertexCount
  let indices := geom.triangleVertexIndices
  let verts := geom.vertexPositions
  let pMesh := triangle_mesh.empty
  let pMesh := { pMesh with num_vertices := (verts.length : Int) }
  let pMesh := { pMesh with num_triangle_faces := (indices.length : Int) }
  let pMesh := (List.range vertCount.toNat).foldl
    (fun (pMesh : triangle_mesh) i =>
      { pMesh with
        vertex_position :=
          (Function.update pMesh.vertex_position (Int.ofNat i)
            (some (roundToFloat (verts.getD (i * 3 + 0) 0),
              roundToFloat (verts.getD (i * 3 + 1) 0),
              roundToFloat (verts.getD (i * 3 + 2) 0)))) })
    pMesh
  let pMesh := (List.range triCount.toNat).foldl
    (fun (pMesh : triangle_mesh) i =>
      { pMesh with
        face :=
          (Function.update pMesh.face (Int.ofNat i)
            (some (indices.getD (i * 3 + 0) 0, indices.getD (i * 3 + 1) 0,
              indices.getD (i * 3 + 2) 0))) })
    pMesh
  { pMesh with visible_to_camera := true, visible_to_lights := true }

/-- The function `AddOcclusionMesh`: a null pointer when the object has no
valid polygon mesh, otherwise a new mesh, filled and registered with the
engine. The new object is numbered by how many meshes were created before. -/
def AddOcclusionMesh (st : ProcessState) (obj3d : GroupMember) :
    Option (Nat × triangle_mesh) × ProcessState :=
  let st := st.emit [Event.sceneQuery "polygon mesh"]
  match obj3d.polygonMesh with
  | none => (none, st)
  | some geom =>
    let id := st.meshPtrs.length
    let pMesh := fillTriangleMesh geom
    (some (id, pMesh), st.emit [Event.created (Resource.mesh id), Event.add_mesh id])

/-- Body of the loop over the members of the occlusion group. -/
def visitOcclusionMember (st : ProcessState) (gchild : GroupMember) : ProcessState :=
  let st := st.emit [Event.sceneQuery "group member"]
  if gchild.type = "polymsh" then
    match AddOcclusionMesh st gchild with
    | (some pMesh, st) => { st with meshPtrs := st.meshPtrs ++ [pMesh] }
    | (none, st) => st
  else
    st

/-- Body of the loop over the members of the light group. -/
def visitLightMember (st : ProcessState) (member : GroupMember) : ProcessState :=
  let st := st.emit [Event.sceneQuery "group member"]
  if member.light.valid then AddLight st member.light else st

/-- Body of the loop over the groups of a model. -/
def visitGroup (inp : ProcessInput) (st : ProcessState) (group : Group) : ProcessState :=
  let st := st.emit [Event.sceneQuery "group"]
  if inp.useOcclusionMeshes = true ∧ group.name = inp.occlusionGroupName then
    group.members.foldl visitOcclusionMember st
  else if inp.method = rendering_method_t.METHOD_PARTICLE ∧ inp.useLightGroup = true
      ∧ group.name = inp.lightGroupName then
    group.members.foldl visitLightMember st
  else
    st

/-- Body of the loop over the point clouds below a scene object: an empty
cloud is skipped, any other is wrapped in a new stream, which is kept in
`pStreamInterfaces` and handed to the engine. The new object is numbered by
how many streams were created before. -/
def addPointCloud (st : ProcessState) (geom : Geometry) : ProcessState :=
  let st := st.emit [Event.sceneQuery "point cloud"]
  if geom.pointCount = 0 then
    st
  else
    let id := st.pStreamInterfaces.length
    let pStream := SIPointCloudParticleStream.create geom
    let st := st.emit [Event.created (Resource.stream id)]
    let st := { st with pStreamInterfaces := st.pStreamInterfaces ++ [(id, pStream)] }
    st.emit [Event.add_particle_stream id pStream]

/-- Body of the loop over the `Scene` array. -/
def visitSceneRef (inp : ProcessInput) (st : ProcessState) (ref : SceneRef) : ProcessState :=
  if ref.isX3DObject then
    let st := ref.pointClouds.foldl addPointCloud st
    if inp.useOcclusionMeshes = true ∨ inp.useLightGroup = true then
      if ref.isModel then ref.groups.foldl (visitGroup inp) st else st
    else
      st
  else
    st

/-- The block after the scene loop: without a light group, and in particle
mode only, every light of the `Lights` array is added. -/
def addSceneLights (inp : ProcessInput) (st : ProcessState) : ProcessState :=
  if inp.method = rendering_method_t.METHOD_PARTICLE ∧ inp.useLightGroup = false then
    inp.lights.foldl AddLight st
  else
    st

/-- The engine is told to save nothing (`&noSave`). -/
def useNoSave (st : ProcessState) : Step :=
  Step.next (st.emit [Event.set_render_save_callback none])

/-- The block that adds the file saver. For the first framebuffer called
`Main`, if it is enabled: when the resolved path has a dot, the text after the
last dot, in lower case, must be `exr` or the function returns `Abort`; then
the saver is created and registered. -/
def setupFileSaver (inp : ProcessInput) (st : ProcessState) : Step :=
  if inp.renderType ≠ "Region" ∧ inp.fileOutput = true ∧ inp.outputPrt = false then
    let st := st.emit [Event.sceneQuery "framebuffers"]
    match inp.frameBuffers.find? (fun fb => fb.name == "Main") with
    | some fb =>
      if fb.enabled then
        let pathWithFrame := fb.resolvedPath
        let unsupported : Bool :=
          match ReverseFindString pathWithFrame '.' with
          | some dotindex => decide (Lower (GetSubString pathWithFrame (dotindex + 1)) ≠ "exr")
          | none => false
        if unsupported then
          Step.exit CStatus.Abort st
        else
          let st := st.emit [Event.created Resource.saver]
          let st := { st with pSaver := some pathWithFrame }
          Step.next (st.emit [Event.set_render_save_callback (some pathWithFrame)])
      else
        useNoSave st
    | none => useNoSave st
  else
    useNoSave st

/-- The block that sets up `.prt` output: outside a region render the
resolved path must have a dot, a directory part and a directory that exists,
or the function returns `Fail`. -/
def setupPrtOutput (inp : ProcessInput) (st : ProcessState) : Step :=
  if inp.outputPrt then
    if inp.renderType = "Region" then
      Step.next st
    else
      let st := st.emit [Event.sceneQuery "prt settings"]
      let hasFrameToken :=
        containsString inp.prtPathExpression "[Frame]"
          || containsString inp.prtPathExpression "[frame]"
      let prtOutputResolved := inp.prtOutputResolved
      match ReverseFindString prtOutputResolved '.' with
      | none => Step.exit CStatus.Fail st
      | some dotindex =>
        let ext := GetSubString prtOutputResolved dotindex
        match ReverseFindString prtOutputResolved inp.slash with
        | none => Step.exit CStatus.Fail st
        | some lastSlash =>
          let dir := GetSubStringLen prtOutputResolved 0 lastSlash
          let fname := GetSubString prtOutputResolved (lastSlash + 1)
          if inp.folderExists dir = false then
            Step.exit CStatus.Fail st
          else
            let fnameNoExt :=
              GetSubStringLen fname 0 ((ReverseFindString fname '.').getD 4294967295)
            let outputPath :=
              if hasFrameToken = false then
                dir ++ String.singleton inp.slash ++ (fnameNoExt ++ ("." ++ format04d inp.frame) ++ ext)
              else
                prtOutputResolved
            Step.next (st.emit [Event.save_output_prt outputPath])
  else
    Step.next st

/-- The three `delete` blocks that follow `render()` in both branches of the
`try`: every stream of `pStreamInterfaces`, every mesh of `meshPtrs`, and the
saver if there is one. -/
def releaseAll (st : ProcessState) : ProcessState :=
  let st := st.emit (st.pStreamInterfaces.map (fun p => Event.released (Resource.stream p.1)))
  let st := { st with pStreamInterfaces := [] }
  let st := st.emit (st.meshPtrs.map (fun p => Event.released (Resource.mesh p.1)))
  let st := { st with meshPtrs := [] }
  match st.pSaver with
  | some _ => { st.emit [Event.released Resource.saver] with pSaver := none }
  | none => st

/-- The `try` block with its `catch`: the blocking `render()`, the reset of
the engine, the releases, and the status the outcome maps to. -/
def renderAndRelease (inp : ProcessInput) (st : ProcessState) : CStatus × ProcessState :=
  match inp.renderOutcome with
  | RenderOutcome.returned successful =>
    let st := st.emit [Event.render (RenderOutcome.returned successful)]
    let st := st.emit [Event.reset_renderer]
    let st := releaseAll st
    if successful = false then (CStatus.Abort, st) else (CStatus.OK, st)
  | RenderOutcome.raised what =>
    let st := st.emit [Event.render (RenderOutcome.raised what)]
    let st := st.emit [Event.reset_renderer]
    let st := releaseAll st
    (CStatus.Fail, st)

/-- Everything between the first `lock()` and the `unlock()` before the
render call: the reads of the context and of the renderer property, the file
saver, the camera, the `.prt` output, the scene loop and the scene lights. -/
def snapshotScene (inp : ProcessInput) (st : ProcessState) : Step :=
  let st := st.emit [Event.sceneQuery "render context", Event.sceneQuery "renderer property"]
  match setupFileSaver inp st with
  | Step.exit status st => Step.exit status st
  | Step.next st =>
    let st := st.emit [Event.sceneQuery "camera"]
    match setupPrtOutput inp st with
    | Step.exit status st => Step.exit status st
    | Step.next st =>
      let st := st.emit [Event.sceneQuery "group settings"]
      let st := inp.scene.foldl (visitSceneRef inp) st
      Step.next (addSceneLights inp st)

/-- The callback `KrakatoaSR_Process`. -/
def KrakatoaSR_Process (inp : ProcessInput) : ProcessResult :=
  let st : ProcessState :=
    { trace := [], locker := { locked := false }, pSaver := none, pStreamInterfaces := [],
      meshPtrs := [] }
  let (res, st) := LockRendererData.lock inp st
  if res ≠ CStatus.OK then
    leave inp CStatus.Abort st
  else
    match snapshotScene inp st with
    | Step.exit status st => leave inp status st
    | Step.next st =>
      let (res, st) := LockRendererData.unlock inp st
      if res ≠ CStatus.OK then
        leave inp CStatus.Abort st
      else
        let st := st.emit [Event.NewFrame]
        let (status, st) := renderAndRelease inp st
        leave inp status st

/-- The fragment a run of `KrakatoaSR_Process` creates for the host's tile
protocol: the crop window of the render context. -/
def processFrameBufferInterface (inp : ProcessInput) : SIFrameBufferInterface :=
  SIFrameBufferInterface.create inp.cropWidth inp.cropHeight inp.cropLeft inp.cropBottom

/-! ## Render session: reading the log -/

/-- Whether the log holds a call of `render()`. -/
def renderInvoked (t : List Event) : Bool :=
  t.any (fun e => match e with | .render _ => true | _ => false)

/-- The streams handed to the engine with `add_particle_stream`, in order. -/
def registeredStreams (t : List Event) : List SIPointCloudParticleStream :=
  t.filterMap (fun e => match e with | .add_particle_stream _ stream => some stream | _ => none)

/-- The events the run can log while it holds the scene lock and reads the
scene: queries, creations and registrations, but no lock call, no release, no
`NewFrame`, no `render()`. -/
def Event.isSnapshot : Event → Bool
  | .sceneQuery _ => true
  | .created _ => true
  | .set_render_save_callback _ => true
  | .save_output_prt _ => true
  | .add_particle_stream _ _ => true
  | .add_mesh _ => true
  | .add_light _ => true
  | _ => false

/-- The state right after a successful first `lock()`. -/
def lockedState : ProcessState :=
  { trace := [Event.LockSceneData CStatus.OK], locker := { locked := true }, pSaver := none,
    pStreamInterfaces := [], meshPtrs := [] }

/-- The `delete`s of `releaseAll`, as events. -/
def releaseEvents (st : ProcessState) : List Event :=
  st.pStreamInterfaces.map (fun p => Event.released (Resource.stream p.1))
    ++ st.meshPtrs.map (fun p => Event.released (Resource.mesh p.1))
    ++ (match st.pSaver with | some _ => [Event.released Resource.saver] | none => [])

/-- The status the specification assigns to an outcome of `render()`: OK for
true, Abort for false, Fail for an exception. -/
def specStatus : RenderOutcome → CStatus
  | .returned true => CStatus.OK
  | .returned false => CStatus.Abort
  | .raised _ => CStatus.Fail

/-- The point clouds of a scene in the order the scene loop meets them. -/
def scenePointClouds : List SceneRef → List Geometry
  | [] => []
  | ref :: rest => (if ref.isX3DObject then ref.pointClouds else []) ++ scenePointClouds rest

/-- Whether a path has the file extension `exr`, in any letter case: the
text after its last dot is `exr`. A path without a dot has no extension. -/
def hasExrExtension (path : String) : Bool :=
  match ReverseFindString path '.' with
  | some dotindex => decide (Lower (GetSubString path (dotindex + 1)) = "exr")
  | none => false

/-- The log of `st2` continues the log of `st1` with snapshot events that
register exactly the streams `streams`, and the guard is as it was. -/
def Extends (streams : List SIPointCloudParticleStream) (st1 st2 : ProcessState) : Prop :=
  st2.locker = st1.locker ∧
    ∃ events : List Event, st2.trace = st1.trace ++ events ∧
      (∀ e ∈ events, e.isSnapshot = true) ∧ registeredStreams events = streams

/-- Calls of the host's scene lock. -/
def Event.isLockOperation : Event → Bool
  | .LockSceneData _ => true
  | .UnlockSceneData _ => true
  | _ => false

/-- The streams the specification says a run registers: one for every point
cloud of the scene that has points, in traversal order. -/
def specRegistered (scene : List SceneRef) : List SIPointCloudParticleStream :=
  ((scenePointClouds scene).filter (fun g => decide (g.pointCount ≠ 0))).map
    SIPointCloudParticleStream.create

/-! ## Render session: sample runs -/

/-- A triangle. -/
def sampleMesh : PolygonMesh :=
  { triangleCount := 1, vertexCount := 3, triangleVertexIndices := [0, 1, 2],
    vertexPositions := [0, 0, 0, 1, 0, 0, 0, 1, 0] }

/-- A scene object with the two-point sample cloud, an empty cloud, and a
group `Occluders` holding one polygon mesh. -/
def sampleSceneRef : SceneRef :=
  { isX3DObject := true
    pointClouds := [sampleCloud, { name := "empty", pointCount := 0, attributes := [] }]
    isModel := true
    groups :=
      [ { name := "Occluders"
          members :=
            [ { name := "wall", type := "polymsh", polygonMesh := some sampleMesh,
                light := { name := "wall", valid := false, type := 0 } } ] } ] }

/-- A pass render to an EXR file with occlusion meshes and one scene light,
in which the host grants and releases the lock and `render()` returns
true. -/
def sampleInput : ProcessInput :=
  { lockResults := fun _ => CStatus.OK
    unlockResults := fun _ => CStatus.OK
    renderType := "Pass"
    fileOutput := true
    outputPrt := false
    frameBuffers := [{ name := "Main", enabled := true, resolvedPath := "C:/out/render.0001.EXR" }]
    prtPathExpression := ""
    prtOutputResolved := ""
    frame := 1
    slash := '/'
    folderExists := fun _ => true
    method := rendering_method_t.METHOD_PARTICLE
    useOcclusionMeshes := true
    occlusionGroupName := "Occluders"
    useLightGroup := false
    lightGroupName := ""
    scene := [sampleSceneRef]
    lights := [{ name := "key", valid := true, type := 0 }]
    imageWidth := 4
    imageHeight := 4
    cropLeft := 0
    cropBottom := 0
    cropWidth := 4
    cropHeight := 4
    renderOutcome := RenderOutcome.returned true }

/-- The sample run with a host that refuses the scene lock. -/
def lockRefusedInput : ProcessInput :=
  { sampleInput with lockResults := fun _ => CStatus.Fail }

/-- The sample run with a host whose `UnlockSceneData` fails. -/
def unlockFailsInput : ProcessInput :=
  { sampleInput with unlockResults := fun _ => CStatus.Fail }

/-- The sample run with an output path that has no dot at all. -/
def noExtensionInput : ProcessInput :=
  { sampleInput with
    frameBuffers := [{ name := "Main", enabled := true, resolvedPath := "render" }] }

/-- The sample run with an output path that ends in `.pic`. -/
def picExtensionInput : ProcessInput :=
  { sampleInput with
    frameBuffers := [{ name := "Main", enabled := true, resolvedPath := "C:/out/render.pic" }] }

/-- The sample run with `.prt` output to a path that has no dot. -/
def prtNoExtensionInput : ProcessInput :=
  { sampleInput with outputPrt := true, prtOutputResolved := "C:/out/particles" }

/-! ## Reads of the columns -/

/-- The index at which the `switch` of `get_next_particle` reads the data
array of a channel: the cursor, cast to `ULONG`, in the five cases that copy a
value, nothing in the others. -/
def readsOfChannel (particleIndex : Int) (attr : ICEAttribute) : List Nat :=
  match attr.dataType with
  | .siICENodeDataLong => [toULONG particleIndex]
  | .siICENodeDataFloat => [toULONG particleIndex]
  | .siICENodeDataVector3 => [toULONG particleIndex]
  | .siICENodeDataVector4 => [toULONG particleIndex]
  | .siICENodeDataColor4 => [toULONG particleIndex]
  | _ => []

/-- The reads of the channel loop of `get_next_particle`, in order: for each
read the index and the length of the data array it is made in. -/
def columnReads (particleIndex : Int) :
    List ICEAttribute → List channel_data → List CBaseICEAttributeDataArray → List (Nat × Nat)
  | attr :: attrs, _ :: cds, arr :: arrs =>
      (readsOfChannel particleIndex attr).map (fun i => (i, arr.elements.length))
        ++ columnReads particleIndex attrs cds arrs
  | _, _, _ => []

/-- The reads the next call of `get_next_particle` on `s` makes. -/
def readsOfCall (s : SIPointCloudParticleStream) : List (Nat × Nat) :=
  columnReads s.particleIndex s.attributes s.channels s.dataArrays

/-- A point cloud of one point that carries both spellings of the
eccentricity attribute (float32 patterns of 0.5 and 0.25). -/
def eccentricCloud : Geometry :=
  { name := "cloud"
    pointCount := 1
    attributes :=
      [ { name := "Eccentricity", defined := true,
          context := .siICENodeContextComponent0D, dataType := .siICENodeDataFloat,
          values := [.float 1056964608] },
        { name := "PhaseEccentricity", defined := true,
          context := .siICENodeContextComponent0D, dataType := .siICENodeDataFloat,
          values := [.float 1048576000] } ] }

/-- The host names of the attributes a scan of `g` accepts. -/
def acceptedNames (g : Geometry) : List String :=
  (g.attributes.filter (accepted channelNameMappings)).map (fun attr => attr.name)

/-- A group member that is the triangle `sampleMesh`. -/
def wallMember : GroupMember :=
  { name := "wall", type := "polymsh", polygonMesh := some sampleMesh,
    light := { name := "wall", valid := false, type := 0 } }

/-! ## Render session: the lock guard -/

/-- Whether the host lock is held after the log `t`, when `held` says whether
it was held before: a `LockSceneData` that returned OK takes it, an
`UnlockSceneData` that returned OK gives it back, nothing else changes it. -/
def heldAfter (held : Bool) (t : List Event) : Bool :=
  t.foldl
    (fun held e =>
      match e with
      | .LockSceneData res => if res = CStatus.OK then true else held
      | .UnlockSceneData res => if res = CStatus.OK then false else held
      | _ => held)
    held

/-- Whether the last successful lock operation of the log was a lock. -/
def lockHeld (t : List Event) : Bool := heldAfter false t

/-- Whether the log keeps the discipline of the guard, starting from `held`:
`LockSceneData` is only called while the lock is not held and
`UnlockSceneData` only while it is held. -/
def disciplined : Bool → List Event → Bool
  | _, [] => true
  | held, .LockSceneData res :: rest =>
      !held && disciplined (if res = CStatus.OK then true else held) rest
  | held, .UnlockSceneData res :: rest =>
      held && disciplined (if res = CStatus.OK then false else held) rest
  | held, _ :: rest => disciplined held rest

/-- The two operations of the guard. -/
inductive GuardOp where
  | lock
  | unlock
  deriving DecidableEq, Repr

/-- The state in which `KrakatoaSR_Process` starts: an empty log, the guard
just constructed, no saver, no streams, no meshes. -/
def initialState : ProcessState :=
  { trace := [], locker := { locked := false }, pSaver := none, pStreamInterfaces := [],
    meshPtrs := [] }

/-- A sequence of `lock()` and `unlock()` calls on the guard. -/
def runGuard (inp : ProcessInput) (st : ProcessState) : List GuardOp → ProcessState
  | [] => st
  | GuardOp.lock :: ops => runGuard inp (LockRendererData.lock inp st).2 ops
  | GuardOp.unlock :: ops => runGuard inp (LockRendererData.unlock inp st).2 ops

/-! ## Render session: lights -/

/-- The names of the lights handed to the engine with `add_light`, in
order. -/
def registeredLights (t : List Event) : List String :=
  t.filterMap (fun e => match e with | .add_light name => some name | _ => none)

/-- The lists `g x`, for `x` running through `xs`, one after the other. -/
def gather {α β : Type} (g : α → List β) : List α → List β
  | [] => []
  | x :: xs => g x ++ gather g xs

/-- What `AddLight` registers for a light: its name if it is a point, direct
or spot light, nothing otherwise. -/
def lightName (light : Light) : List String :=
  if light.type = 0 ∨ light.type = 1 ∨ light.type = 2 then [light.name] else []

/-- What a member of the light group contributes: its light, if it is a valid
one. -/
def memberLight (member : GroupMember) : List String :=
  if member.light.valid then lightName member.light else []

/-- The lights registered from the scene light list: all of them, in particle
mode and with the light-group option off; none otherwise. -/
def specSceneLights (inp : ProcessInput) : List String :=
  if inp.method = rendering_method_t.METHOD_PARTICLE ∧ inp.useLightGroup = false then
    gather lightName inp.lights
  else
    []

/-- The lights registered from one group: its members, if it carries the name
of the light group, in particle mode and with the light-group option on, and
unless the group is taken as the occlusion group; none otherwise. -/
def groupLightsOfGroup (inp : ProcessInput) (group : Group) : List String :=
  if inp.useOcclusionMeshes = true ∧ group.name = inp.occlusionGroupName then
    []
  else if inp.method = rendering_method_t.METHOD_PARTICLE ∧ inp.useLightGroup = true
      ∧ group.name = inp.lightGroupName then
    gather memberLight group.members
  else
    []

/-- The lights registered from the groups of one scene entry. -/
def groupLightsOfRef (inp : ProcessInput) (ref : SceneRef) : List String :=
  if ref.isX3DObject then
    if inp.useOcclusionMeshes = true ∨ inp.useLightGroup = true then
      if ref.isModel then gather (groupLightsOfGroup inp) ref.groups else []
    else
      []
  else
    []

/-- The lights registered from members of the designated light group, over
the whole scene. -/
def specGroupLights (inp : ProcessInput) : List String :=
  gather (groupLightsOfRef inp) inp.scene

/-- The state a step ends in. -/
def Step.state : Step → ProcessState
  | Step.exit _ st => st
  | Step.next st => st

/-- The sample run with the light-group option on and a group `Lamps` that
holds one spot light. -/
def lightGroupInput : ProcessInput :=
  { sampleInput with
    useLightGroup := true
    lightGroupName := "Lamps"
    scene :=
      [ { sampleSceneRef with
          groups := sampleSceneRef.groups ++
            [ { name := "Lamps"
                members :=
                  [ { name := "spot", type := "light", polygonMesh := none,
                      light := { name := "spot", valid := true, type := 2 } } ] } ] } ] }

/-! ## Render session: what the pulls of the engine ask of the host -/

/-- A call on the host SDK made from inside `get_next_particle`:
`attr.GetDataType()` on an attribute of the point cloud, or the indexing of
the SDK data array of an attribute. -/
inductive HostCall where
  | GetDataType (name : String)
  | dataArrayElement (name : String) (index : Nat)
  deriving DecidableEq, Repr

/-- The host calls of the channel loop of `get_next_particle`, in order: for
every channel `attr.GetDataType()`, and in the five cases that copy a value
the indexing of the data array at the cursor. -/
def hostCallsOfChannels (particleIndex : Int) :
    List ICEAttribute → List channel_data → List CBaseICEAttributeDataArray → List HostCall
  | attr :: attrs, _ :: cds, _ :: arrs =>
      HostCall.GetDataType attr.name ::
        ((readsOfChannel particleIndex attr).map (HostCall.dataArrayElement attr.name)
          ++ hostCallsOfChannels particleIndex attrs cds arrs)
  | _, _, _ => []

/-- The host calls the next call of `get_next_particle` on `s` makes. -/
def hostCallsOfCall (s : SIPointCloudParticleStream) : List HostCall :=
  hostCallsOfChannels s.particleIndex s.attributes s.channels s.dataArrays

/-- The host calls of `n` successive calls of `get_next_particle` on `s`. -/
def hostCallsOfCalls (s : SIPointCloudParticleStream) : Nat → List HostCall
  | 0 => []
  | n + 1 => hostCallsOfCall s ++ hostCallsOfCalls (get_next_particle s Record.blank).stream n

/-- Modelled from the spec: the engine, absent from the repository, consumes
the registered particle streams while `render()` runs ("the render engine
consumes particles lazily"): of each stream, in the order of registration, it
pulls `particle_count()` particles with `get_next_particle`. These are the
host calls of those pulls. -/
def hostCallsOfRender (streams : List SIPointCloudParticleStream) : List HostCall :=
  gather
    (fun s =>
      match particle_count s with
      | Except.ok n => hostCallsOfCalls s n.toNat
      | Except.error _ => [])
    streams

/-- The host calls made while `render()` runs in a run with log `t`: those of
the pulls of the streams the run registered, none if `render()` is not
called. -/
def hostCallsDuringRender (t : List Event) : List HostCall :=
  if renderInvoked t then hostCallsOfRender (registeredStreams t) else []

/-! ## Basic facts about the cursor -/

theorem wrapINT64_succ (i : Int) (h0 : 0 ≤ i) (h1 : i < 9223372036854775807) :
    wrapINT64 (i + 1) = i + 1 := by
  unfold wrapINT64
  omega

theorem get_next_particle_stream (s : SIPointCloudParticleStream) (buf : Record) :
    (get_next_particle s buf).stream = { s with particleIndex := wrapINT64 (s.particleIndex + 1) } :=
  rfl

theorem get_next_particle_ret (s : SIPointCloudParticleStream) (buf : Record) :
    (get_next_particle s buf).ret = decide (wrapINT64 (s.particleIndex + 1) ≤ s.particleCount) :=
  rfl

/-- Calls of `get_next_particle` change nothing of a stream but its cursor. -/
theorem afterCalls_frame (bufs : List Record) (s : SIPointCloudParticleStream) :
    afterCalls s bufs = { s with particleIndex := (afterCalls s bufs).particleIndex } := by
  induction bufs generalizing s with
  | nil => rfl
  | cons buf bufs ih =>
    simp only [afterCalls]
    rw [ih]
    simp [get_next_particle_stream]

/-- While the cursor stays in range it counts the calls made. -/
theorem afterCalls_particleIndex (bufs : List Record) (s : SIPointCloudParticleStream)
    (h0 : 0 ≤ s.particleIndex)
    (h1 : s.particleIndex + (bufs.length : Int) ≤ 9223372036854775807) :
    (afterCalls s bufs).particleIndex = s.particleIndex + (bufs.length : Int) := by
  induction bufs generalizing s with
  | nil => simp [afterCalls]
  | cons buf bufs ih =>
    simp only [afterCalls, List.length_cons, Nat.cast_add, Nat.cast_one] at h1 ⊢
    have hw : wrapINT64 (s.particleIndex + 1) = s.particleIndex + 1 :=
      wrapINT64_succ _ h0 (by omega)
    rw [ih]
    · simp only [get_next_particle_stream, hw]; omega
    · simp only [get_next_particle_stream, hw]; omega
    · simp only [get_next_particle_stream, hw]; omega

/-! ## Facts about the scan -/

theorem supportedType_iff_specStorage (t : siICENodeDataType) :
    supportedType t = (specStorage t).isSome := by
  cases t <;> rfl

theorem scanAttribute_rejected (table : StringMap) (s : SIPointCloudParticleStream)
    (attr : ICEAttribute) (h : accepted table attr = false) : scanAttribute table s attr = s := by
  unfold scanAttribute
  unfold accepted at h
  by_cases hd : attr.defined = false
  · simp [hd]
  by_cases hc : attr.context = siICENodeContextType.siICENodeContextComponent0D
  · rw [if_neg (by simp [hd, hc])]
    cases hf : table.find attr.name with
    | none => rfl
    | some krakName =>
      simp only [Bool.not_eq_false] at hd
      simp only [hd, hc, hf, decide_True, Option.isSome_some, Bool.and_self, Bool.true_and] at h
      cases ht : attr.dataType <;> simp_all [supportedType]
  · simp [hc]

theorem scanAttribute_accepted (table : StringMap) (s : SIPointCloudParticleStream)
    (attr : ICEAttribute) (h : accepted table attr = true) :
    ∃ krakName dataType arity,
      table.find attr.name = some krakName ∧ specStorage attr.dataType = some (dataType, arity) ∧
      scanAttribute table s attr = acceptAttribute s attr krakName dataType arity attr.dataType := by
  unfold accepted at h
  simp only [Bool.and_eq_true, decide_eq_true_eq] at h
  obtain ⟨⟨⟨hd, hc⟩, hf⟩, ht⟩ := h
  obtain ⟨krakName, hk⟩ := Option.isSome_iff_exists.mp hf
  unfold scanAttribute
  rw [if_neg (by simp [hd, hc])]
  simp only [hk]
  refine ⟨krakName, ?_⟩
  cases hty : attr.dataType <;> simp_all [supportedType, specStorage] <;>
    exact ⟨_, _, ⟨rfl, rfl⟩, rfl⟩

/-- One step of the attribute loop: a rejected attribute changes nothing, an
accepted one adds itself, its channel and its column at the end. -/
theorem scanAttribute_cases (table : StringMap) (s : SIPointCloudParticleStream)
    (attr : ICEAttribute) :
    (accepted table attr = false ∧ scanAttribute table s attr = s) ∨
    (accepted table attr = true ∧ ∃ cd : channel_data, describes table attr cd ∧
      cd.slot = s.appended.length ∧
      scanAttribute table s attr =
        { s with
          attributes := s.attributes ++ [attr]
          channels := s.channels ++ [cd]
          dataArrays := s.dataArrays ++ [{ elementType := attr.dataType, elements := attr.values }]
          appended := s.appended ++ [cd] }) := by
  cases h : accepted table attr with
  | false => exact Or.inl ⟨rfl, scanAttribute_rejected table s attr h⟩
  | true =>
    obtain ⟨krakName, dataType, arity, hk, hs, he⟩ := scanAttribute_accepted table s attr h
    refine Or.inr ⟨rfl, ⟨krakName, dataType, arity, s.appended.length⟩, ⟨hk, hs⟩, rfl, ?_⟩
    rw [he]
    rfl

/-- The attribute loop keeps, in order, exactly the accepted attributes. -/
theorem scan_attributes (table : StringMap) (attrs : List ICEAttribute)
    (s : SIPointCloudParticleStream) :
    (attrs.foldl (scanAttribute table) s).attributes =
      s.attributes ++ attrs.filter (accepted table) := by
  induction attrs generalizing s with
  | nil => simp
  | cons attr attrs ih =>
    rw [List.foldl_cons, ih]
    rcases scanAttribute_cases table s attr with ⟨h, e⟩ | ⟨h, cd, _, _, e⟩
    · rw [e, List.filter_cons_of_neg (by simp [h])]
    · rw [e, List.filter_cons_of_pos h]
      simp

/-- The attribute loop touches neither the cursor, the count nor the
geometry. -/
theorem scan_frame (table : StringMap) (attrs : List ICEAttribute)
    (s : SIPointCloudParticleStream) :
    (attrs.foldl (scanAttribute table) s).particleIndex = s.particleIndex ∧
    (attrs.foldl (scanAttribute table) s).particleCount = s.particleCount ∧
    (attrs.foldl (scanAttribute table) s).geometry = s.geometry := by
  induction attrs generalizing s with
  | nil => simp
  | cons attr attrs ih =>
    rw [List.foldl_cons]
    obtain ⟨h1, h2, h3⟩ := ih (scanAttribute table s attr)
    rw [h1, h2, h3]
    rcases scanAttribute_cases table s attr with ⟨_, e⟩ | ⟨_, cd, _, _, e⟩
    · rw [e]
      exact ⟨rfl, rfl, rfl⟩
    · rw [e]
      exact ⟨rfl, rfl, rfl⟩

/-- The attribute loop keeps attributes and channels paired: position by
position, the channel is the descriptor of the attribute. -/
theorem scan_describes (table : StringMap) (attrs : List ICEAttribute)
    (s : SIPointCloudParticleStream)
    (h : List.Forall₂ (describes table) s.attributes s.channels) :
    List.Forall₂ (describes table) (attrs.foldl (scanAttribute table) s).attributes
      (attrs.foldl (scanAttribute table) s).channels := by
  induction attrs generalizing s with
  | nil => simpa using h
  | cons attr attrs ih =>
    rw [List.foldl_cons]
    apply ih
    rcases scanAttribute_cases table s attr with ⟨_, e⟩ | ⟨_, cd, hd, _, e⟩
    · rw [e]
      exact h
    · rw [e]
      exact List.rel_append h (List.Forall₂.cons hd List.Forall₂.nil)

/-- The geometry a stream refers to plays no part in the attribute loop. -/
theorem scan_geometry_irrelevant (table : StringMap) (attrs : List ICEAttribute)
    (s : SIPointCloudParticleStream) (g : Geometry) :
    attrs.foldl (scanAttribute table) { s with geometry := g } =
      { attrs.foldl (scanAttribute table) s with geometry := g } := by
  induction attrs generalizing s with
  | nil => rfl
  | cons attr attrs ih =>
    rw [List.foldl_cons, List.foldl_cons, ← ih]
    congr 1
    cases h : accepted table attr with
    | false =>
      rw [scanAttribute_rejected table s attr h, scanAttribute_rejected table _ attr h]
    | true =>
      obtain ⟨krakName, dataType, arity, hk, hs, e1⟩ := scanAttribute_accepted table s attr h
      obtain ⟨krakName2, dataType2, arity2, hk2, hs2, e2⟩ :=
        scanAttribute_accepted table { s with geometry := g } attr h
      rw [hk] at hk2
      rw [hs] at hs2
      cases hk2
      cases hs2
      rw [e1, e2]
      rfl

/-! ## Facts about construction -/

theorem initMappings_nil : initMappings [] = channelNameMappings := rfl

theorem initMappings_channelNameMappings : initMappings channelNameMappings = channelNameMappings := by
  decide

/-- Whether it is the first stream of the process or a later one, the
constructor scans with the same table and builds the same stream. -/
theorem construct_later (g : Geometry) :
    SIPointCloudParticleStream.construct channelNameMappings g =
      (channelNameMappings, SIPointCloudParticleStream.create g) ∧
    SIPointCloudParticleStream.construct [] g =
      (channelNameMappings, SIPointCloudParticleStream.create g) := by
  constructor
  · simp only [SIPointCloudParticleStream.construct, SIPointCloudParticleStream.create,
      initMappings_channelNameMappings, initMappings_nil]
  · rfl

theorem create_empty (g : Geometry) (h : g.pointCount = 0) :
    SIPointCloudParticleStream.create g =
      { geometry := g, attributes := [], channels := [], particleCount := 0,
        particleIndex := 0, dataArrays := [], appended := [] } := by
  simp [SIPointCloudParticleStream.create, SIPointCloudParticleStream.construct,
    ScanForChannels, h]

theorem create_nonempty (g : Geometry) (h : g.pointCount ≠ 0) :
    SIPointCloudParticleStream.create g =
      g.attributes.foldl (scanAttribute channelNameMappings)
        { geometry := g, attributes := [], channels := [], particleCount := (g.pointCount : Int),
          particleIndex := 0, dataArrays := [], appended := [] } := by
  simp [SIPointCloudParticleStream.create, SIPointCloudParticleStream.construct,
    ScanForChannels, h, initMappings_nil]

theorem create_frame (g : Geometry) :
    (SIPointCloudParticleStream.create g).particleIndex = 0 ∧
    (SIPointCloudParticleStream.create g).particleCount = (g.pointCount : Int) ∧
    (SIPointCloudParticleStream.create g).geometry = g := by
  by_cases h : g.pointCount = 0
  · rw [create_empty g h]
    simp [h]
  · rw [create_nonempty g h]
    exact scan_frame _ _ _

theorem close_afterCalls (s : SIPointCloudParticleStream) (h : s.particleIndex = 0)
    (made : List Record) : close (afterCalls s made) = s := by
  rw [afterCalls_frame]
  cases s
  simp only [close] at h ⊢
  simp [h]

theorem afterCalls_particleCount (s : SIPointCloudParticleStream) (made : List Record) :
    (afterCalls s made).particleCount = s.particleCount := by
  rw [afterCalls_frame]

/-! ## The claims -/

/-- C1: on a stream whose cursor is 0 and whose particle count `n` is at
least 1 (and below the largest 64-bit value, as every count read from the
host is), the call of `get_next_particle` that follows `k` earlier calls
returns true whenever `k < n` and false when `k = n`: calls 1 to `n` return
true, call `n + 1` returns false. -/
theorem get_next_particle_true_particleCount_times (s : SIPointCloudParticleStream)
    (hcursor : s.particleIndex = 0) (hn : 1 ≤ s.particleCount)
    (hmax : s.particleCount < 9223372036854775807) (made : List Record) (buf : Record) :
    ((made.length : Int) < s.particleCount →
      (get_next_particle (afterCalls s made) buf).ret = true) ∧
    ((made.length : Int) = s.particleCount →
      (get_next_particle (afterCalls s made) buf).ret = false) := by
  have hidx : (made.length : Int) ≤ s.particleCount →
      (afterCalls s made).particleIndex = (made.length : Int) := by
    intro hle
    have := afterCalls_particleIndex made s (by omega) (by omega)
    omega
  constructor
  · intro hlt
    rw [get_next_particle_ret, hidx (by omega), afterCalls_particleCount,
      wrapINT64_succ _ (by omega) (by omega)]
    exact decide_eq_true (by omega)
  · intro heq
    rw [get_next_particle_ret, hidx (by omega), afterCalls_particleCount,
      wrapINT64_succ _ (by omega) (by omega)]
    exact decide_eq_false (by omega)

/-- Witness of C1 on the two-point sample cloud: calls 1 and 2 return true,
call 3 returns false. -/
theorem get_next_particle_true_particleCount_times_witness :
    (get_next_particle (SIPointCloudParticleStream.create sampleCloud) Record.blank).ret = true ∧
    (get_next_particle (afterCalls (SIPointCloudParticleStream.create sampleCloud)
      [Record.blank]) Record.blank).ret = true ∧
    (get_next_particle (afterCalls (SIPointCloudParticleStream.create sampleCloud)
      [Record.blank, Record.blank]) Record.blank).ret = false :=
  ⟨(get_next_particle_true_particleCount_times (SIPointCloudParticleStream.create sampleCloud)
      (by decide) (by decide) (by decide) [] Record.blank).1 (by decide),
   (get_next_particle_true_particleCount_times (SIPointCloudParticleStream.create sampleCloud)
      (by decide) (by decide) (by decide) [Record.blank] Record.blank).1 (by decide),
   (get_next_particle_true_particleCount_times (SIPointCloudParticleStream.create sampleCloud)
      (by decide) (by decide) (by decide) [Record.blank, Record.blank] Record.blank).2
      (by decide)⟩

/-- C3: whatever calls were already made on a constructed stream, `close()`
followed by further calls of `get_next_particle` hands back, call for call,
the same records and the same flags as the same calls made on the freshly
constructed stream. -/
theorem close_replays_first_pass (g : Geometry) (made bufs : List Record) :
    pullAll (close (afterCalls (SIPointCloudParticleStream.create g) made)) bufs =
      pullAll (SIPointCloudParticleStream.create g) bufs := by
  rw [close_afterCalls _ (create_frame g).1]

/-- C4: `close()` sets the cursor to 0 and leaves the particle count, the
channel descriptors, the attribute list, the extracted columns (and the
geometry and the registered channels) as they were; closing twice is closing
once. -/
theorem close_resets_cursor_only (s : SIPointCloudParticleStream) :
    (close s).particleIndex = 0 ∧
    (close s).particleCount = s.particleCount ∧
    (close s).channels = s.channels ∧
    (close s).attributes = s.attributes ∧
    (close s).dataArrays = s.dataArrays ∧
    (close s).geometry = s.geometry ∧
    (close s).appended = s.appended ∧
    close (close s) = close s :=
  ⟨rfl, rfl, rfl, rfl, rfl, rfl, rfl, rfl⟩

/-- C5: `particle_count()` throws exactly when the count still holds the
not-scanned value -1; on a stream whose constructor has completed, also after
any calls of `get_next_particle` and after `close()`, it does not throw and
returns the number of points the geometry had at scan time. -/
theorem particle_count_throws_iff_not_scanned :
    (∀ s : SIPointCloudParticleStream,
      (∃ msg, particle_count s = Except.error msg) ↔ s.particleCount = -1) ∧
    (∀ (g : Geometry) (made : List Record),
      particle_count (afterCalls (SIPointCloudParticleStream.create g) made) =
        Except.ok (g.pointCount : Int) ∧
      particle_count (close (afterCalls (SIPointCloudParticleStream.create g) made)) =
        Except.ok (g.pointCount : Int)) := by
  constructor
  · intro s
    unfold particle_count
    by_cases h : s.particleCount = -1
    · simp [h]
    · simp [h]
  · intro g made
    have hc : (afterCalls (SIPointCloudParticleStream.create g) made).particleCount =
        (g.pointCount : Int) := by
      rw [afterCalls_particleCount, (create_frame g).2.1]
    have hne : ((g.pointCount : Int) = -1) = False := by
      simp only [eq_iff_iff, iff_false]
      omega
    constructor
    · simp only [particle_count, hc, hne, if_false]
    · have hcl : (close (afterCalls (SIPointCloudParticleStream.create g) made)).particleCount =
          (g.pointCount : Int) := hc
      simp only [particle_count, hcl, hne, if_false]

/-- C6: in every constructed stream the accepted attributes and the
registered channels stand in the same order, and each channel has the storage
type and arity the attribute type alone calls for: boolean (uint8, 1),
integer (int32, 1), float (float32, 1), 2-vector (float32, 2), 3-vector
(float32, 3), 4-vector and quaternion (float32, 4), color (float32, 3),
rotation (float32, 4). -/
theorem channel_storage_by_attribute_type (g : Geometry) :
    List.Forall₂ (fun attr cd => specStorage attr.dataType = some (cd.dataType, cd.arity))
      (SIPointCloudParticleStream.create g).attributes
      (SIPointCloudParticleStream.create g).channels := by
  have h : List.Forall₂ (describes channelNameMappings)
      (SIPointCloudParticleStream.create g).attributes
      (SIPointCloudParticleStream.create g).channels := by
    by_cases h0 : g.pointCount = 0
    · rw [create_empty g h0]
      exact List.Forall₂.nil
    · rw [create_nonempty g h0]
      exact scan_describes _ _ _ List.Forall₂.nil
  exact h.imp (fun _ _ hd => hd.2)

/-- C7: for a point cloud that is not empty, the attributes a constructed
stream keeps are, in host order, exactly those that are defined, of 0-D
context, named in the mapping table and of a supported type; the channels
are their descriptors in the same order; and dropping an attribute of an
unsupported type from the host list changes neither the channels, the kept
attributes nor the extracted columns. -/
theorem scan_keeps_exactly_accepted (g : Geometry) (h : g.pointCount ≠ 0) :
    (SIPointCloudParticleStream.create g).attributes =
      g.attributes.filter (accepted channelNameMappings) ∧
    List.Forall₂ (describes channelNameMappings)
      (SIPointCloudParticleStream.create g).attributes
      (SIPointCloudParticleStream.create g).channels ∧
    (∀ (pre post : List ICEAttribute) (attr : ICEAttribute),
      g.attributes = pre ++ attr :: post → supportedType attr.dataType = false →
      (SIPointCloudParticleStream.create { g with attributes := pre ++ post }).channels =
        (SIPointCloudParticleStream.create g).channels ∧
      (SIPointCloudParticleStream.create { g with attributes := pre ++ post }).attributes =
        (SIPointCloudParticleStream.create g).attributes ∧
      (SIPointCloudParticleStream.create { g with attributes := pre ++ post }).dataArrays =
        (SIPointCloudParticleStream.create g).dataArrays) := by
  refine ⟨?_, ?_, ?_⟩
  · rw [create_nonempty g h, scan_attributes]
    rfl
  · rw [create_nonempty g h]
    exact scan_describes _ _ _ List.Forall₂.nil
  · intro pre post attr hg hty
    have hrej : accepted channelNameMappings attr = false := by
      simp [accepted, hty]
    have h2 : ({ g with attributes := pre ++ post } : Geometry).pointCount ≠ 0 := h
    rw [create_nonempty g h, create_nonempty _ h2, hg]
    simp only [List.foldl_append, List.foldl_cons]
    rw [scanAttribute_rejected _ _ attr hrej]
    have e := scan_geometry_irrelevant channelNameMappings (pre ++ post)
      { geometry := g, attributes := [], channels := [], particleCount := (g.pointCount : Int),
        particleIndex := 0, dataArrays := [], appended := [] }
      { g with attributes := pre ++ post }
    simp only [List.foldl_append] at e
    rw [e]
    exact ⟨rfl, rfl, rfl⟩

/-- Witness of C7 on the sample cloud, whose matrix attribute is the one
dropped. -/
theorem scan_keeps_exactly_accepted_witness :
    sampleCloud.pointCount ≠ 0 ∧
    (SIPointCloudParticleStream.create sampleCloud).attributes =
      sampleCloud.attributes.filter (accepted channelNameMappings) ∧
    (SIPointCloudParticleStream.create
        { sampleCloud with attributes := sampleCloud.attributes.take 1 ++ sampleCloud.attributes.drop 2 }).channels =
      (SIPointCloudParticleStream.create sampleCloud).channels :=
  ⟨by decide, (scan_keeps_exactly_accepted sampleCloud (by decide)).1,
    ((scan_keeps_exactly_accepted sampleCloud (by decide)).2.2
      (sampleCloud.attributes.take 1) (sampleCloud.attributes.drop 2)
      { name := "Tangent", defined := true,
        context := .siICENodeContextComponent0D, dataType := .siICENodeDataMatrix33,
        values := [.matrix [0, 0, 0, 0, 0, 0, 0, 0, 0], .matrix [0, 0, 0, 0, 0, 0, 0, 0, 0]] }
      (by decide) (by decide)).1⟩

/-! ## Facts about the table -/

/-- The table after the first-time fill, entry by entry. -/
theorem channelNameMappings_entries :
    channelNameMappings =
      [("PointPosition", "Position"),
       ("Color", "Color"),
       ("Density", "Density"),
       ("Lighting", "Lighting"),
       ("MBlurTime", "MBlurTime"),
       ("Absorption", "Absorption"),
       ("Emission", "Emission"),
       ("PointNormal", "Normal"),
       ("Tangent", "Tangent"),
       ("PointVelocity", "Velocity"),
       ("Eccentricity", "Eccentricity"),
       ("PhaseEccentricity", "Eccentricity"),
       ("SpecularPower", "SpecularPower"),
       ("SpecularLevel", "SpecularLevel"),
       ("DiffuseLevel", "DiffuseLevel"),
       ("GlintGlossiness", "GlintGlossiness"),
       ("GlintLevel", "GlintLevel"),
       ("GlintSize", "GlintSize"),
       ("Specular2Glossiness", "Specular2Glossiness"),
       ("Specular2Level", "Specular2Level"),
       ("Specular2Shift", "Specular2Shift"),
       ("SpecularGlossiness", "SpecularGlossiness"),
       ("SpecularShift", "SpecularShift")] := by
  decide

theorem find_eq_specResolve (hostName : String) :
    channelNameMappings.find hostName = specResolve hostName := by
  by_cases h0 : hostName = "PointPosition"
  · subst h0; decide
  by_cases h1 : hostName = "Color"
  · subst h1; decide
  by_cases h2 : hostName = "Density"
  · subst h2; decide
  by_cases h3 : hostName = "Lighting"
  · subst h3; decide
  by_cases h4 : hostName = "MBlurTime"
  · subst h4; decide
  by_cases h5 : hostName = "Absorption"
  · subst h5; decide
  by_cases h6 : hostName = "Emission"
  · subst h6; decide
  by_cases h7 : hostName = "PointNormal"
  · subst h7; decide
  by_cases h8 : hostName = "Tangent"
  · subst h8; decide
  by_cases h9 : hostName = "PointVelocity"
  · subst h9; decide
  by_cases h10 : hostName = "Eccentricity"
  · subst h10; decide
  by_cases h11 : hostName = "PhaseEccentricity"
  · subst h11; decide
  by_cases h12 : hostName = "SpecularPower"
  · subst h12; decide
  by_cases h13 : hostName = "SpecularLevel"
  · subst h13; decide
  by_cases h14 : hostName = "DiffuseLevel"
  · subst h14; decide
  by_cases h15 : hostName = "GlintGlossiness"
  · subst h15; decide
  by_cases h16 : hostName = "GlintLevel"
  · subst h16; decide
  by_cases h17 : hostName = "GlintSize"
  · subst h17; decide
  by_cases h18 : hostName = "Specular2Glossiness"
  · subst h18; decide
  by_cases h19 : hostName = "Specular2Level"
  · subst h19; decide
  by_cases h20 : hostName = "Specular2Shift"
  · subst h20; decide
  by_cases h21 : hostName = "SpecularGlossiness"
  · subst h21; decide
  by_cases h22 : hostName = "SpecularShift"
  · subst h22; decide
  rw [channelNameMappings_entries]
  simp [StringMap.find, specResolve, selfMappedNames, *, eq_comm]

theorem find_isSome_iff (hostName : String) :
    (channelNameMappings.find hostName).isSome = true ↔ hostName ∈ resolvedNames := by
  rw [find_eq_specResolve]
  unfold specResolve
  split_ifs with h1 h2 h3 h4 h5
  · rcases h1 with h | h <;> simp [resolvedNames, h]
  · simp [resolvedNames, h2]
  · simp [resolvedNames, h3]
  · simp [resolvedNames, h4]
  · simp [resolvedNames, h5]
  · simp only [not_or] at h1
    simp [resolvedNames, h1.1, h1.2, h2, h3, h4, h5]

/-- Among the resolved names only the two spellings of eccentricity share an
engine channel. -/
theorem aliasing_among_resolved :
    ∀ a ∈ resolvedNames, ∀ b ∈ resolvedNames,
      channelNameMappings.find a = channelNameMappings.find b → a ≠ b →
      (a = "Eccentricity" ∧ b = "PhaseEccentricity") ∨
        (a = "PhaseEccentricity" ∧ b = "Eccentricity") := by
  decide

/-! ## The claims about the table and the copied values -/

/-- C8: the channel mapping table has 23 entries and resolves exactly the 23
listed host names: `Eccentricity` and `PhaseEccentricity` both give
`Eccentricity` and are the only two distinct names that share an engine
channel, `PointPosition`, `PointNormal`, `PointVelocity` give `Position`,
`Normal`, `Velocity`, each of the other 18 names gives itself, and every
other name, the commented-out ones among them, gives nothing. -/
theorem channelNameMappings_resolves_exactly :
    channelNameMappings.length = 23 ∧
    resolvedNames.length = 23 ∧ resolvedNames.Nodup ∧ selfMappedNames.length = 18 ∧
    (∀ hostName : String,
      (channelNameMappings.find hostName).isSome = true ↔ hostName ∈ resolvedNames) ∧
    (∀ hostName : String, channelNameMappings.find hostName = specResolve hostName) ∧
    channelNameMappings.find "Eccentricity" = some "Eccentricity" ∧
    channelNameMappings.find "PhaseEccentricity" = some "Eccentricity" ∧
    channelNameMappings.find "PointPosition" = some "Position" ∧
    channelNameMappings.find "PointNormal" = some "Normal" ∧
    channelNameMappings.find "PointVelocity" = some "Velocity" ∧
    selfMappedNames.map channelNameMappings.find = selfMappedNames.map some ∧
    commentedOutNames.map channelNameMappings.find = commentedOutNames.map (fun _ => none) ∧
    (∀ a b : String,
      ((channelNameMappings.find a).isSome = true ∧
        channelNameMappings.find a = channelNameMappings.find b ∧ a ≠ b) ↔
      ((a = "Eccentricity" ∧ b = "PhaseEccentricity") ∨
        (a = "PhaseEccentricity" ∧ b = "Eccentricity"))) := by
  refine ⟨by decide, by decide, by decide, by decide, find_isSome_iff, find_eq_specResolve,
    by decide, by decide, by decide, by decide, by decide, by decide, by decide, ?_⟩
  intro a b
  constructor
  · rintro ⟨ha, hab, hne⟩
    have hb : (channelNameMappings.find b).isSome = true := by
      rw [← hab]
      exact ha
    exact aliasing_among_resolved a ((find_isSome_iff a).mp ha) b ((find_isSome_iff b).mp hb)
      hab hne
  · rintro (⟨ha, hb⟩ | ⟨ha, hb⟩)
    · subst ha
      subst hb
      decide
    · subst ha
      subst hb
      decide

/-- C2, at the sample cloud: the scan registers a float32 x 3 channel
`Position` in place 0 and a uint8 x 1 channel `Density` in place 1 for the
boolean attribute, whose value at index 0 is `true`; the first call of
`get_next_particle` on a blank record writes the position of point 0 to place
0 and leaves place 1 unwritten. The same happens to every attribute of
boolean, 2-vector, quaternion or rotation type: the channel loop has no case
for them and hands the record back as it got it. -/
theorem get_next_particle_leaves_bool_channel_unwritten :
    (SIPointCloudParticleStream.create sampleCloud).channels =
      [{ name := "Position", dataType := .DATA_TYPE_FLOAT32, arity := 3, slot := 0 },
       { name := "Density", dataType := .DATA_TYPE_UINT8, arity := 1, slot := 1 }] ∧
    (SIPointCloudParticleStream.create sampleCloud).dataArrays.map
        (fun column => column.index 0) =
      [.vector3 1065353216 1073741824 1077936128, .bool true] ∧
    (get_next_particle (SIPointCloudParticleStream.create sampleCloud) Record.blank).particleData 0 =
      some [Scalar.f32 1065353216, Scalar.f32 1073741824, Scalar.f32 1077936128] ∧
    (get_next_particle (SIPointCloudParticleStream.create sampleCloud) Record.blank).particleData 1 =
      none ∧
    (∀ (i : Int) (particleData : Record) (name : String) (defined : Bool)
        (context : siICENodeContextType) (values : List ICEValue) (cd : channel_data)
        (column : CBaseICEAttributeDataArray),
      copyChannel i particleData ⟨name, defined, context, .siICENodeDataBool, values⟩ cd column =
        particleData ∧
      copyChannel i particleData ⟨name, defined, context, .siICENodeDataVector2, values⟩ cd column =
        particleData ∧
      copyChannel i particleData ⟨name, defined, context, .siICENodeDataQuaternion, values⟩ cd
        column = particleData ∧
      copyChannel i particleData ⟨name, defined, context, .siICENodeDataRotation, values⟩ cd
        column = particleData) := by
  refine ⟨by decide, by decide, by decide, by decide, ?_⟩
  intro i particleData name defined context values cd column
  exact ⟨rfl, rfl, rfl, rfl⟩

/-! ## Facts about float32 rounding -/

theorem bitLength_zero (fuel : Nat) : bitLength fuel 0 = 0 := by
  cases fuel <;> simp [bitLength]

/-- With enough fuel `bitLength` counts the binary digits: `n < 2 ^ b` and, for
a positive `n`, `2 ^ b ≤ 2 * n`. -/
theorem bitLength_spec (fuel n : Nat) (h : n ≤ fuel) :
    n < 2 ^ bitLength fuel n ∧ (0 < n → 2 ^ bitLength fuel n ≤ 2 * n) := by
  induction fuel generalizing n with
  | zero =>
    have : n = 0 := by omega
    subst this
    simp [bitLength]
  | succ fuel ih =>
    unfold bitLength
    by_cases hn : n = 0
    · simp [hn]
    · rw [if_neg hn]
      obtain ⟨h1, h2⟩ := ih (n / 2) (by omega)
      by_cases h0 : n / 2 = 0
      · have h1n : n = 1 := by omega
        subst h1n
        simp [bitLength_zero]
      · have h3 := h2 (by omega)
        rw [pow_succ]
        generalize 2 ^ bitLength fuel (n / 2) = p at h1 h2 h3
        constructor
        · omega
        · intro _
          omega

/-- For a positive `x`, `floorLog2 x` is the exponent of its binade. -/
theorem floorLog2_spec (x : Rat) (hx : 0 < x) :
    (2 : Rat) ^ floorLog2 x ≤ x ∧ x < (2 : Rat) ^ (floorLog2 x + 1) := by
  have hnum : 0 < x.num := Rat.num_pos.mpr hx
  obtain ⟨hn1, hn2⟩ := bitLength_spec x.num.natAbs x.num.natAbs le_rfl
  obtain ⟨hd1, hd2⟩ := bitLength_spec x.den x.den le_rfl
  have hn2 := hn2 (by omega)
  have hd2 := hd2 x.den_pos
  have hdpos : (0 : Rat) < (x.den : Rat) := by exact_mod_cast x.den_pos
  have hxeq : x * (x.den : Rat) = (x.num.natAbs : Rat) := by
    have h1 : ((x.num.natAbs : Int) : Rat) = (x.num : Rat) :=
      congrArg (Int.cast : Int → Rat) (Int.natAbs_of_nonneg hnum.le)
    have h2 : x * (x.den : Rat) = (x.num : Rat) := Rat.mul_den_eq_num x
    rw [h2, ← h1]
    rfl
  have qn1 : (x.num.natAbs : Rat) < (2 : Rat) ^ bitLength x.num.natAbs x.num.natAbs := by
    exact_mod_cast hn1
  have qn2 : (2 : Rat) ^ bitLength x.num.natAbs x.num.natAbs ≤ 2 * (x.num.natAbs : Rat) := by
    exact_mod_cast hn2
  have qd1 : (x.den : Rat) < (2 : Rat) ^ bitLength x.den x.den := by
    exact_mod_cast hd1
  have qd2 : (2 : Rat) ^ bitLength x.den x.den ≤ 2 * (x.den : Rat) := by
    exact_mod_cast hd2
  unfold floorLog2
  simp only
  generalize bitLength x.num.natAbs x.num.natAbs = bn at qn1 qn2
  generalize bitLength x.den x.den = bd at qd1 qd2
  have hpn : (0 : Rat) < (2 : Rat) ^ bn := by positivity
  have hpd : (0 : Rat) < (2 : Rat) ^ bd := by positivity
  have he : (2 : Rat) ^ (((bn : Nat) : Int) - ((bd : Nat) : Int)) = (2 : Rat) ^ bn / (2 : Rat) ^ bd := by
    rw [zpow_sub₀ (by norm_num), zpow_natCast, zpow_natCast]
  have hlow : (2 : Rat) ^ bn / (2 : Rat) ^ bd / 2 ≤ x := by
    rw [div_div, div_le_iff₀ (by positivity)]
    nlinarith
  have hhigh : x < (2 : Rat) ^ bn / (2 : Rat) ^ bd * 2 := by
    rw [div_mul_eq_mul_div, lt_div_iff₀ hpd]
    nlinarith
  have hm1 : (2 : Rat) ^ (((bn : Nat) : Int) - ((bd : Nat) : Int) - 1) =
      (2 : Rat) ^ bn / (2 : Rat) ^ bd / 2 := by
    rw [zpow_sub₀ (by norm_num), he, zpow_one]
  have hp1 : (2 : Rat) ^ (((bn : Nat) : Int) - ((bd : Nat) : Int) + 1) =
      (2 : Rat) ^ bn / (2 : Rat) ^ bd * 2 := by
    rw [zpow_add₀ (by norm_num), he, zpow_one]
  split_ifs with hlt
  · refine ⟨by rw [hm1]; exact hlow, ?_⟩
    rw [sub_add_cancel]
    exact hlt
  · exact ⟨not_lt.mp hlt, by rw [hp1]; exact hhigh⟩

theorem roundNearestEven_eq (x : Rat) :
    roundNearestEven x =
      if x - (⌊x⌋ : Rat) < 1 / 2 then ⌊x⌋
      else if 1 / 2 < x - (⌊x⌋ : Rat) then ⌊x⌋ + 1
      else if ⌊x⌋ % 2 = 0 then ⌊x⌋ else ⌊x⌋ + 1 := by
  unfold roundNearestEven
  simp only [← Rat.floor_def]

/-- Rounding to the nearest integer moves a value by at most one half. -/
theorem roundNearestEven_near (x : Rat) :
    x - 1 / 2 ≤ (roundNearestEven x : Rat) ∧ (roundNearestEven x : Rat) ≤ x + 1 / 2 := by
  rw [roundNearestEven_eq]
  have h1 := Int.floor_le x
  have h2 := Int.lt_floor_add_one x
  split_ifs <;> push_cast <;> constructor <;> linarith

theorem roundNearestEven_intCast (n : Int) : roundNearestEven (n : Rat) = n := by
  rw [roundNearestEven_eq]
  simp

/-- Rounding to the nearest integer, ties to even, is non-decreasing. -/
theorem roundNearestEven_mono {a b : Rat} (h : a ≤ b) :
    roundNearestEven a ≤ roundNearestEven b := by
  have hfl : ⌊a⌋ ≤ ⌊b⌋ := Int.floor_mono h
  rcases hfl.lt_or_eq with hlt | heq
  · have ha : roundNearestEven a ≤ ⌊a⌋ + 1 := by
      rw [roundNearestEven_eq]
      split_ifs <;> omega
    have hb : ⌊b⌋ ≤ roundNearestEven b := by
      rw [roundNearestEven_eq]
      split_ifs <;> omega
    omega
  · rw [roundNearestEven_eq a, roundNearestEven_eq b, heq]
    split_ifs <;> first | omega | (exfalso; linarith)

theorem roundNearestEven_le {a : Rat} {n : Int} (h : a ≤ (n : Rat)) : roundNearestEven a ≤ n := by
  have := roundNearestEven_mono h
  rwa [roundNearestEven_intCast] at this

theorem le_roundNearestEven {a : Rat} {n : Int} (h : (n : Rat) ≤ a) : n ≤ roundNearestEven a := by
  have := roundNearestEven_mono h
  rwa [roundNearestEven_intCast] at this

theorem roundToFloat_nonneg {x : Rat} (hx : 0 ≤ x) : 0 ≤ roundToFloat x := by
  unfold roundToFloat
  split_ifs with h0
  · exact le_rfl
  · simp only
    have hq : (0 : Rat) < (2 : Rat) ^ (max (floorLog2 |x|) (-126) - 23) := by positivity
    have h1 : (0 : Int) ≤ roundNearestEven (x / (2 : Rat) ^ (max (floorLog2 |x|) (-126) - 23)) :=
      le_roundNearestEven (by push_cast; positivity)
    have h2 : (0 : Rat) ≤ (roundNearestEven (x / (2 : Rat) ^ (max (floorLog2 |x|) (-126) - 23)) : Rat) := by
      exact_mod_cast h1
    positivity

theorem floorLog2_mono {x y : Rat} (hx : 0 < x) (hxy : x ≤ y) : floorLog2 x ≤ floorLog2 y := by
  obtain ⟨h1, _⟩ := floorLog2_spec x hx
  obtain ⟨_, h2⟩ := floorLog2_spec y (lt_of_lt_of_le hx hxy)
  have h3 : (2 : Rat) ^ floorLog2 x < (2 : Rat) ^ (floorLog2 y + 1) := by linarith
  have h4 := (zpow_lt_zpow_iff_right₀ (by norm_num : (1 : Rat) < 2)).mp h3
  omega

theorem two_zpow_split (e : Int) (k : Int) :
    (2 : Rat) ^ (e + k) = (2 : Rat) ^ (k + 23) * (2 : Rat) ^ (e - 23) := by
  rw [← zpow_add₀ (by norm_num : (2 : Rat) ≠ 0)]
  congr 1
  ring

/-- Rounding to float32 is non-decreasing on the values that are not
negative. -/
theorem roundToFloat_mono {x y : Rat} (hx : 0 ≤ x) (hxy : x ≤ y) :
    roundToFloat x ≤ roundToFloat y := by
  rcases hx.lt_or_eq with hxpos | hx0
  · have hypos : 0 < y := lt_of_lt_of_le hxpos hxy
    have hfl := floorLog2_mono hxpos hxy
    obtain ⟨hx1, hx2⟩ := floorLog2_spec x hxpos
    obtain ⟨hy1, hy2⟩ := floorLog2_spec y hypos
    unfold roundToFloat
    rw [if_neg (ne_of_gt hxpos), if_neg (ne_of_gt hypos), abs_of_pos hxpos, abs_of_pos hypos]
    simp only
    generalize hex : max (floorLog2 x) (-126) = ex
    generalize hey : max (floorLog2 y) (-126) = ey
    have hle : ex ≤ ey := by
      rw [← hex, ← hey]
      exact max_le_max hfl le_rfl
    have hqx : (0 : Rat) < (2 : Rat) ^ (ex - 23) := by positivity
    have hqy : (0 : Rat) < (2 : Rat) ^ (ey - 23) := by positivity
    rcases hle.lt_or_eq with hlt | heq
    · have hey2 : ey = floorLog2 y := by
        rw [← hey]
        apply max_eq_left
        have : -126 ≤ ex := by rw [← hex]; exact le_max_right _ _
        by_contra hcon
        have : max (floorLog2 y) (-126) = -126 := max_eq_right (by omega)
        omega
      have hflx : floorLog2 x ≤ ex := by rw [← hex]; exact le_max_left _ _
      -- the lower value rounds to at most 2 ^ (ex + 1)
      have hxup : x ≤ (2 : Rat) ^ (ex + 1) := by
        have : (2 : Rat) ^ (floorLog2 x + 1) ≤ (2 : Rat) ^ (ex + 1) :=
          zpow_le_zpow_right₀ (by norm_num) (by omega)
        linarith
      have hsx : (2 : Rat) ^ (ex + 1) = (2 : Rat) ^ ((1 : Int) + 23) * (2 : Rat) ^ (ex - 23) :=
        two_zpow_split ex 1
      have h24 : (2 : Rat) ^ ((1 : Int) + 23) = ((16777216 : Int) : Rat) := by norm_num
      have hrx : roundNearestEven (x / (2 : Rat) ^ (ex - 23)) ≤ 16777216 := by
        apply roundNearestEven_le
        rw [div_le_iff₀ hqx, ← h24, ← hsx]
        exact hxup
      have hrx2 : (roundNearestEven (x / (2 : Rat) ^ (ex - 23)) : Rat) ≤ 16777216 := by
        exact_mod_cast hrx
      have hX : (roundNearestEven (x / (2 : Rat) ^ (ex - 23)) : Rat) * (2 : Rat) ^ (ex - 23) ≤
          (2 : Rat) ^ (ex + 1) := by
        rw [hsx, h24]
        push_cast
        exact mul_le_mul_of_nonneg_right hrx2 hqx.le
      -- the upper value rounds to at least 2 ^ ey
      have hsy : (2 : Rat) ^ (ey + 0) = (2 : Rat) ^ ((0 : Int) + 23) * (2 : Rat) ^ (ey - 23) :=
        two_zpow_split ey 0
      rw [add_zero] at hsy
      have h23 : (2 : Rat) ^ ((0 : Int) + 23) = ((8388608 : Int) : Rat) := by norm_num
      have hry : 8388608 ≤ roundNearestEven (y / (2 : Rat) ^ (ey - 23)) := by
        apply le_roundNearestEven
        rw [le_div_iff₀ hqy, ← h23, ← hsy, hey2]
        exact hy1
      have hry2 : (8388608 : Rat) ≤ (roundNearestEven (y / (2 : Rat) ^ (ey - 23)) : Rat) := by
        exact_mod_cast hry
      have hY : (2 : Rat) ^ ey ≤
          (roundNearestEven (y / (2 : Rat) ^ (ey - 23)) : Rat) * (2 : Rat) ^ (ey - 23) := by
        rw [hsy, h23]
        push_cast
        exact mul_le_mul_of_nonneg_right hry2 hqy.le
      have hmid : (2 : Rat) ^ (ex + 1) ≤ (2 : Rat) ^ ey :=
        zpow_le_zpow_right₀ (by norm_num) (by omega)
      linarith
    · subst heq
      have h1 : roundNearestEven (x / (2 : Rat) ^ (ex - 23)) ≤
          roundNearestEven (y / (2 : Rat) ^ (ex - 23)) :=
        roundNearestEven_mono (div_le_div_of_nonneg_right hxy hqx.le)
      have h2 : (roundNearestEven (x / (2 : Rat) ^ (ex - 23)) : Rat) ≤
          (roundNearestEven (y / (2 : Rat) ^ (ex - 23)) : Rat) := by
        exact_mod_cast h1
      exact mul_le_mul_of_nonneg_right h2 hqx.le
  · subst hx0
    have h0 : roundToFloat 0 = 0 := by
      unfold roundToFloat
      simp
    rw [h0]
    exact roundToFloat_nonneg hxy

/-- The error of rounding to float32: at most half a unit in the last place
of a normal number, or half the spacing of the subnormal numbers. -/
theorem roundToFloat_near (x : Rat) :
    |roundToFloat x - x| ≤ |x| / 16777216 + 1 / 2 ^ 150 := by
  by_cases h0 : x = 0
  · subst h0
    have : roundToFloat 0 = 0 := by
      unfold roundToFloat
      simp
    rw [this]
    norm_num
  · have habs : 0 < |x| := abs_pos.mpr h0
    obtain ⟨hl, _⟩ := floorLog2_spec |x| habs
    unfold roundToFloat
    rw [if_neg h0]
    simp only
    generalize he : max (floorLog2 |x|) (-126) = e
    have hq : (0 : Rat) < (2 : Rat) ^ (e - 23) := by positivity
    obtain ⟨hn1, hn2⟩ := roundNearestEven_near (x / (2 : Rat) ^ (e - 23))
    have hqb : (2 : Rat) ^ (e - 23) ≤ |x| / 8388608 + 1 / 2 ^ 149 := by
      rcases le_total (floorLog2 |x|) (-126) with hc | hc
      · have : e = -126 := by rw [← he]; exact max_eq_right hc
        subst this
        have : (2 : Rat) ^ ((-126 : Int) - 23) = 1 / 2 ^ 149 := by
          norm_num [zpow_neg]
        rw [this]
        have : 0 ≤ |x| / 8388608 := by positivity
        linarith
      · have : e = floorLog2 |x| := by rw [← he]; exact max_eq_left hc
        subst this
        have hs := two_zpow_split (floorLog2 |x|) 0
        rw [add_zero] at hs
        have h23 : (2 : Rat) ^ ((0 : Int) + 23) = 8388608 := by norm_num
        rw [h23] at hs
        have : (0 : Rat) ≤ 1 / 2 ^ 149 := by positivity
        have : (2 : Rat) ^ (floorLog2 |x| - 23) ≤ |x| / 8388608 := by
          rw [le_div_iff₀ (by norm_num)]
          linarith
        linarith
    have hkey : |(roundNearestEven (x / (2 : Rat) ^ (e - 23)) : Rat) * (2 : Rat) ^ (e - 23) - x| ≤
        (2 : Rat) ^ (e - 23) / 2 := by
      have hx : x = x / (2 : Rat) ^ (e - 23) * (2 : Rat) ^ (e - 23) := by
        field_simp
      rw [abs_le]
      constructor
      · nlinarith
      · nlinarith
    linarith

theorem toUnsignedChar_le (x : float) : toUnsignedChar x ≤ 255 := by
  unfold toUnsignedChar
  generalize (if 0 ≤ x then x.num / (x.den : Int) else -((-x.num) / (x.den : Int))) = z
  have h1 := Int.emod_nonneg z (by norm_num : (256 : Int) ≠ 0)
  have h2 := Int.emod_lt_of_pos z (by norm_num : (0 : Int) < 256)
  omega

theorem toUnsignedChar_eq_floor {x : float} (h0 : 0 ≤ x) (h1 : x < 256) :
    ((toUnsignedChar x : Nat) : Int) = ⌊x⌋ := by
  unfold toUnsignedChar
  rw [if_pos h0, ← Rat.floor_def]
  have hf0 : 0 ≤ ⌊x⌋ := Int.floor_nonneg.mpr h0
  have hf1 : ⌊x⌋ < 256 := Int.floor_lt.mpr (by exact_mod_cast h1)
  rw [Int.emod_eq_of_lt hf0 hf1, Int.toNat_of_nonneg hf0]

theorem toUnsignedChar_mono {x y : float} (h0 : 0 ≤ x) (hxy : x ≤ y) (h1 : y < 256) :
    toUnsignedChar x ≤ toUnsignedChar y := by
  have hx := toUnsignedChar_eq_floor h0 (lt_of_le_of_lt hxy h1)
  have hy := toUnsignedChar_eq_floor (le_trans h0 hxy) h1
  have := Int.floor_mono hxy
  omega

theorem roundToFloat_1292 : roundToFloat (1292 / 100) = 6773801 / 524288 := by decide!
theorem roundToFloat_31308 : roundToFloat (31308 / 10000000) = 3361671 / 1073741824 := by decide!
theorem roundToFloat_1055 : roundToFloat (1055 / 1000) = 8849981 / 8388608 := by decide!
theorem roundToFloat_55 : roundToFloat (55 / 1000) = 7381975 / 134217728 := by decide!

theorem linear_at_breakpoint :
    fadd (fmul (fmul (6773801 / 524288) (3361671 / 1073741824)) 255) (1 / 2) = 5670035 / 524288 := by
  decide!

theorem power_at_low :
    fadd (fmul (fsub (fmul (8849981 / 8388608) (9 / 100)) (7381975 / 134217728)) 255) (1 / 2) =
      11206393 / 1048576 := by
  decide!

theorem power_at_one :
    fadd (fmul (fsub (fmul (8849981 / 8388608) 1) (7381975 / 134217728)) 255) (1 / 2) =
      16744447 / 65536 := by
  decide!

theorem power_low_above_offset :
    (7381975 / 134217728 : Rat) ≤ fmul (8849981 / 8388608) (9 / 100) := by
  decide!

/-! ## Facts about the two pieces of `linearToSRGB` -/

theorem linear_piece_mono {a b : Rat} (ha : 0 ≤ a) (hab : a ≤ b) :
    0 ≤ fadd (fmul (fmul (6773801 / 524288) a) 255) (1 / 2) ∧
    fadd (fmul (fmul (6773801 / 524288) a) 255) (1 / 2) ≤
      fadd (fmul (fmul (6773801 / 524288) b) 255) (1 / 2) := by
  unfold fadd fmul
  have h1 : (0 : Rat) ≤ 6773801 / 524288 * a := by positivity
  have h2 : (6773801 / 524288 : Rat) * a ≤ 6773801 / 524288 * b := by linarith
  have r1 := roundToFloat_mono h1 h2
  have n1 := roundToFloat_nonneg h1
  have h3 : 0 ≤ roundToFloat (6773801 / 524288 * a) * 255 := by positivity
  have r2 := roundToFloat_mono h3
    (by linarith : roundToFloat (6773801 / 524288 * a) * 255 ≤
      roundToFloat (6773801 / 524288 * b) * 255)
  have n2 := roundToFloat_nonneg h3
  exact ⟨roundToFloat_nonneg (by linarith), roundToFloat_mono (by linarith) (by linarith)⟩

theorem power_piece_mono {p q : Rat} (hp : 9 / 100 ≤ p) (hpq : p ≤ q) :
    0 ≤ fadd (fmul (fsub (fmul (8849981 / 8388608) p) (7381975 / 134217728)) 255) (1 / 2) ∧
    fadd (fmul (fsub (fmul (8849981 / 8388608) p) (7381975 / 134217728)) 255) (1 / 2) ≤
      fadd (fmul (fsub (fmul (8849981 / 8388608) q) (7381975 / 134217728)) 255) (1 / 2) := by
  have hlow := power_low_above_offset
  unfold fadd fmul fsub at *
  have h0 : (0 : Rat) ≤ 8849981 / 8388608 * (9 / 100) := by norm_num
  have h1 : (8849981 / 8388608 : Rat) * (9 / 100) ≤ 8849981 / 8388608 * p := by linarith
  have h2 : (8849981 / 8388608 : Rat) * p ≤ 8849981 / 8388608 * q := by linarith
  have r0 := roundToFloat_mono h0 h1
  have r1 := roundToFloat_mono (le_trans h0 h1) h2
  have h3 : (0 : Rat) ≤ roundToFloat (8849981 / 8388608 * p) - 7381975 / 134217728 := by linarith
  have r2 := roundToFloat_mono h3
    (by linarith : roundToFloat (8849981 / 8388608 * p) - 7381975 / 134217728 ≤
      roundToFloat (8849981 / 8388608 * q) - 7381975 / 134217728)
  have n2 := roundToFloat_nonneg h3
  have h4 : 0 ≤ roundToFloat (roundToFloat (8849981 / 8388608 * p) - 7381975 / 134217728) * 255 := by
    positivity
  have r3 := roundToFloat_mono h4
    (by linarith :
      roundToFloat (roundToFloat (8849981 / 8388608 * p) - 7381975 / 134217728) * 255 ≤
      roundToFloat (roundToFloat (8849981 / 8388608 * q) - 7381975 / 134217728) * 255)
  have n3 := roundToFloat_nonneg h4
  exact ⟨roundToFloat_nonneg (by linarith), roundToFloat_mono (by linarith) (by linarith)⟩

/-- The value of `linearToSRGB` on its third branch. -/
theorem linearToSRGB_linear (pow : float → float → float) (v : float) (h0 : 0 < v)
    (h1 : v ≤ 3361671 / 1073741824) :
    linearToSRGB pow v =
      toUnsignedChar (fadd (fmul (fmul (6773801 / 524288) v) 255) (1 / 2)) := by
  unfold linearToSRGB
  rw [if_neg (not_le.mpr h0), if_neg (by linarith), roundToFloat_31308, if_pos h1,
    roundToFloat_1292]

/-- The value of `linearToSRGB` on its last branch. -/
theorem linearToSRGB_power (pow : float → float → float) (v : float)
    (h0 : 3361671 / 1073741824 < v) (h1 : v < 1) :
    linearToSRGB pow v =
      toUnsignedChar
        (fadd (fmul (fsub (fmul (8849981 / 8388608) (pow v (fdiv 1 (roundToFloat (24 / 10)))))
          (7381975 / 134217728)) 255) (1 / 2)) := by
  unfold linearToSRGB
  rw [if_neg (by linarith), if_neg (not_le.mpr h1), roundToFloat_31308,
    if_neg (not_le.mpr h0), roundToFloat_1055, roundToFloat_55]

theorem linearToSRGB_le (pow : float → float → float) (v : float) : linearToSRGB pow v ≤ 255 := by
  unfold linearToSRGB
  split_ifs
  · omega
  · omega
  · exact toUnsignedChar_le _
  · exact toUnsignedChar_le _

/-- C10: `linearToSRGB` is non-decreasing, on both pieces, on both saturation
regions and across the breakpoint, for every `pow` that on the inputs of the
last branch (`0.0031308f < v < 1`, exponent `1.0f / 2.4f`) is non-decreasing
in `v` and returns values between 0.09 and 1, as the C library's does
(`0.0031308 ^ (1 / 2.4)` is about 0.0905). -/
theorem linearToSRGB_monotone (pow : float → float → float)
    (hmono : ∀ a b : float, roundToFloat (31308 / 10000000) < a → a ≤ b → b < 1 →
      pow a (fdiv 1 (roundToFloat (24 / 10))) ≤ pow b (fdiv 1 (roundToFloat (24 / 10))))
    (hlow : ∀ a : float, roundToFloat (31308 / 10000000) < a → a < 1 →
      9 / 100 ≤ pow a (fdiv 1 (roundToFloat (24 / 10))))
    (hhigh : ∀ a : float, roundToFloat (31308 / 10000000) < a → a < 1 →
      pow a (fdiv 1 (roundToFloat (24 / 10))) ≤ 1)
    (v1 v2 : float) (h : v1 ≤ v2) :
    linearToSRGB pow v1 ≤ linearToSRGB pow v2 := by
  rw [roundToFloat_31308] at hmono hlow hhigh
  by_cases h10 : v1 ≤ 0
  · have : linearToSRGB pow v1 = 0 := by
      unfold linearToSRGB
      rw [if_pos h10]
    omega
  by_cases h21 : 1 ≤ v2
  · have : linearToSRGB pow v2 = 255 := by
      unfold linearToSRGB
      rw [if_neg (by linarith), if_pos h21]
    rw [this]
    exact linearToSRGB_le pow v1
  have h1pos : 0 < v1 := not_le.mp h10
  have h2lt : v2 < 1 := not_le.mp h21
  have hB := linear_at_breakpoint
  have hL := power_at_low
  have hH := power_at_one
  by_cases h2b : v2 ≤ 3361671 / 1073741824
  · -- both on the linear piece
    rw [linearToSRGB_linear pow v1 h1pos (le_trans h h2b),
      linearToSRGB_linear pow v2 (lt_of_lt_of_le h1pos h) h2b]
    obtain ⟨n1, m1⟩ := linear_piece_mono h1pos.le h
    obtain ⟨_, m2⟩ := linear_piece_mono (le_trans h1pos.le h) h2b
    exact toUnsignedChar_mono n1 m1 (by rw [hB] at m2; exact lt_of_le_of_lt m2 (by norm_num))
  · have h2b := not_le.mp h2b
    have hp2lo := hlow v2 h2b h2lt
    have hp2hi := hhigh v2 h2b h2lt
    obtain ⟨nlo, mlo⟩ := power_piece_mono le_rfl hp2lo
    obtain ⟨_, mhi⟩ := power_piece_mono hp2lo hp2hi
    rw [hL] at mlo
    rw [hH] at mhi
    by_cases h1b : v1 ≤ 3361671 / 1073741824
    · -- across the breakpoint
      rw [linearToSRGB_linear pow v1 h1pos h1b, linearToSRGB_power pow v2 h2b h2lt]
      obtain ⟨n1, m1⟩ := linear_piece_mono h1pos.le h1b
      rw [hB] at m1
      have e1 : toUnsignedChar (5670035 / 524288) = 10 := by decide!
      have e2 : toUnsignedChar (11206393 / 1048576) = 10 := by decide!
      have s1 := toUnsignedChar_mono n1 m1 (by norm_num)
      have s2 := toUnsignedChar_mono (by norm_num : (0 : float) ≤ 11206393 / 1048576) mlo
        (lt_of_le_of_lt mhi (by norm_num))
      omega
    · -- both on the power piece
      have h1b := not_le.mp h1b
      rw [linearToSRGB_power pow v1 h1b (lt_of_le_of_lt h h2lt),
        linearToSRGB_power pow v2 h2b h2lt]
      have hp1lo := hlow v1 h1b (lt_of_le_of_lt h h2lt)
      obtain ⟨n1, m1⟩ := power_piece_mono hp1lo (hmono v1 v2 h1b h h2lt)
      exact toUnsignedChar_mono n1 m1 (lt_of_le_of_lt mhi (by norm_num))

theorem roundToFloat_near_of_le {x B : Rat} (h0 : 0 ≤ x) (hB : x ≤ B) :
    |roundToFloat x - x| ≤ B / 16777216 + 1 / 2 ^ 150 := by
  have h := roundToFloat_near x
  rw [abs_of_nonneg h0] at h
  have : x / 16777216 ≤ B / 16777216 := by
    apply div_le_div_of_nonneg_right hB (by norm_num)
  linarith

/-- The float32 value of `((a + b + c) / 3.0f) * 255.0f` for three alphas
between 0 and 1 is not negative and lies within a thousandth of 255 times
their mean. -/
theorem alpha_near {a b c : Rat} (ha0 : 0 ≤ a) (ha1 : a ≤ 1) (hb0 : 0 ≤ b) (hb1 : b ≤ 1)
    (hc0 : 0 ≤ c) (hc1 : c ≤ 1) :
    0 ≤ fmul (fdiv (fadd (fadd a b) c) 3) 255 ∧
    |fmul (fdiv (fadd (fadd a b) c) 3) 255 - 255 * ((a + b + c) / 3)| ≤ 1 / 1000 := by
  unfold fmul fdiv fadd
  have t : (1 : Rat) / 2 ^ 150 ≤ 1 / 100000000000 := by norm_num
  have a0 : (0 : Rat) ≤ a + b := by linarith
  have a1 : a + b ≤ 2 := by linarith
  have e1 := roundToFloat_near_of_le a0 a1
  have n1 := roundToFloat_nonneg a0
  generalize roundToFloat (a + b) = x1 at e1 n1
  rw [abs_le] at e1
  have b0 : (0 : Rat) ≤ x1 + c := by linarith
  have b1 : x1 + c ≤ 4 := by linarith
  have e2 := roundToFloat_near_of_le b0 b1
  have n2 := roundToFloat_nonneg b0
  generalize roundToFloat (x1 + c) = x2 at e2 n2
  rw [abs_le] at e2
  have c0 : (0 : Rat) ≤ x2 / 3 := by positivity
  have c1 : x2 / 3 ≤ 2 := by linarith
  have e3 := roundToFloat_near_of_le c0 c1
  have n3 := roundToFloat_nonneg c0
  generalize roundToFloat (x2 / 3) = x3 at e3 n3
  rw [abs_le] at e3
  have d0 : (0 : Rat) ≤ x3 * 255 := by positivity
  have d1 : x3 * 255 ≤ 256 := by linarith
  have e4 := roundToFloat_near_of_le d0 d1
  have n4 := roundToFloat_nonneg d0
  generalize roundToFloat (x3 * 255) = x4 at e4 n4
  rw [abs_le] at e4
  refine ⟨n4, ?_⟩
  rw [abs_le]
  constructor <;> linarith

/-- The alpha byte for three alphas between 0 and 1: 255 times their mean
with the fraction dropped, up to the rounding of the float32 operations. -/
theorem alpha_byte_near {a b c : Rat} (ha0 : 0 ≤ a) (ha1 : a ≤ 1) (hb0 : 0 ≤ b) (hb1 : b ≤ 1)
    (hc0 : 0 ≤ c) (hc1 : c ≤ 1) :
    255 * ((a + b + c) / 3) - 1001 / 1000 <
        ((toUnsignedChar (fmul (fdiv (fadd (fadd a b) c) 3) 255) : Nat) : Rat) ∧
    ((toUnsignedChar (fmul (fdiv (fadd (fadd a b) c) 3) 255) : Nat) : Rat) ≤
        255 * ((a + b + c) / 3) + 1 / 1000 := by
  obtain ⟨hnn, hnear⟩ := alpha_near ha0 ha1 hb0 hb1 hc0 hc1
  generalize fmul (fdiv (fadd (fadd a b) c) 3) 255 = x at hnn hnear
  rw [abs_le] at hnear
  have hx : x < 256 := by linarith
  have hfl := toUnsignedChar_eq_floor hnn hx
  have hcast : ((toUnsignedChar x : Nat) : Rat) = ((⌊x⌋ : Int) : Rat) := by
    rw [← hfl]
    norm_cast
  rw [hcast]
  have h1 := Int.floor_le x
  have h2 := Int.lt_floor_add_one x
  constructor <;> linarith

theorem clampedPow_mono (a b e : float) (h : a ≤ b) : clampedPow a e ≤ clampedPow b e := by
  unfold clampedPow
  exact max_le_max le_rfl (min_le_min h le_rfl)

/-- Witness of C10 with a `pow` that clamps its first argument to the interval
from 0.09 to 1: an input of the linear piece against an input of the last
piece. -/
theorem linearToSRGB_monotone_witness :
    (1 / 1000 : float) ≤ 1 / 2 ∧
    linearToSRGB clampedPow (1 / 1000) ≤ linearToSRGB clampedPow (1 / 2) :=
  ⟨by norm_num,
    linearToSRGB_monotone clampedPow (fun a b _ h _ => clampedPow_mono a b _ h)
      (fun _ _ _ => le_max_left _ _) (fun _ _ _ => max_le (by norm_num) (min_le_right _ _))
      (1 / 1000) (1 / 2) (by norm_num)⟩

/-- The loop of `GetScanlineRGBA` assigns cell `i` for every `i` below the
bound and no other cell. -/
theorem foldl_update_range (g : Nat → RGBA) (out : Nat → RGBA) (n : Nat) :
    (List.range n).foldl (fun pScanline i => Function.update pScanline i (g i)) out =
      fun i => if i < n then g i else out i := by
  induction n with
  | zero => simp
  | succ n ih =>
    rw [List.range_succ, List.foldl_append, ih]
    funext i
    simp only [List.foldl_cons, List.foldl_nil, Function.update_apply]
    by_cases h : i = n
    · simp [h]
    · have : i < n + 1 ↔ i < n := by omega
      simp [h, this]

theorem afterUpdates_append (f : KrakFragment)
    (earlier : List (Int × Int × Option (List frame_buffer_pixel_data)))
    (width height : Int) (data : Option (List frame_buffer_pixel_data)) :
    f.afterUpdates (earlier ++ [(width, height, data)]) =
      (f.afterUpdates earlier).Update width height data := by
  induction earlier generalizing f with
  | nil => rfl
  | cons u earlier ih =>
    obtain ⟨w, h, d⟩ := u
    simp only [List.cons_append, KrakFragment.afterUpdates]
    exact ih _

/-- `Update` calls change neither the size nor the offsets of the fragment. -/
theorem afterUpdates_frame (f : KrakFragment)
    (updates : List (Int × Int × Option (List frame_buffer_pixel_data))) :
    (f.afterUpdates updates).fragWidth = f.fragWidth ∧
    (f.afterUpdates updates).fragHeight = f.fragHeight ∧
    (f.afterUpdates updates).offsetX = f.offsetX ∧
    (f.afterUpdates updates).offsetY = f.offsetY := by
  induction updates generalizing f with
  | nil => exact ⟨rfl, rfl, rfl, rfl⟩
  | cons u updates ih =>
    obtain ⟨w, h, d⟩ := u
    simp only [KrakFragment.afterUpdates]
    exact ih _

theorem toUnsignedInt_natCast (n : Nat) (h : n < 4294967296) : toUnsignedInt (n : Int) = n := by
  unfold toUnsignedInt
  omega

/-- Without wrap-around the index of the loop is `(offsetX + i) + (offsetY +
row) * krakWidth`. -/
theorem sourceIndex_eq (f : KrakFragment) (row i : Nat)
    (h : (f.offsetX + i) + (f.offsetY + row) * f.krakWidth < 4294967296) :
    f.sourceIndex row i = (f.offsetX + i) + (f.offsetY + row) * f.krakWidth := by
  unfold KrakFragment.sourceIndex wrapUInt
  simp only [Nat.add_mod_mod, Nat.mod_add_mod, Nat.mod_mul_mod]
  exact Nat.mod_eq_of_lt h

theorem GetScanlineRGBA_some (pow : float → float → float) (f : KrakFragment)
    (data : List frame_buffer_pixel_data) (h : f.pLastData = some data) (row : Nat)
    (depth : siImageBitDepth) (out : Nat → RGBA) :
    f.GetScanlineRGBA pow row depth out =
      (true, fun i =>
        if i < f.fragWidth then
          convertPixel pow (data.getD (f.sourceIndex row i) frame_buffer_pixel_data.unspecified)
        else out i) := by
  unfold KrakFragment.GetScanlineRGBA
  rw [h]
  simp only
  rw [foldl_update_range]

theorem alpha_quarter :
    toUnsignedChar (fmul (fdiv (fadd (fadd (1 / 4) (1 / 4)) (1 / 4)) 3) 255) = 63 := by
  decide!

theorem alpha_red :
    toUnsignedChar (fmul (fdiv (fadd (fadd 1 0) 0) 3) 255) = 85 := by
  decide!

/-! ## The claims about the fragment -/

/-- C11, at a pixel whose three alphas are 0.25: the mean times 255 is 63.75,
the nearest integer is 64, and `GetScanlineRGBA` writes 63 as the alpha byte,
because the cast drops the fraction and no 0.5 is added before it (as
`linearToSRGB` does for the colour components). At alphas (1.0, 0.0, 0.0) the
written byte is 85, as stated. -/
theorem GetScanlineRGBA_alpha_drops_fraction (pow : float → float → float)
    (depth : siImageBitDepth) (out : Nat → RGBA) :
    ((quarterAlphaFragment.GetScanlineRGBA pow 0 depth out).2 0).a = 63 ∧
    specAlpha (1 / 4) (1 / 4) (1 / 4) = 64 ∧
    (convertPixel pow quarterAlphaPixel).a = 63 ∧
    (convertPixel pow redAlphaPixel).a = 85 ∧
    specAlpha 1 0 0 = 85 := by
  have hq : (convertPixel pow quarterAlphaPixel).a = 63 := alpha_quarter
  refine ⟨?_, ?_, hq, alpha_red, ?_⟩
  · rw [GetScanlineRGBA_some pow quarterAlphaFragment [quarterAlphaPixel] rfl]
    exact hq
  · unfold specAlpha
    rw [Int.floor_eq_iff]
    norm_num
  · unfold specAlpha
    rw [Int.floor_eq_iff]
    norm_num

/-- C12: `GetScanlineRGBA` returns false and hands the output buffer back
untouched when the fragment holds no source image; in every other state it
returns true, every cell below `fragWidth` holds the converted source pixel
and every cell from `fragWidth` on is as it was. -/
theorem GetScanlineRGBA_false_iff_no_image (pow : float → float → float) (f : KrakFragment)
    (row : Nat) (depth : siImageBitDepth) (out : Nat → RGBA) :
    ((f.GetScanlineRGBA pow row depth out).1 = false ↔ f.pLastData = none) ∧
    (match f.pLastData with
      | none => f.GetScanlineRGBA pow row depth out = (false, out)
      | some data =>
        (f.GetScanlineRGBA pow row depth out).1 = true ∧
        ∀ i : Nat, (f.GetScanlineRGBA pow row depth out).2 i =
          if i < f.fragWidth then
            convertPixel pow
              (data.getD (f.sourceIndex row i) frame_buffer_pixel_data.unspecified)
          else out i) := by
  cases h : f.pLastData with
  | none =>
    have e : f.GetScanlineRGBA pow row depth out = (false, out) := by
      unfold KrakFragment.GetScanlineRGBA
      rw [h]
    simp [e]
  | some data =>
    rw [GetScanlineRGBA_some pow f data h]
    simp

/-- C13: after any sequence of `Update` calls that ends with a call
supplying width `W` and buffer `B`, the cell `c < fragWidth` of row `r` is
made from the one source pixel `B[(offsetX + c) + (offsetY + r) * W]` (as long
as that index fits an unsigned int), whatever the earlier calls supplied: its
red, green and blue bytes are `linearToSRGB` of the red, green and blue
components of that pixel, and its alpha byte is the float32 value of
`((r_alpha + g_alpha + b_alpha) / 3.0f) * 255.0f` cast to a byte, which for
alphas between 0 and 1 is 255 times their mean with the fraction dropped, up
to a thousandth. With offset (0, 0) and fragment size `W` x `H` every source
index `k < W * H` is read at exactly one place, column `k % W` of row
`k / W`. -/
theorem GetScanlineRGBA_reads_last_buffer (pow : float → float → float)
    (earlier : List (Int × Int × Option (List frame_buffer_pixel_data)))
    (W H : Nat) (B : List frame_buffer_pixel_data) (depth : siImageBitDepth)
    (out : Nat → RGBA) (hW : W < 4294967296) :
    (∀ fragWidth fragHeight offsetX offsetY r c : Nat, c < fragWidth →
      (offsetX + c) + (offsetY + r) * W < 4294967296 →
      let px := B.getD ((offsetX + c) + (offsetY + r) * W) frame_buffer_pixel_data.unspecified
      let cell := (((KrakFragment.create fragWidth fragHeight offsetX offsetY).afterUpdates
          (earlier ++ [((W : Int), (H : Int), some B)])).GetScanlineRGBA pow r depth out).2 c
      cell.r = linearToSRGB pow px.r ∧ cell.g = linearToSRGB pow px.g ∧
      cell.b = linearToSRGB pow px.b ∧
      cell.a = toUnsignedChar
        (fmul (fdiv (fadd (fadd px.r_alpha px.g_alpha) px.b_alpha) 3) 255) ∧
      (0 ≤ px.r_alpha → px.r_alpha ≤ 1 → 0 ≤ px.g_alpha → px.g_alpha ≤ 1 →
        0 ≤ px.b_alpha → px.b_alpha ≤ 1 →
        255 * ((px.r_alpha + px.g_alpha + px.b_alpha) / 3) - 1001 / 1000 < ((cell.a : Nat) : Rat) ∧
        ((cell.a : Nat) : Rat) ≤ 255 * ((px.r_alpha + px.g_alpha + px.b_alpha) / 3) + 1 / 1000)) ∧
    (W * H ≤ 4294967296 → ∀ k : Nat, k < W * H →
      let px := B.getD k frame_buffer_pixel_data.unspecified
      let cell := (((KrakFragment.create W H 0 0).afterUpdates
          (earlier ++ [((W : Int), (H : Int), some B)])).GetScanlineRGBA pow (k / W) depth
            out).2 (k % W)
      cell.r = linearToSRGB pow px.r ∧ cell.g = linearToSRGB pow px.g ∧
      cell.b = linearToSRGB pow px.b ∧
      cell.a = toUnsignedChar
        (fmul (fdiv (fadd (fadd px.r_alpha px.g_alpha) px.b_alpha) 3) 255) ∧
      k / W < H ∧ k % W < W ∧
      ∀ r c : Nat, c < W → c + r * W = k → r = k / W ∧ c = k % W) := by
  have key : ∀ fragWidth fragHeight offsetX offsetY r c : Nat, c < fragWidth →
      (offsetX + c) + (offsetY + r) * W < 4294967296 →
      (((KrakFragment.create fragWidth fragHeight offsetX offsetY).afterUpdates
          (earlier ++ [((W : Int), (H : Int), some B)])).GetScanlineRGBA pow r depth out).2 c =
        convertPixel pow
          (B.getD ((offsetX + c) + (offsetY + r) * W) frame_buffer_pixel_data.unspecified) := by
    intro fragWidth fragHeight offsetX offsetY r c hc hidx
    obtain ⟨hfw, _, hox, hoy⟩ :=
      afterUpdates_frame (KrakFragment.create fragWidth fragHeight offsetX offsetY) earlier
    have hdata : ((KrakFragment.create fragWidth fragHeight offsetX offsetY).afterUpdates
        (earlier ++ [((W : Int), (H : Int), some B)])).pLastData = some B := by
      rw [afterUpdates_append]
      rfl
    have hkw : ((KrakFragment.create fragWidth fragHeight offsetX offsetY).afterUpdates
        (earlier ++ [((W : Int), (H : Int), some B)])).krakWidth = W := by
      rw [afterUpdates_append]
      exact toUnsignedInt_natCast W hW
    have hfw2 : ((KrakFragment.create fragWidth fragHeight offsetX offsetY).afterUpdates
        (earlier ++ [((W : Int), (H : Int), some B)])).fragWidth = fragWidth := by
      rw [afterUpdates_append]
      exact hfw
    have hox2 : ((KrakFragment.create fragWidth fragHeight offsetX offsetY).afterUpdates
        (earlier ++ [((W : Int), (H : Int), some B)])).offsetX = offsetX := by
      rw [afterUpdates_append]
      exact hox
    have hoy2 : ((KrakFragment.create fragWidth fragHeight offsetX offsetY).afterUpdates
        (earlier ++ [((W : Int), (H : Int), some B)])).offsetY = offsetY := by
      rw [afterUpdates_append]
      exact hoy
    rw [GetScanlineRGBA_some pow _ B hdata]
    simp only [hfw2, hc, if_true]
    rw [sourceIndex_eq _ _ _ (by rw [hox2, hoy2, hkw]; exact hidx), hox2, hoy2, hkw]
  constructor
  · intro fragWidth fragHeight offsetX offsetY r c hc hidx px cell
    have hcell : cell = convertPixel pow px := key fragWidth fragHeight offsetX offsetY r c hc hidx
    rw [hcell]
    refine ⟨rfl, rfl, rfl, rfl, ?_⟩
    intro h1 h2 h3 h4 h5 h6
    exact alpha_byte_near h1 h2 h3 h4 h5 h6
  · intro hWH k hk px cell
    have hWpos : 0 < W := by
      rcases Nat.eq_zero_or_pos W with h0 | h0
      · subst h0
        simp at hk
      · exact h0
    have hmod : k % W < W := Nat.mod_lt k hWpos
    have hdiv : k / W < H := by
      rw [Nat.div_lt_iff_lt_mul hWpos]
      rw [Nat.mul_comm] at hk
      exact hk
    have hk2 : k % W + k / W * W = k := by
      rw [Nat.mul_comm]
      exact Nat.mod_add_div k W
    have hcell : cell = convertPixel pow px := by
      have := key W H 0 0 (k / W) (k % W) hmod (by simp only [Nat.zero_add]; omega)
      simp only [Nat.zero_add, hk2] at this
      exact this
    rw [hcell]
    refine ⟨rfl, rfl, rfl, rfl, hdiv, hmod, ?_⟩
    intro r c hc hrc
    subst hrc
    constructor
    · rw [Nat.add_mul_div_right _ _ hWpos, Nat.div_eq_of_lt hc, Nat.zero_add]
    · rw [Nat.add_mul_mod_self_right, Nat.mod_eq_of_lt hc]

/-- Witness of C13 on the 2 x 2 sample image: after an earlier call without a
buffer and a call supplying the image, cell 1 of row 1 of the full-size
fragment is made from source pixel 3, whose three alphas are 0.25: its colour
bytes are `linearToSRGB` of the colour components 0, and its alpha byte is
63. -/
theorem GetScanlineRGBA_reads_last_buffer_witness :
    ((((KrakFragment.create 2 2 0 0).afterUpdates
        ([(2, 2, none)] ++ [(((2 : Nat) : Int), ((2 : Nat) : Int), some sampleImage)])).GetScanlineRGBA
          samplePow 1 .siImageBitDepthInteger8 (fun _ => ⟨0, 0, 0, 0⟩)).2 1).r =
      linearToSRGB samplePow quarterAlphaPixel.r ∧
    ((((KrakFragment.create 2 2 0 0).afterUpdates
        ([(2, 2, none)] ++ [(((2 : Nat) : Int), ((2 : Nat) : Int), some sampleImage)])).GetScanlineRGBA
          samplePow 1 .siImageBitDepthInteger8 (fun _ => ⟨0, 0, 0, 0⟩)).2 1).a = 63 :=
  ⟨((GetScanlineRGBA_reads_last_buffer samplePow [(2, 2, none)] 2 2 sampleImage
      .siImageBitDepthInteger8 (fun _ => ⟨0, 0, 0, 0⟩) (by decide)).1 2 2 0 0 1 1 (by decide)
      (by decide)).1,
    ((GetScanlineRGBA_reads_last_buffer samplePow [(2, 2, none)] 2 2 sampleImage
      .siImageBitDepthInteger8 (fun _ => ⟨0, 0, 0, 0⟩) (by decide)).1 2 2 0 0 1 1 (by decide)
      (by decide)).2.2.2.1.trans alpha_quarter⟩

/-! ## Facts about the render session -/

theorem registeredStreams_append (t1 t2 : List Event) :
    registeredStreams (t1 ++ t2) = registeredStreams t1 ++ registeredStreams t2 := by
  simp [registeredStreams, List.filterMap_append]

theorem renderInvoked_append (t1 t2 : List Event) :
    renderInvoked (t1 ++ t2) = (renderInvoked t1 || renderInvoked t2) := by
  simp [renderInvoked, List.any_append]

theorem renderInvoked_of_isSnapshot (events : List Event)
    (h : ∀ e ∈ events, e.isSnapshot = true) : renderInvoked events = false := by
  unfold renderInvoked
  rw [List.any_eq_false]
  intro e he
  have := h e he
  cases e <;> simp_all [Event.isSnapshot]

theorem unlockCalls_of_isSnapshot (events : List Event)
    (h : ∀ e ∈ events, e.isSnapshot = true) : unlockCalls events = 0 := by
  unfold unlockCalls
  rw [List.countP_eq_zero]
  intro e he
  have := h e he
  cases e <;> simp_all [Event.isSnapshot]

theorem Extends.refl (st : ProcessState) : Extends [] st st :=
  ⟨rfl, [], by simp, by simp, rfl⟩

theorem Extends.trans {l1 l2 : List SIPointCloudParticleStream} {a b c : ProcessState}
    (h1 : Extends l1 a b) (h2 : Extends l2 b c) : Extends (l1 ++ l2) a c := by
  obtain ⟨hl1, e1, ht1, hs1, hr1⟩ := h1
  obtain ⟨hl2, e2, ht2, hs2, hr2⟩ := h2
  refine ⟨hl2.trans hl1, e1 ++ e2, ?_, ?_, ?_⟩
  · rw [ht2, ht1, List.append_assoc]
  · intro e he
    rcases List.mem_append.mp he with h | h
    · exact hs1 e h
    · exact hs2 e h
  · rw [registeredStreams_append, hr1, hr2]

theorem Extends.emit (st : ProcessState) (events : List Event)
    (h : ∀ e ∈ events, e.isSnapshot = true) :
    Extends (registeredStreams events) st (st.emit events) :=
  ⟨rfl, events, rfl, h, rfl⟩

/-- A loop whose body only logs snapshot events that register no stream does
the same as a whole. -/
theorem Extends.foldl {α : Type} (f : ProcessState → α → ProcessState)
    (h : ∀ st x, Extends [] st (f st x)) (xs : List α) (st : ProcessState) :
    Extends [] st (xs.foldl f st) := by
  induction xs generalizing st with
  | nil => exact Extends.refl st
  | cons x xs ih =>
    rw [List.foldl_cons]
    have := Extends.trans (h st x) (ih (f st x))
    simpa using this

theorem AddLight_extends (st : ProcessState) (light : Light) :
    Extends [] st (AddLight st light) := by
  unfold AddLight
  split
  · have h1 := Extends.emit st [Event.sceneQuery "light"] (by simp [Event.isSnapshot])
    have h2 := Extends.emit (st.emit [Event.sceneQuery "light"]) [Event.add_light light.name]
      (by simp [Event.isSnapshot])
    exact Extends.trans h1 h2
  · exact Extends.emit st [Event.sceneQuery "light"] (by simp [Event.isSnapshot])

theorem visitLightMember_extends (st : ProcessState) (member : GroupMember) :
    Extends [] st (visitLightMember st member) := by
  unfold visitLightMember
  have h1 := Extends.emit st [Event.sceneQuery "group member"] (by simp [Event.isSnapshot])
  split
  · exact Extends.trans h1 (AddLight_extends _ _)
  · exact h1

theorem visitOcclusionMember_extends (st : ProcessState) (gchild : GroupMember) :
    Extends [] st (visitOcclusionMember st gchild) := by
  unfold visitOcclusionMember AddOcclusionMesh
  have h1 := Extends.emit st [Event.sceneQuery "group member"] (by simp [Event.isSnapshot])
  have h2 := Extends.emit (st.emit [Event.sceneQuery "group member"])
    [Event.sceneQuery "polygon mesh"] (by simp [Event.isSnapshot])
  split
  · cases hm : gchild.polygonMesh with
    | none => exact Extends.trans h1 h2
    | some geom =>
      have h3 := Extends.emit
        ((st.emit [Event.sceneQuery "group member"]).emit [Event.sceneQuery "polygon mesh"])
        [Event.created (Resource.mesh (st.meshPtrs.length)), Event.add_mesh (st.meshPtrs.length)]
        (by simp [Event.isSnapshot])
      exact Extends.trans (Extends.trans h1 h2) h3
  · exact h1

theorem visitGroup_extends (inp : ProcessInput) (st : ProcessState) (group : Group) :
    Extends [] st (visitGroup inp st group) := by
  unfold visitGroup
  have h1 := Extends.emit st [Event.sceneQuery "group"] (by simp [Event.isSnapshot])
  split
  · exact Extends.trans h1 (Extends.foldl _ visitOcclusionMember_extends _ _)
  · split
    · exact Extends.trans h1 (Extends.foldl _ visitLightMember_extends _ _)
    · exact h1

theorem addPointCloud_extends (st : ProcessState) (geom : Geometry) :
    Extends (if geom.pointCount = 0 then [] else [SIPointCloudParticleStream.create geom]) st
      (addPointCloud st geom) := by
  unfold addPointCloud
  have h1 := Extends.emit st [Event.sceneQuery "point cloud"] (by simp [Event.isSnapshot])
  by_cases h : geom.pointCount = 0
  · simp only [h, if_true]
    exact h1
  · simp only [h, if_false]
    refine ⟨rfl, [Event.sceneQuery "point cloud",
      Event.created (Resource.stream st.pStreamInterfaces.length),
      Event.add_particle_stream st.pStreamInterfaces.length
        (SIPointCloudParticleStream.create geom)], ?_, ?_, rfl⟩
    · simp [ProcessState.emit]
    · simp [Event.isSnapshot]

/-- The loop over the point clouds of one scene object registers, in order, a
stream for every cloud that is not empty. -/
theorem addPointClouds_extends (clouds : List Geometry) (st : ProcessState) :
    Extends ((clouds.filter (fun g => decide (g.pointCount ≠ 0))).map
      SIPointCloudParticleStream.create) st (clouds.foldl addPointCloud st) := by
  induction clouds generalizing st with
  | nil => exact Extends.refl st
  | cons g clouds ih =>
    rw [List.foldl_cons]
    have h := Extends.trans (addPointCloud_extends st g) (ih (addPointCloud st g))
    by_cases h0 : g.pointCount = 0
    · simpa [h0] using h
    · simpa [h0] using h

theorem visitSceneRef_extends (inp : ProcessInput) (st : ProcessState) (ref : SceneRef) :
    Extends (((if ref.isX3DObject then ref.pointClouds else []).filter
      (fun g => decide (g.pointCount ≠ 0))).map SIPointCloudParticleStream.create) st
      (visitSceneRef inp st ref) := by
  unfold visitSceneRef
  by_cases hx : ref.isX3DObject = true
  · simp only [hx, if_true]
    have h1 := addPointClouds_extends ref.pointClouds st
    split
    · split
      · have := Extends.trans h1 (Extends.foldl _ (visitGroup_extends inp) ref.groups _)
        simpa using this
      · exact h1
    · exact h1
  · simp only [hx]
    exact Extends.refl st

/-- The scene loop registers, in traversal order, a stream for every point
cloud that is not empty. -/
theorem visitScene_extends (inp : ProcessInput) (scene : List SceneRef) (st : ProcessState) :
    Extends (((scenePointClouds scene).filter (fun g => decide (g.pointCount ≠ 0))).map
      SIPointCloudParticleStream.create) st (scene.foldl (visitSceneRef inp) st) := by
  induction scene generalizing st with
  | nil => exact Extends.refl st
  | cons ref scene ih =>
    rw [List.foldl_cons]
    have h := Extends.trans (visitSceneRef_extends inp st ref) (ih (visitSceneRef inp st ref))
    simpa [scenePointClouds, List.filter_append, List.map_append] using h

theorem addSceneLights_extends (inp : ProcessInput) (st : ProcessState) :
    Extends [] st (addSceneLights inp st) := by
  unfold addSceneLights
  split
  · exact Extends.foldl _ AddLight_extends _ _
  · exact Extends.refl st

/-- The extension test of the file saver block rejects a path exactly when
the path has a dot and the text after its last dot is not `exr`. -/
theorem unsupported_iff (path : String) :
    (match ReverseFindString path '.' with
      | some dotindex => decide (Lower (GetSubString path (dotindex + 1)) ≠ "exr")
      | none => false) =
    ((ReverseFindString path '.').isSome && !hasExrExtension path) := by
  unfold hasExrExtension
  cases ReverseFindString path '.' with
  | none => rfl
  | some d => simp

/-- The file saver block when persisted image output is in effect and the
first framebuffer called `Main` is enabled. -/
theorem setupFileSaver_persisted (inp : ProcessInput) (st : ProcessState) (fb : Framebuffer)
    (hType : inp.renderType ≠ "Region") (hFile : inp.fileOutput = true)
    (hPrt : inp.outputPrt = false)
    (hMain : inp.frameBuffers.find? (fun fb => fb.name == "Main") = some fb)
    (hEnabled : fb.enabled = true) :
    setupFileSaver inp st =
      if ((ReverseFindString fb.resolvedPath '.').isSome && !hasExrExtension fb.resolvedPath)
          = true then
        Step.exit CStatus.Abort (st.emit [Event.sceneQuery "framebuffers"])
      else
        Step.next ({ (st.emit [Event.sceneQuery "framebuffers"]).emit
            [Event.created Resource.saver] with pSaver := some fb.resolvedPath }.emit
          [Event.set_render_save_callback (some fb.resolvedPath)]) := by
  unfold setupFileSaver
  rw [if_pos ⟨hType, hFile, hPrt⟩]
  simp only [hMain, hEnabled, if_true, unsupported_iff]

/-- The file saver block either goes on or returns `Abort`; either way it
only logs snapshot events and registers no stream. -/
theorem setupFileSaver_cases (inp : ProcessInput) (st : ProcessState) :
    (∃ t, setupFileSaver inp st = Step.next t ∧ Extends [] st t) ∨
    (∃ t, setupFileSaver inp st = Step.exit CStatus.Abort t ∧ Extends [] st t) := by
  have hq := Extends.emit st [Event.sceneQuery "framebuffers"] (by simp [Event.isSnapshot])
  have hn : ∃ t, useNoSave st = Step.next t ∧ Extends [] st t :=
    ⟨_, rfl, Extends.emit st [Event.set_render_save_callback none] (by simp [Event.isSnapshot])⟩
  have hn2 : ∃ t, useNoSave (st.emit [Event.sceneQuery "framebuffers"]) = Step.next t ∧
      Extends [] st t :=
    ⟨_, rfl, Extends.trans hq (Extends.emit _ [Event.set_render_save_callback none]
      (by simp [Event.isSnapshot]))⟩
  unfold setupFileSaver
  split
  · cases hm : inp.frameBuffers.find? (fun fb => fb.name == "Main") with
    | none => exact Or.inl hn2
    | some fb =>
      simp only
      by_cases he : fb.enabled = true
      · simp only [he, if_true]
        split
        · exact Or.inr ⟨_, rfl, hq⟩
        · refine Or.inl ⟨_, rfl, ?_⟩
          refine ⟨rfl, [Event.sceneQuery "framebuffers", Event.created Resource.saver,
            Event.set_render_save_callback (some fb.resolvedPath)], ?_, ?_, rfl⟩
          · simp [ProcessState.emit]
          · simp [Event.isSnapshot]
      · simp only [he]
        exact Or.inl hn2
  · exact Or.inl hn

/-- The `.prt` block either goes on or returns `Fail`; either way it only
logs snapshot events and registers no stream. -/
theorem setupPrtOutput_cases (inp : ProcessInput) (st : ProcessState) :
    (∃ t, setupPrtOutput inp st = Step.next t ∧ Extends [] st t) ∨
    (∃ t, setupPrtOutput inp st = Step.exit CStatus.Fail t ∧ Extends [] st t) := by
  have hq := Extends.emit st [Event.sceneQuery "prt settings"] (by simp [Event.isSnapshot])
  unfold setupPrtOutput
  split
  · split
    · exact Or.inl ⟨_, rfl, Extends.refl st⟩
    · simp only
      split
      · exact Or.inr ⟨_, rfl, hq⟩
      · split
        · exact Or.inr ⟨_, rfl, hq⟩
        · split
          · exact Or.inr ⟨_, rfl, hq⟩
          · exact Or.inl ⟨_, rfl, Extends.trans hq
              (Extends.emit _ [Event.save_output_prt _] (by simp [Event.isSnapshot]))⟩
  · exact Or.inl ⟨_, rfl, Extends.refl st⟩

theorem snapshotScene_saver_exit (inp : ProcessInput) (st t : ProcessState) (status : CStatus)
    (h : setupFileSaver inp
      (st.emit [Event.sceneQuery "render context", Event.sceneQuery "renderer property"]) =
        Step.exit status t) :
    snapshotScene inp st = Step.exit status t := by
  unfold snapshotScene
  simp only [h]

/-- The locked part of the run either returns early, with `Abort` or `Fail`
and without having registered a stream, or goes on after registering, in
traversal order, a stream for every point cloud that is not empty. Either way
it only logs snapshot events and leaves the guard alone. -/
theorem snapshotScene_cases (inp : ProcessInput) (st : ProcessState) :
    (∃ status t, snapshotScene inp st = Step.exit status t ∧ Extends [] st t ∧
      (status = CStatus.Abort ∨ status = CStatus.Fail)) ∨
    (∃ t, snapshotScene inp st = Step.next t ∧
      Extends (((scenePointClouds inp.scene).filter (fun g => decide (g.pointCount ≠ 0))).map
        SIPointCloudParticleStream.create) st t) := by
  have h0 := Extends.emit st
    [Event.sceneQuery "render context", Event.sceneQuery "renderer property"]
    (by simp [Event.isSnapshot])
  unfold snapshotScene
  rcases setupFileSaver_cases inp
    (st.emit [Event.sceneQuery "render context", Event.sceneQuery "renderer property"])
    with ⟨t1, e1, x1⟩ | ⟨t1, e1, x1⟩
  · simp only [e1]
    have hc := Extends.emit t1 [Event.sceneQuery "camera"] (by simp [Event.isSnapshot])
    rcases setupPrtOutput_cases inp (t1.emit [Event.sceneQuery "camera"])
      with ⟨t2, e2, x2⟩ | ⟨t2, e2, x2⟩
    · simp only [e2]
      right
      refine ⟨_, rfl, ?_⟩
      have hg := Extends.emit t2 [Event.sceneQuery "group settings"] (by simp [Event.isSnapshot])
      have hs := visitScene_extends inp inp.scene (t2.emit [Event.sceneQuery "group settings"])
      have hl := addSceneLights_extends inp
        (inp.scene.foldl (visitSceneRef inp) (t2.emit [Event.sceneQuery "group settings"]))
      have := Extends.trans (Extends.trans (Extends.trans (Extends.trans
        (Extends.trans (Extends.trans h0 x1) hc) x2) hg) hs) hl
      simpa [registeredStreams] using this
    · simp only [e2]
      left
      refine ⟨_, _, rfl, ?_, Or.inr rfl⟩
      have := Extends.trans (Extends.trans (Extends.trans h0 x1) hc) x2
      simpa [registeredStreams] using this
  · simp only [e1]
    left
    refine ⟨_, _, rfl, ?_, Or.inl rfl⟩
    have := Extends.trans h0 x1
    simpa [registeredStreams] using this

theorem lock_initial (inp : ProcessInput) :
    LockRendererData.lock inp
      { trace := [], locker := { locked := false }, pSaver := none, pStreamInterfaces := [],
        meshPtrs := [] } =
      if inp.lockResults 0 = CStatus.OK then (CStatus.OK, lockedState)
      else (inp.lockResults 0,
        { trace := [Event.LockSceneData (inp.lockResults 0)], locker := { locked := false },
          pSaver := none, pStreamInterfaces := [], meshPtrs := [] }) := by
  unfold LockRendererData.lock
  by_cases h : inp.lockResults 0 = CStatus.OK
  · simp [h, lockCalls, ProcessState.emit, lockedState]
  · simp [h, lockCalls, ProcessState.emit]

/-- A state reached from `lockedState` by snapshot events: the guard holds
the lock and `UnlockSceneData` has not been called. -/
theorem extends_lockedState {l : List SIPointCloudParticleStream} {t : ProcessState}
    (h : Extends l lockedState t) :
    t.locker.locked = true ∧ unlockCalls t.trace = 0 ∧
      ∃ events, t.trace = Event.LockSceneData CStatus.OK :: events ∧
        (∀ e ∈ events, e.isSnapshot = true) ∧ registeredStreams events = l := by
  obtain ⟨hl, events, ht, hs, hr⟩ := h
  refine ⟨by rw [hl]; rfl, ?_, events, by rw [ht]; rfl, hs, hr⟩
  rw [ht]
  have := unlockCalls_of_isSnapshot events hs
  simp only [unlockCalls] at this ⊢
  simp [lockedState, List.countP_append, this]

/-- The unlock of a state in which the guard holds the lock. -/
theorem unlock_locked (inp : ProcessInput) (t : ProcessState) (h : t.locker.locked = true) :
    LockRendererData.unlock inp t =
      if inp.unlockResults (unlockCalls t.trace) = CStatus.OK then
        (CStatus.OK, { t.emit [Event.UnlockSceneData CStatus.OK] with
          locker := { locked := false } })
      else
        (inp.unlockResults (unlockCalls t.trace),
          t.emit [Event.UnlockSceneData (inp.unlockResults (unlockCalls t.trace))]) := by
  unfold LockRendererData.unlock
  rw [if_pos h]
  by_cases hu : inp.unlockResults (unlockCalls t.trace) = CStatus.OK
  · simp [hu]
  · simp [hu]

/-- The unlock of a state in which the guard does not hold the lock calls
nothing. -/
theorem unlock_unlocked (inp : ProcessInput) (t : ProcessState) (h : t.locker.locked = false) :
    LockRendererData.unlock inp t = (CStatus.OK, t) := by
  unfold LockRendererData.unlock
  simp [h]

theorem releaseAll_trace (st : ProcessState) :
    (releaseAll st).trace = st.trace ++ releaseEvents st ∧
      (releaseAll st).locker = st.locker := by
  unfold releaseAll releaseEvents
  cases h : st.pSaver with
  | none => simp [ProcessState.emit, h]
  | some path => simp [ProcessState.emit, h]

theorem renderAndRelease_eq (inp : ProcessInput) (st : ProcessState) :
    (renderAndRelease inp st).1 = specStatus inp.renderOutcome ∧
    (renderAndRelease inp st).2.trace =
      st.trace ++ [Event.render inp.renderOutcome, Event.reset_renderer] ++
        releaseEvents st ∧
    (renderAndRelease inp st).2.locker = st.locker := by
  unfold renderAndRelease
  cases ho : inp.renderOutcome with
  | returned successful =>
    cases successful
    · simp only [Bool.false_eq_true, if_true, specStatus]
      refine ⟨trivial, ?_, ?_⟩
      · rw [(releaseAll_trace _).1]
        simp [ProcessState.emit, releaseEvents]
      · rw [(releaseAll_trace _).2]
        rfl
    · simp only [if_false, specStatus]
      refine ⟨by simp, ?_, ?_⟩
      · simp only [Bool.true_eq_false, if_false]
        rw [(releaseAll_trace _).1]
        simp [ProcessState.emit, releaseEvents]
      · simp only [Bool.true_eq_false, if_false]
        rw [(releaseAll_trace _).2]
        rfl
  | raised what =>
    simp only [specStatus]
    refine ⟨trivial, ?_, ?_⟩
    · rw [(releaseAll_trace _).1]
      simp [ProcessState.emit, releaseEvents]
    · rw [(releaseAll_trace _).2]
      rfl

theorem leave_locked (inp : ProcessInput) (status : CStatus) (t : ProcessState)
    (h : t.locker.locked = true) :
    leave inp status t =
      { status := status,
        trace := t.trace ++ [Event.UnlockSceneData (inp.unlockResults (unlockCalls t.trace))] } := by
  unfold leave
  rw [unlock_locked inp t h]
  by_cases hu : inp.unlockResults (unlockCalls t.trace) = CStatus.OK
  · simp [hu, ProcessState.emit]
  · simp [hu, ProcessState.emit]

theorem leave_unlocked (inp : ProcessInput) (status : CStatus) (t : ProcessState)
    (h : t.locker.locked = false) :
    leave inp status t = { status := status, trace := t.trace } := by
  unfold leave
  rw [unlock_unlocked inp t h]

theorem Process_lock_refused (inp : ProcessInput) (h : inp.lockResults 0 ≠ CStatus.OK) :
    KrakatoaSR_Process inp =
      { status := CStatus.Abort, trace := [Event.LockSceneData (inp.lockResults 0)] } := by
  unfold KrakatoaSR_Process
  simp only [lock_initial, if_neg h]
  rw [if_pos h, leave_unlocked _ _ _ rfl]

theorem Process_exit (inp : ProcessInput) (h : inp.lockResults 0 = CStatus.OK)
    (status : CStatus) (t : ProcessState)
    (hs : snapshotScene inp lockedState = Step.exit status t)
    (hl : t.locker.locked = true) (hu : unlockCalls t.trace = 0) :
    KrakatoaSR_Process inp =
      { status := status,
        trace := t.trace ++ [Event.UnlockSceneData (inp.unlockResults 0)] } := by
  unfold KrakatoaSR_Process
  simp only [lock_initial, if_pos h, ne_eq, not_true_eq_false, if_false, hs]
  rw [leave_locked _ _ _ hl, hu]

theorem Process_unlock_fails (inp : ProcessInput) (h : inp.lockResults 0 = CStatus.OK)
    (t : ProcessState) (hs : snapshotScene inp lockedState = Step.next t)
    (hl : t.locker.locked = true) (hu : unlockCalls t.trace = 0)
    (hf : inp.unlockResults 0 ≠ CStatus.OK) :
    KrakatoaSR_Process inp =
      { status := CStatus.Abort,
        trace := t.trace ++ [Event.UnlockSceneData (inp.unlockResults 0),
          Event.UnlockSceneData (inp.unlockResults 1)] } := by
  unfold KrakatoaSR_Process
  simp only [lock_initial, if_pos h, ne_eq, not_true_eq_false, if_false, hs]
  rw [unlock_locked inp t hl, hu, if_neg hf]
  simp only [hf, not_false_eq_true, if_true]
  rw [leave_locked _ _ _ (by exact hl)]
  have hu1 : unlockCalls
      (t.emit [Event.UnlockSceneData (inp.unlockResults 0)]).trace = 1 := by
    unfold unlockCalls at hu ⊢
    simp only [ProcessState.emit, List.countP_append, hu]
    rfl
  rw [hu1]
  simp [ProcessState.emit]

theorem Process_rendered (inp : ProcessInput) (h : inp.lockResults 0 = CStatus.OK)
    (t : ProcessState) (hs : snapshotScene inp lockedState = Step.next t)
    (hl : t.locker.locked = true) (hu : unlockCalls t.trace = 0)
    (hok : inp.unlockResults 0 = CStatus.OK) :
    KrakatoaSR_Process inp =
      { status := specStatus inp.renderOutcome,
        trace := t.trace ++ [Event.UnlockSceneData CStatus.OK, Event.NewFrame,
          Event.render inp.renderOutcome, Event.reset_renderer] ++ releaseEvents t } := by
  unfold KrakatoaSR_Process
  simp only [lock_initial, if_pos h, ne_eq, not_true_eq_false, if_false, hs]
  rw [unlock_locked inp t hl, hu, if_pos hok]
  simp only [not_true_eq_false, if_false]
  obtain ⟨h1, h2, h3⟩ := renderAndRelease_eq inp
    ({ t.emit [Event.UnlockSceneData CStatus.OK] with locker := { locked := false } }.emit
      [Event.NewFrame])
  rw [leave_unlocked _ _ _ (by rw [h3]; rfl), h1, h2]
  simp [ProcessState.emit, releaseEvents]

theorem registeredStreams_releaseEvents (t : ProcessState) :
    registeredStreams (releaseEvents t) = [] := by
  unfold releaseEvents registeredStreams
  cases t.pSaver <;> simp [List.filterMap_append, List.filterMap_map, Function.comp_def]

theorem releaseEvents_mem (t : ProcessState) (e : Event) (h : e ∈ releaseEvents t) :
    ∃ r, e = Event.released r := by
  unfold releaseEvents at h
  cases hp : t.pSaver with
  | none =>
    simp only [hp, List.append_nil, List.mem_append, List.mem_map] at h
    rcases h with ⟨p, _, rfl⟩ | ⟨p, _, rfl⟩
    · exact ⟨_, rfl⟩
    · exact ⟨_, rfl⟩
  | some path =>
    simp only [hp, List.mem_append, List.mem_map, List.mem_singleton] at h
    rcases h with (⟨p, _, rfl⟩ | ⟨p, _, rfl⟩) | rfl
    · exact ⟨_, rfl⟩
    · exact ⟨_, rfl⟩
    · exact ⟨_, rfl⟩

theorem renderInvoked_releaseEvents (t : ProcessState) :
    renderInvoked (releaseEvents t) = false := by
  unfold renderInvoked
  rw [List.any_eq_false]
  intro e he
  obtain ⟨r, rfl⟩ := releaseEvents_mem t e he
  simp

/-- The runs of `KrakatoaSR_Process`, by how far they get: the lock is
refused; the locked part returns early; the unlock before the render fails;
the render is called. -/
theorem Process_runs (inp : ProcessInput) :
    (inp.lockResults 0 ≠ CStatus.OK ∧
      KrakatoaSR_Process inp =
        { status := CStatus.Abort, trace := [Event.LockSceneData (inp.lockResults 0)] }) ∨
    (inp.lockResults 0 = CStatus.OK ∧ ∃ events : List Event,
      (∀ e ∈ events, e.isSnapshot = true) ∧
      ((∃ status t, snapshotScene inp lockedState = Step.exit status t ∧
          (status = CStatus.Abort ∨ status = CStatus.Fail) ∧
          registeredStreams events = [] ∧
          KrakatoaSR_Process inp =
            { status := status,
              trace := Event.LockSceneData CStatus.OK :: events ++
                [Event.UnlockSceneData (inp.unlockResults 0)] }) ∨
       (∃ t, snapshotScene inp lockedState = Step.next t ∧
          registeredStreams events = specRegistered inp.scene ∧
          ((inp.unlockResults 0 ≠ CStatus.OK ∧
            KrakatoaSR_Process inp =
              { status := CStatus.Abort,
                trace := Event.LockSceneData CStatus.OK :: events ++
                  [Event.UnlockSceneData (inp.unlockResults 0),
                    Event.UnlockSceneData (inp.unlockResults 1)] }) ∨
           (inp.unlockResults 0 = CStatus.OK ∧
            KrakatoaSR_Process inp =
              { status := specStatus inp.renderOutcome,
                trace := Event.LockSceneData CStatus.OK :: events ++
                  [Event.UnlockSceneData CStatus.OK, Event.NewFrame,
                    Event.render inp.renderOutcome, Event.reset_renderer] ++
                  releaseEvents t }))))) := by
  by_cases h : inp.lockResults 0 = CStatus.OK
  · right
    refine ⟨h, ?_⟩
    rcases snapshotScene_cases inp lockedState with ⟨status, t, hs, hx, hst⟩ | ⟨t, hs, hx⟩
    · obtain ⟨hl, hu, events, ht, hsn, hr⟩ := extends_lockedState hx
      refine ⟨events, hsn, Or.inl ⟨status, t, hs, hst, hr, ?_⟩⟩
      rw [Process_exit inp h status t hs hl hu, ht]
    · obtain ⟨hl, hu, events, ht, hsn, hr⟩ := extends_lockedState hx
      refine ⟨events, hsn, Or.inr ⟨t, hs, hr, ?_⟩⟩
      by_cases hok : inp.unlockResults 0 = CStatus.OK
      · right
        refine ⟨hok, ?_⟩
        rw [Process_rendered inp h t hs hl hu hok, ht]
      · left
        refine ⟨hok, ?_⟩
        rw [Process_unlock_fails inp h t hs hl hu hok, ht]
  · left
    exact ⟨h, Process_lock_refused inp h⟩

theorem renderInvoked_cons (e : Event) (t : List Event) :
    renderInvoked (e :: t) =
      ((match e with | .render _ => true | _ => false) || renderInvoked t) := rfl

theorem renderInvoked_nil : renderInvoked [] = false := rfl

/-- A run in which `render()` is called: the lock was granted, the locked
part went through, the unlock before the render returned OK, and the log is
the lock, the snapshot events, the unlock, `NewFrame`, the render, the reset
and the releases. -/
theorem Process_of_renderInvoked (inp : ProcessInput)
    (h : renderInvoked (KrakatoaSR_Process inp).trace = true) :
    inp.lockResults 0 = CStatus.OK ∧ inp.unlockResults 0 = CStatus.OK ∧
    ∃ (events : List Event) (t : ProcessState),
      (∀ e ∈ events, e.isSnapshot = true) ∧
      snapshotScene inp lockedState = Step.next t ∧
      registeredStreams events = specRegistered inp.scene ∧
      KrakatoaSR_Process inp =
        { status := specStatus inp.renderOutcome,
          trace := Event.LockSceneData CStatus.OK :: events ++
            [Event.UnlockSceneData CStatus.OK, Event.NewFrame,
              Event.render inp.renderOutcome, Event.reset_renderer] ++
            releaseEvents t } := by
  rcases Process_runs inp with ⟨_, hP⟩ | ⟨hlock, events, hsn, hcase⟩
  · rw [hP] at h
    simp [renderInvoked] at h
  · have hev := renderInvoked_of_isSnapshot events hsn
    rcases hcase with ⟨status, t, _, _, _, hP⟩ | ⟨t, hs, hr, hcase2⟩
    · rw [hP] at h
      simp [renderInvoked_cons, renderInvoked_append, hev, renderInvoked_nil] at h
    · rcases hcase2 with ⟨_, hP⟩ | ⟨hok, hP⟩
      · rw [hP] at h
        simp [renderInvoked_cons, renderInvoked_append, hev, renderInvoked_nil] at h
      · exact ⟨hlock, hok, events, t, hsn, hs, hr, hP⟩

/-- A run in which the locked part returns early calls no `render()`. -/
theorem Process_of_exit (inp : ProcessInput) (status : CStatus) (t : ProcessState)
    (hs : snapshotScene inp lockedState = Step.exit status t) :
    renderInvoked (KrakatoaSR_Process inp).trace = false ∧
    (inp.lockResults 0 = CStatus.OK → (KrakatoaSR_Process inp).status = status) ∧
    (inp.lockResults 0 ≠ CStatus.OK → (KrakatoaSR_Process inp).status = CStatus.Abort) := by
  rcases Process_runs inp with ⟨hno, hP⟩ | ⟨hlock, events, hsn, hcase⟩
  · rw [hP]
    exact ⟨by simp [renderInvoked], fun h => absurd h hno, fun _ => rfl⟩
  · have hev := renderInvoked_of_isSnapshot events hsn
    rcases hcase with ⟨status2, t2, hs2, _, _, hP⟩ | ⟨t2, hs2, _⟩
    · rw [hs] at hs2
      cases hs2
      rw [hP]
      refine ⟨?_, fun _ => rfl, fun h => absurd hlock h⟩
      simp [renderInvoked_cons, renderInvoked_append, hev, renderInvoked_nil]
    · rw [hs] at hs2
      cases hs2

theorem registeredStreams_locked (res : CStatus) (events tail : List Event) :
    registeredStreams (Event.LockSceneData res :: events ++ tail) =
      registeredStreams events ++ registeredStreams tail := by
  simp [registeredStreams, List.filterMap_append, List.filterMap_cons]

theorem particle_count_specRegistered (scene : List SceneRef)
    (s : SIPointCloudParticleStream) (h : s ∈ specRegistered scene) :
    ∃ n : Int, 1 ≤ n ∧ particle_count s = Except.ok n := by
  unfold specRegistered at h
  obtain ⟨g, hg, rfl⟩ := List.mem_map.mp h
  have hne : g.pointCount ≠ 0 := by
    have := (List.mem_filter.mp hg).2
    simpa using this
  refine ⟨(g.pointCount : Int), by omega, ?_⟩
  unfold particle_count
  rw [(create_frame g).2.1, if_neg (by omega)]

/-! ## The claims about the tile invariant and the render session -/

/-- C14 fails on the code: right after construction the source size is 0 x 0,
so a fragment of one pixel breaks the invariant; and after an `Update` with a
2 x 2 image a fragment of 4 x 4 pixels breaks it too. Nothing in the
constructor, in `Update` or in `SIFrameBufferInterface` compares the two
sizes. -/
theorem FrameTileInvariant_not_kept :
    ¬ FrameTileInvariant ((KrakFragment.create 1 1 0 0).afterUpdates []) ∧
    ¬ FrameTileInvariant (SIFrameBufferInterface.create 1 1 0 0).pFrag ∧
    ¬ FrameTileInvariant
      ((KrakFragment.create 4 4 0 0).afterUpdates [(2, 2, some sampleImage)]) := by
  refine ⟨by decide, by decide, by decide⟩

/-- C14 as amended: after construction and a sequence of `Update` calls that
is not empty and whose last call supplied width `W` and height `H`, the tile
invariant holds exactly when `offsetX + fragWidth ≤ W` and `offsetY +
fragHeight ≤ H`; the size and the offsets of the fragment are those given at
construction. -/
theorem FrameTileInvariant_iff_last_update_covers (fragWidth fragHeight offsetX offsetY : Nat)
    (earlier : List (Int × Int × Option (List frame_buffer_pixel_data)))
    (W H : Nat) (data : Option (List frame_buffer_pixel_data))
    (hW : W < 4294967296) (hH : H < 4294967296) :
    (FrameTileInvariant ((KrakFragment.create fragWidth fragHeight offsetX offsetY).afterUpdates
        (earlier ++ [((W : Int), (H : Int), data)])) ↔
      offsetX + fragWidth ≤ W ∧ offsetY + fragHeight ≤ H) ∧
    ((KrakFragment.create fragWidth fragHeight offsetX offsetY).afterUpdates
        (earlier ++ [((W : Int), (H : Int), data)])).fragWidth = fragWidth ∧
    ((KrakFragment.create fragWidth fragHeight offsetX offsetY).afterUpdates
        (earlier ++ [((W : Int), (H : Int), data)])).fragHeight = fragHeight ∧
    ((KrakFragment.create fragWidth fragHeight offsetX offsetY).afterUpdates
        (earlier ++ [((W : Int), (H : Int), data)])).offsetX = offsetX ∧
    ((KrakFragment.create fragWidth fragHeight offsetX offsetY).afterUpdates
        (earlier ++ [((W : Int), (H : Int), data)])).offsetY = offsetY := by
  obtain ⟨h1, h2, h3, h4⟩ :=
    afterUpdates_frame (KrakFragment.create fragWidth fragHeight offsetX offsetY) earlier
  rw [afterUpdates_append]
  unfold FrameTileInvariant KrakFragment.Update
  simp only [h1, h2, h3, h4, toUnsignedInt_natCast W hW, toUnsignedInt_natCast H hH]
  exact ⟨Iff.rfl, rfl, rfl, rfl, rfl⟩

/-- Witness of the amended C14: a 2 x 2 fragment at offset (0, 0) after an
`Update` with the 2 x 2 sample image. -/
theorem FrameTileInvariant_iff_last_update_covers_witness :
    FrameTileInvariant ((KrakFragment.create 2 2 0 0).afterUpdates
      ([] ++ [(((2 : Nat) : Int), ((2 : Nat) : Int), some sampleImage)])) :=
  (FrameTileInvariant_iff_last_update_covers 2 2 0 0 [] 2 2 (some sampleImage)
    (by decide) (by decide)).1.mpr ⟨by decide, by decide⟩

/-- C15: in every run of `KrakatoaSR_Process` that calls `render()`, the
returned status is OK exactly when `render()` returned true, Abort exactly
when it returned false, and Fail exactly when it raised an exception. -/
theorem status_follows_render_outcome (inp : ProcessInput)
    (h : renderInvoked (KrakatoaSR_Process inp).trace = true) :
    Event.render inp.renderOutcome ∈ (KrakatoaSR_Process inp).trace ∧
    ((KrakatoaSR_Process inp).status = CStatus.OK ↔
      inp.renderOutcome = RenderOutcome.returned true) ∧
    ((KrakatoaSR_Process inp).status = CStatus.Abort ↔
      inp.renderOutcome = RenderOutcome.returned false) ∧
    ((KrakatoaSR_Process inp).status = CStatus.Fail ↔
      ∃ what, inp.renderOutcome = RenderOutcome.raised what) := by
  obtain ⟨_, _, events, t, _, _, _, hP⟩ := Process_of_renderInvoked inp h
  rw [hP]
  refine ⟨by simp, ?_, ?_, ?_⟩
  · cases ho : inp.renderOutcome with
    | returned successful => cases successful <;> simp [specStatus]
    | raised what => simp [specStatus]
  · cases ho : inp.renderOutcome with
    | returned successful => cases successful <;> simp [specStatus]
    | raised what => simp [specStatus]
  · cases ho : inp.renderOutcome with
    | returned successful => cases successful <;> simp [specStatus]
    | raised what => simp [specStatus]

/-- Witness of C15 on the sample run, in which `render()` returns true. -/
theorem status_follows_render_outcome_witness :
    renderInvoked (KrakatoaSR_Process sampleInput).trace = true ∧
    ((KrakatoaSR_Process sampleInput).status = CStatus.OK ↔
      sampleInput.renderOutcome = RenderOutcome.returned true) :=
  ⟨by decide, (status_follows_render_outcome sampleInput (by decide)).2.1⟩

/-- C16, at the failing inputs: when the host refuses the scene lock the run
returns `Abort`, although `render()` was never called; the same happens when
the unlock before the render fails and when the output path ends in `.pic`.
The `.prt` path checks next to them return `Fail`. -/
theorem errors_reported_as_Abort :
    (KrakatoaSR_Process lockRefusedInput).status = CStatus.Abort ∧
    renderInvoked (KrakatoaSR_Process lockRefusedInput).trace = false ∧
    (KrakatoaSR_Process unlockFailsInput).status = CStatus.Abort ∧
    renderInvoked (KrakatoaSR_Process unlockFailsInput).trace = false ∧
    (KrakatoaSR_Process picExtensionInput).status = CStatus.Abort ∧
    renderInvoked (KrakatoaSR_Process picExtensionInput).trace = false ∧
    (KrakatoaSR_Process prtNoExtensionInput).status = CStatus.Fail ∧
    renderInvoked (KrakatoaSR_Process prtNoExtensionInput).trace = false := by
  refine ⟨by decide, by decide, by decide, by decide, by decide, by decide, by decide,
    by decide⟩

/-- C17, at the failing input: when the unlock before the render fails, the
run returns with the stream, the occlusion mesh and the file saver it
created still unreleased; on the sample run, which reaches the render, each
of the three is released once. -/
theorem unlock_failure_releases_nothing :
    (KrakatoaSR_Process unlockFailsInput).status = CStatus.Abort ∧
    Event.created (Resource.stream 0) ∈ (KrakatoaSR_Process unlockFailsInput).trace ∧
    Event.created (Resource.mesh 0) ∈ (KrakatoaSR_Process unlockFailsInput).trace ∧
    Event.created Resource.saver ∈ (KrakatoaSR_Process unlockFailsInput).trace ∧
    (KrakatoaSR_Process unlockFailsInput).trace.count (Event.released (Resource.stream 0)) = 0 ∧
    (KrakatoaSR_Process unlockFailsInput).trace.count (Event.released (Resource.mesh 0)) = 0 ∧
    (KrakatoaSR_Process unlockFailsInput).trace.count (Event.released Resource.saver) = 0 ∧
    (KrakatoaSR_Process sampleInput).trace.count (Event.released (Resource.stream 0)) = 1 ∧
    (KrakatoaSR_Process sampleInput).trace.count (Event.released (Resource.mesh 0)) = 1 ∧
    (KrakatoaSR_Process sampleInput).trace.count (Event.released Resource.saver) = 1 := by
  refine ⟨by decide, by decide, by decide, by decide, by decide, by decide, by decide,
    by decide, by decide, by decide⟩

theorem isSnapshot_not_lockOperation (e : Event) (h : e.isSnapshot = true) :
    e.isLockOperation = false := by
  cases e <;> simp_all [Event.isSnapshot, Event.isLockOperation]

/-- C19 fails on the code: with persisted image output in effect and the
output path `render`, which has no extension at all, the run calls `render()`
and returns OK. The extension test is skipped when the path has no dot. -/
theorem render_invoked_without_extension :
    noExtensionInput.renderType ≠ "Region" ∧ noExtensionInput.fileOutput = true ∧
    noExtensionInput.outputPrt = false ∧
    noExtensionInput.frameBuffers.find? (fun fb => fb.name == "Main") =
      some { name := "Main", enabled := true, resolvedPath := "render" } ∧
    hasExrExtension "render" = false ∧
    renderInvoked (KrakatoaSR_Process noExtensionInput).trace = true ∧
    (KrakatoaSR_Process noExtensionInput).status = CStatus.OK := by
  refine ⟨by decide, by decide, by decide, by decide, by decide, by decide, by decide⟩

/-- C19 as amended: when persisted image output is in effect (render type
not `Region`, `FileOutput` on, PRT output off, the first framebuffer called
`Main` enabled), `render()` is called only if the resolved path has no dot or
the text after its last dot is `exr` in some letter case; for a path with a
dot followed by anything else the run returns a status that is not OK and
never calls `render()`. -/
theorem render_needs_exr_or_no_dot (inp : ProcessInput) (fb : Framebuffer)
    (hType : inp.renderType ≠ "Region") (hFile : inp.fileOutput = true)
    (hPrt : inp.outputPrt = false)
    (hMain : inp.frameBuffers.find? (fun fb => fb.name == "Main") = some fb)
    (hEnabled : fb.enabled = true) :
    (renderInvoked (KrakatoaSR_Process inp).trace = true →
      ReverseFindString fb.resolvedPath '.' = none ∨ hasExrExtension fb.resolvedPath = true) ∧
    ((ReverseFindString fb.resolvedPath '.').isSome = true →
      hasExrExtension fb.resolvedPath = false →
      (KrakatoaSR_Process inp).status ≠ CStatus.OK ∧
        renderInvoked (KrakatoaSR_Process inp).trace = false) := by
  have hexit : (ReverseFindString fb.resolvedPath '.').isSome = true →
      hasExrExtension fb.resolvedPath = false →
      (KrakatoaSR_Process inp).status ≠ CStatus.OK ∧
        renderInvoked (KrakatoaSR_Process inp).trace = false := by
    intro hdot hext
    have hs := setupFileSaver_persisted inp
      (lockedState.emit [Event.sceneQuery "render context", Event.sceneQuery "renderer property"])
      fb hType hFile hPrt hMain hEnabled
    rw [if_pos (by simp [hdot, hext])] at hs
    have hx := snapshotScene_saver_exit inp lockedState _ _ hs
    obtain ⟨hr, hok, hno⟩ := Process_of_exit inp _ _ hx
    refine ⟨?_, hr⟩
    by_cases hl : inp.lockResults 0 = CStatus.OK
    · rw [hok hl]
      decide
    · rw [hno hl]
      decide
  refine ⟨?_, hexit⟩
  intro hr
  cases hd : ReverseFindString fb.resolvedPath '.' with
  | none => exact Or.inl rfl
  | some d =>
    right
    cases he : hasExrExtension fb.resolvedPath with
    | true => rfl
    | false =>
      have := (hexit (by simp [hd]) he).2
      rw [hr] at this
      cases this

/-- Witness of the amended C19: the sample run writes to a path that ends in
`.EXR` and calls `render()`. -/
theorem render_needs_exr_or_no_dot_witness :
    renderInvoked (KrakatoaSR_Process sampleInput).trace = true ∧
    (ReverseFindString "C:/out/render.0001.EXR" '.' = none ∨
      hasExrExtension "C:/out/render.0001.EXR" = true) :=
  ⟨by decide,
    (render_needs_exr_or_no_dot sampleInput
      { name := "Main", enabled := true, resolvedPath := "C:/out/render.0001.EXR" }
      (by decide) (by decide) (by decide) (by decide) (by decide)).1 (by decide)⟩

/-- C20 fails on the code: the sample scene has one point cloud with points,
but a run in which the host refuses the scene lock, and a run whose output
path ends in `.pic`, return before the scene loop and register no stream. -/
theorem early_return_registers_no_stream :
    specRegistered lockRefusedInput.scene = [SIPointCloudParticleStream.create sampleCloud] ∧
    registeredStreams (KrakatoaSR_Process lockRefusedInput).trace = [] ∧
    specRegistered picExtensionInput.scene = [SIPointCloudParticleStream.create sampleCloud] ∧
    registeredStreams (KrakatoaSR_Process picExtensionInput).trace = [] := by
  refine ⟨by decide, by decide, by decide, by decide⟩

/-- C20 as amended: in every run of `KrakatoaSR_Process` that calls `render()`
or returns OK, the particle streams handed to the engine are exactly, in
traversal order, the streams of the point clouds of the scene that have
points; any other run hands over either those same streams or, when it
returns before the scene loop, none at all, and then it calls no `render()`
and its status is not OK. A point cloud without points is never wrapped or
handed over, and every stream handed over reports a particle count of at
least 1. -/
theorem registered_streams_are_nonempty_clouds (inp : ProcessInput) :
    (renderInvoked (KrakatoaSR_Process inp).trace = true →
      registeredStreams (KrakatoaSR_Process inp).trace = specRegistered inp.scene) ∧
    ((KrakatoaSR_Process inp).status = CStatus.OK →
      registeredStreams (KrakatoaSR_Process inp).trace = specRegistered inp.scene) ∧
    (registeredStreams (KrakatoaSR_Process inp).trace = specRegistered inp.scene ∨
      (registeredStreams (KrakatoaSR_Process inp).trace = [] ∧
        renderInvoked (KrakatoaSR_Process inp).trace = false ∧
        (KrakatoaSR_Process inp).status ≠ CStatus.OK)) ∧
    (∀ g ∈ scenePointClouds inp.scene, g.pointCount = 0 →
      SIPointCloudParticleStream.create g ∉ registeredStreams (KrakatoaSR_Process inp).trace) ∧
    (∀ s ∈ registeredStreams (KrakatoaSR_Process inp).trace,
      ∃ n : Int, 1 ≤ n ∧ particle_count s = Except.ok n) := by
  have key : registeredStreams (KrakatoaSR_Process inp).trace = specRegistered inp.scene ∨
      (registeredStreams (KrakatoaSR_Process inp).trace = [] ∧
        renderInvoked (KrakatoaSR_Process inp).trace = false ∧
        (KrakatoaSR_Process inp).status ≠ CStatus.OK) := by
    rcases Process_runs inp with ⟨_, hP⟩ | ⟨_, events, hsn, hcase⟩
    · right
      rw [hP]
      exact ⟨rfl, rfl, fun h => by cases h⟩
    · have hev := renderInvoked_of_isSnapshot events hsn
      rcases hcase with ⟨status, t, _, hst, hr, hP⟩ | ⟨t, _, hr, hcase2⟩
      · right
        rw [hP]
        refine ⟨?_, ?_, ?_⟩
        · rw [registeredStreams_locked, hr]
          rfl
        · simp [renderInvoked_cons, renderInvoked_append, hev, renderInvoked_nil]
        · rcases hst with h | h <;> rw [h] <;> exact fun h2 => by cases h2
      · left
        rcases hcase2 with ⟨_, hP⟩ | ⟨_, hP⟩
        · rw [hP]
          rw [registeredStreams_locked, hr]
          simp [registeredStreams]
        · rw [hP]
          simp only [List.append_assoc]
          rw [registeredStreams_locked, hr, registeredStreams_append,
            registeredStreams_releaseEvents]
          simp [registeredStreams]
  have hcount : ∀ s ∈ registeredStreams (KrakatoaSR_Process inp).trace,
      ∃ n : Int, 1 ≤ n ∧ particle_count s = Except.ok n := by
    intro s hs
    rcases key with h | ⟨h, _⟩
    · rw [h] at hs
      exact particle_count_specRegistered inp.scene s hs
    · rw [h] at hs
      cases hs
  refine ⟨?_, ?_, key, ?_, hcount⟩
  · intro hr
    rcases key with h | ⟨_, h, _⟩
    · exact h
    · rw [hr] at h
      cases h
  · intro hok
    rcases key with h | ⟨_, _, h⟩
    · exact h
    · exact absurd hok h
  · intro g _ hg hmem
    obtain ⟨n, hn, hpc⟩ := hcount _ hmem
    unfold particle_count at hpc
    rw [(create_frame g).2.1] at hpc
    split at hpc
    · cases hpc
    · injection hpc with hpc
      omega

/-! ## The claims about reads, indices, channel names and meshes -/

/-- C23, at the sample cloud (two points, one copied channel): the first two
calls of `get_next_particle` read the position column, of length 2, at
indices 0 and 1 and return true; the third call, the one that returns false,
reads it at index 2, past its end, and writes what it found there into the
record. The loop copies before the cursor is compared with the count. -/
theorem get_next_particle_reads_past_end :
    (SIPointCloudParticleStream.create sampleCloud).particleCount = 2 ∧
    readsOfCall (SIPointCloudParticleStream.create sampleCloud) = [(0, 2)] ∧
    readsOfCall (afterCalls (SIPointCloudParticleStream.create sampleCloud) [Record.blank]) =
      [(1, 2)] ∧
    readsOfCall (afterCalls (SIPointCloudParticleStream.create sampleCloud)
      [Record.blank, Record.blank]) = [(2, 2)] ∧
    (get_next_particle (afterCalls (SIPointCloudParticleStream.create sampleCloud)
      [Record.blank]) Record.blank).ret = true ∧
    (get_next_particle (afterCalls (SIPointCloudParticleStream.create sampleCloud)
      [Record.blank, Record.blank]) Record.blank).ret = false ∧
    (get_next_particle (afterCalls (SIPointCloudParticleStream.create sampleCloud)
      [Record.blank, Record.blank]) Record.blank).particleData 0 =
        some (rawScalars ICEValue.outOfRange) := by
  refine ⟨by decide, by decide, by decide, by decide, by decide, by decide, by decide⟩

/-- C24: when the fragment lies inside the source image, every index the
loop of `GetScanlineRGBA` computes for a row `r < fragHeight` and a column
`i < fragWidth` is `(offsetX + i) + (offsetY + r) * krakWidth` or, after
wrap-around, less, and that is strictly less than `krakWidth * krakHeight`. -/
theorem sourceIndex_inside_image (f : KrakFragment) (h : FrameTileInvariant f) (r i : Nat)
    (hr : r < f.fragHeight) (hi : i < f.fragWidth) :
    (f.offsetX + i) + (f.offsetY + r) * f.krakWidth < f.krakWidth * f.krakHeight ∧
    f.sourceIndex r i ≤ (f.offsetX + i) + (f.offsetY + r) * f.krakWidth ∧
    f.sourceIndex r i < f.krakWidth * f.krakHeight := by
  obtain ⟨hx, hy⟩ := h
  have h1 : (f.offsetX + i) + (f.offsetY + r) * f.krakWidth < f.krakWidth * f.krakHeight := by
    have hrow : f.offsetY + r + 1 ≤ f.krakHeight := by omega
    have hcol : f.offsetX + i < f.krakWidth := by omega
    calc (f.offsetX + i) + (f.offsetY + r) * f.krakWidth
        < f.krakWidth + (f.offsetY + r) * f.krakWidth := by omega
      _ = (f.offsetY + r + 1) * f.krakWidth := by ring
      _ ≤ f.krakHeight * f.krakWidth := Nat.mul_le_mul_right _ hrow
      _ = f.krakWidth * f.krakHeight := Nat.mul_comm _ _
  have h2 : f.sourceIndex r i ≤ (f.offsetX + i) + (f.offsetY + r) * f.krakWidth := by
    unfold KrakFragment.sourceIndex wrapUInt
    simp only
    calc ((f.offsetX + i) % 4294967296 + (f.offsetY + r) % 4294967296 * f.krakWidth % 4294967296)
            % 4294967296
        ≤ (f.offsetX + i) % 4294967296
            + (f.offsetY + r) % 4294967296 * f.krakWidth % 4294967296 := Nat.mod_le _ _
      _ ≤ (f.offsetX + i) + (f.offsetY + r) % 4294967296 * f.krakWidth :=
          Nat.add_le_add (Nat.mod_le _ _) (Nat.mod_le _ _)
      _ ≤ (f.offsetX + i) + (f.offsetY + r) * f.krakWidth :=
          Nat.add_le_add_left (Nat.mul_le_mul_right _ (Nat.mod_le _ _)) _
  exact ⟨h1, h2, lt_of_le_of_lt h2 h1⟩

/-- Witness of C24: the 2 x 2 fragment at offset (0, 0) after an `Update`
with the 2 x 2 sample image, row 1, column 1. -/
theorem sourceIndex_inside_image_witness :
    ((KrakFragment.create 2 2 0 0).Update 2 2 (some sampleImage)).sourceIndex 1 1 < 2 * 2 :=
  (sourceIndex_inside_image ((KrakFragment.create 2 2 0 0).Update 2 2 (some sampleImage))
    (by decide) 1 1 (by decide) (by decide)).2.2

/-- Position by position, the engine names of the channels are what the
table gives for the host names of the attributes. -/
theorem channel_names_of_describes (table : StringMap) (attrs : List ICEAttribute)
    (chans : List channel_data) (h : List.Forall₂ (describes table) attrs chans) :
    (chans.map (fun cd => cd.name)).map some =
      (attrs.map (fun attr => attr.name)).map table.find := by
  induction h with
  | nil => rfl
  | cons hd _ ih =>
    simp only [List.map_cons, List.cons.injEq]
    exact ⟨hd.1.symm, ih⟩

theorem accepted_find_isSome (table : StringMap) (attr : ICEAttribute)
    (h : accepted table attr = true) : (table.find attr.name).isSome = true := by
  unfold accepted at h
  simp only [Bool.and_eq_true] at h
  exact h.1.2

/-- C25 fails on the code: a point cloud that carries both `Eccentricity` and
`PhaseEccentricity`, two distinct host names, gets two channels that are both
called `Eccentricity`. -/
theorem eccentricity_channel_appended_twice :
    (eccentricCloud.attributes.map (fun attr => attr.name)).Nodup ∧
    (SIPointCloudParticleStream.create eccentricCloud).channels.map (fun cd => cd.name) =
      ["Eccentricity", "Eccentricity"] ∧
    ¬ ((SIPointCloudParticleStream.create eccentricCloud).channels.map
      (fun cd => cd.name)).Nodup := by
  refine ⟨by decide, by decide, by decide⟩

/-- C25 as amended: for host attributes with pairwise distinct names, unless
both `Eccentricity` and `PhaseEccentricity` are among the accepted ones, the
engine names of the channels of the constructed stream are pairwise
distinct. -/
theorem channel_names_distinct (g : Geometry)
    (hnames : (g.attributes.map (fun attr => attr.name)).Nodup)
    (hpair : ¬ ("Eccentricity" ∈ acceptedNames g ∧ "PhaseEccentricity" ∈ acceptedNames g)) :
    ((SIPointCloudParticleStream.create g).channels.map (fun cd => cd.name)).Nodup := by
  by_cases h0 : g.pointCount = 0
  · rw [create_empty g h0]
    exact List.nodup_nil
  · have hattr : (SIPointCloudParticleStream.create g).attributes =
        g.attributes.filter (accepted channelNameMappings) := by
      rw [create_nonempty g h0, scan_attributes]
      rfl
    have hdesc : List.Forall₂ (describes channelNameMappings)
        (SIPointCloudParticleStream.create g).attributes
        (SIPointCloudParticleStream.create g).channels := by
      rw [create_nonempty g h0]
      exact scan_describes _ _ _ List.Forall₂.nil
    have hmap := channel_names_of_describes _ _ _ hdesc
    rw [hattr] at hmap
    apply List.Nodup.of_map some
    rw [hmap]
    have hacc : (acceptedNames g).Nodup :=
      hnames.sublist (List.Sublist.map _ (List.filter_sublist _))
    refine List.Nodup.map_on ?_ hacc
    intro x hx y hy hxy
    by_contra hne
    have hsome : ∀ z ∈ acceptedNames g, (channelNameMappings.find z).isSome = true := by
      intro z hz
      obtain ⟨attr, hattr2, rfl⟩ := List.mem_map.mp hz
      exact accepted_find_isSome _ _ (List.mem_filter.mp hattr2).2
    have hxr := (find_isSome_iff x).mp (hsome x hx)
    have hyr := (find_isSome_iff y).mp (hsome y hy)
    rcases aliasing_among_resolved x hxr y hyr hxy hne with ⟨rfl, rfl⟩ | ⟨rfl, rfl⟩
    · exact hpair ⟨hx, hy⟩
    · exact hpair ⟨hy, hx⟩

/-- Witness of the amended C25 on the sample cloud. -/
theorem channel_names_distinct_witness :
    ((SIPointCloudParticleStream.create sampleCloud).channels.map (fun cd => cd.name)).Nodup :=
  channel_names_distinct sampleCloud (by decide) (by decide)

/-- A loop whose body leaves a component of the state alone leaves it alone
as a whole. -/
theorem foldl_preserves {α β γ : Type} (f : β → α → β) (proj : β → γ)
    (h : ∀ b a, proj (f b a) = proj b) (l : List α) (b : β) :
    proj (l.foldl f b) = proj b := by
  induction l generalizing b with
  | nil => rfl
  | cons a l ih => rw [List.foldl_cons, ih, h]

/-- C26, for every mesh and at the sample triangle: `AddOcclusionMesh`
declares as many vertices as the position array has entries and as many faces
as the index array has entries, three times the vertex and triangle counts,
while its loops set one vertex per vertex and one face per triangle. For the
triangle (3 vertices, 1 face) it declares 9 vertices and 3 faces, sets
vertices 0 to 2 and face 0, and leaves vertices 3 to 8 and faces 1 and 2
unset. -/
theorem AddOcclusionMesh_declares_array_lengths :
    (∀ geom : PolygonMesh,
      (fillTriangleMesh geom).num_vertices = (geom.vertexPositions.length : Int) ∧
      (fillTriangleMesh geom).num_triangle_faces = (geom.triangleVertexIndices.length : Int)) ∧
    sampleMesh.vertexCount = 3 ∧ sampleMesh.triangleCount = 1 ∧
    sampleMesh.vertexPositions.length = 3 * 3 ∧
    sampleMesh.triangleVertexIndices.length = 3 * 1 ∧
    (fillTriangleMesh sampleMesh).num_vertices = 9 ∧
    (fillTriangleMesh sampleMesh).num_triangle_faces = 3 ∧
    (fillTriangleMesh sampleMesh).vertex_position 1 = some (1, 0, 0) ∧
    (fillTriangleMesh sampleMesh).vertex_position 2 = some (0, 1, 0) ∧
    (fillTriangleMesh sampleMesh).vertex_position 3 = none ∧
    (fillTriangleMesh sampleMesh).vertex_position 8 = none ∧
    (fillTriangleMesh sampleMesh).face 0 = some (0, 1, 2) ∧
    (fillTriangleMesh sampleMesh).face 1 = none ∧
    (fillTriangleMesh sampleMesh).face 2 = none ∧
    ((AddOcclusionMesh lockedState wallMember).1.map (fun p => p.2.num_vertices)) = some 9 := by
  refine ⟨?_, by decide, by decide, by decide, by decide, by decide!, by decide!, by decide!,
    by decide!, by decide!, by decide!, by decide!, by decide!, by decide!, by decide!⟩
  intro geom
  unfold fillTriangleMesh
  simp only
  constructor
  · refine (foldl_preserves _ (fun m : triangle_mesh => m.num_vertices) ?_ _ _).trans
      ((foldl_preserves _ (fun m : triangle_mesh => m.num_vertices) ?_ _ _).trans rfl)
    · intro b a
      rfl
    · intro b a
      rfl
  · refine (foldl_preserves _ (fun m : triangle_mesh => m.num_triangle_faces) ?_ _ _).trans
      ((foldl_preserves _ (fun m : triangle_mesh => m.num_triangle_faces) ?_ _ _).trans rfl)
    · intro b a
      rfl
    · intro b a
      rfl

/-! ## Facts about the lock guard -/

theorem heldAfter_append (held : Bool) (t1 t2 : List Event) :
    heldAfter held (t1 ++ t2) = heldAfter (heldAfter held t1) t2 := by
  unfold heldAfter
  rw [List.foldl_append]

theorem disciplined_append (held : Bool) (t1 t2 : List Event) :
    disciplined held (t1 ++ t2) = (disciplined held t1 && disciplined (heldAfter held t1) t2) := by
  induction t1 generalizing held with
  | nil => simp [disciplined, heldAfter]
  | cons e t1 ih =>
    cases e <;> simp [disciplined, heldAfter, ih, Bool.and_assoc]

/-- Events that are no lock operation neither change who holds the lock nor
break the discipline. -/
theorem quiet_events (held : Bool) (t : List Event)
    (h : ∀ e ∈ t, e.isLockOperation = false) :
    heldAfter held t = held ∧ disciplined held t = true := by
  induction t generalizing held with
  | nil => exact ⟨rfl, rfl⟩
  | cons e t ih =>
    have he := h e (List.mem_cons_self _ _)
    have ht := ih held (fun x hx => h x (List.mem_cons_of_mem _ hx))
    cases e <;> simp_all [disciplined, heldAfter, Event.isLockOperation]

/-- The guard invariant: the flag says whether the last successful lock
operation was a lock, and the log keeps the discipline. -/
theorem lock_keeps_guard (inp : ProcessInput) (st : ProcessState)
    (h : st.locker.locked = lockHeld st.trace ∧ disciplined false st.trace = true) :
    (LockRendererData.lock inp st).2.locker.locked =
        lockHeld (LockRendererData.lock inp st).2.trace ∧
      disciplined false (LockRendererData.lock inp st).2.trace = true := by
  obtain ⟨h1, h2⟩ := h
  unfold LockRendererData.lock
  by_cases hl : st.locker.locked = false
  · rw [if_pos hl]
    have hheld : heldAfter false st.trace = false := by
      rw [hl] at h1
      exact h1.symm
    by_cases hr : inp.lockResults (lockCalls st.trace) = CStatus.OK
    · simp only [hr, if_true, ProcessState.emit, lockHeld]
      rw [heldAfter_append, disciplined_append, h2, hheld]
      exact ⟨rfl, rfl⟩
    · simp only [hr, if_false, ProcessState.emit, lockHeld]
      rw [heldAfter_append, disciplined_append, h2, hheld, hl]
      simp [heldAfter, disciplined, hr]
  · rw [if_neg hl]
    exact ⟨h1, h2⟩

theorem unlock_keeps_guard (inp : ProcessInput) (st : ProcessState)
    (h : st.locker.locked = lockHeld st.trace ∧ disciplined false st.trace = true) :
    (LockRendererData.unlock inp st).2.locker.locked =
        lockHeld (LockRendererData.unlock inp st).2.trace ∧
      disciplined false (LockRendererData.unlock inp st).2.trace = true := by
  obtain ⟨h1, h2⟩ := h
  unfold LockRendererData.unlock
  by_cases hl : st.locker.locked = true
  · rw [if_pos hl]
    have hheld : heldAfter false st.trace = true := by
      rw [hl] at h1
      exact h1.symm
    by_cases hr : inp.unlockResults (unlockCalls st.trace) = CStatus.OK
    · simp only [hr, if_true, ProcessState.emit, lockHeld]
      rw [heldAfter_append, disciplined_append, h2, hheld]
      exact ⟨rfl, rfl⟩
    · simp only [hr, if_false, ProcessState.emit, lockHeld]
      rw [heldAfter_append, disciplined_append, h2, hheld, hl]
      simp [heldAfter, disciplined, hr]
  · rw [if_neg hl]
    exact ⟨h1, h2⟩

theorem runGuard_keeps_guard (inp : ProcessInput) (ops : List GuardOp) (st : ProcessState)
    (h : st.locker.locked = lockHeld st.trace ∧ disciplined false st.trace = true) :
    (runGuard inp st ops).locker.locked = lockHeld (runGuard inp st ops).trace ∧
      disciplined false (runGuard inp st ops).trace = true := by
  induction ops generalizing st with
  | nil => exact h
  | cons op ops ih =>
    cases op with
    | lock => exact ih _ (lock_keeps_guard inp st h)
    | unlock => exact ih _ (unlock_keeps_guard inp st h)

theorem releaseEvents_quiet (t : ProcessState) :
    ∀ e ∈ releaseEvents t, e.isLockOperation = false := by
  intro e he
  obtain ⟨r, rfl⟩ := releaseEvents_mem t e he
  rfl

/-- After a granted lock and events that are no lock operation, the
discipline of the rest of the log is judged with the lock held. -/
theorem disciplined_after_lock (events tail : List Event)
    (hq : ∀ e ∈ events, e.isLockOperation = false) :
    disciplined false (Event.LockSceneData CStatus.OK :: events ++ tail) =
      disciplined true tail := by
  obtain ⟨hh, hd⟩ := quiet_events true events hq
  have e1 : disciplined false (Event.LockSceneData CStatus.OK :: (events ++ tail)) =
      disciplined true (events ++ tail) := by
    simp [disciplined]
  rw [List.cons_append, e1, disciplined_append, hd, hh]
  rfl

/-- C21: in every run of `KrakatoaSR_Process` in which `LockSceneData`
succeeded, the log holds an `UnlockSceneData` call after it (the unlock
before the render, or the one the destructor of the guard makes on an early
return); every log keeps the discipline of the guard, `LockSceneData` only
while not locked and `UnlockSceneData` only while locked; and after any
sequence of `lock()` and `unlock()` calls on a new guard the flag `locked`
is true exactly when the last successful lock operation was a lock. -/
theorem lock_guard_discipline (inp : ProcessInput) :
    ((inp.lockResults 0 ≠ CStatus.OK ∧
        (KrakatoaSR_Process inp).trace = [Event.LockSceneData (inp.lockResults 0)]) ∨
      (inp.lockResults 0 = CStatus.OK ∧ ∃ (events : List Event) (res : CStatus)
          (later : List Event),
        (KrakatoaSR_Process inp).trace =
          Event.LockSceneData CStatus.OK :: events ++ Event.UnlockSceneData res :: later ∧
        ∀ e ∈ events, e.isLockOperation = false)) ∧
    disciplined false (KrakatoaSR_Process inp).trace = true ∧
    (∀ ops : List GuardOp,
      (runGuard inp initialState ops).locker.locked =
          lockHeld (runGuard inp initialState ops).trace ∧
        disciplined false (runGuard inp initialState ops).trace = true) := by
  refine ⟨?_, ?_, fun ops => runGuard_keeps_guard inp ops initialState ⟨rfl, rfl⟩⟩
  · rcases Process_runs inp with ⟨hno, hP⟩ | ⟨hlock, events, hsn, hcase⟩
    · left
      rw [hP]
      exact ⟨hno, rfl⟩
    · right
      refine ⟨hlock, events, ?_⟩
      have hq : ∀ e ∈ events, e.isLockOperation = false :=
        fun e he => isSnapshot_not_lockOperation e (hsn e he)
      rcases hcase with ⟨status, t, _, _, _, hP⟩ | ⟨t, _, _, hcase2⟩
      · exact ⟨_, [], by rw [hP], hq⟩
      · rcases hcase2 with ⟨_, hP⟩ | ⟨_, hP⟩
        · exact ⟨_, [Event.UnlockSceneData (inp.unlockResults 1)], by rw [hP], hq⟩
        · refine ⟨CStatus.OK, Event.NewFrame :: Event.render inp.renderOutcome ::
            Event.reset_renderer :: releaseEvents t, ?_, hq⟩
          rw [hP]
          simp
  · rcases Process_runs inp with ⟨hno, hP⟩ | ⟨hlock, events, hsn, hcase⟩
    · rw [hP]
      simp [disciplined]
    · have hq : ∀ e ∈ events, e.isLockOperation = false :=
        fun e he => isSnapshot_not_lockOperation e (hsn e he)
      rcases hcase with ⟨status, t, _, _, _, hP⟩ | ⟨t, _, _, hcase2⟩
      · rw [hP, disciplined_after_lock _ _ hq]
        simp [disciplined]
      · rcases hcase2 with ⟨hu, hP⟩ | ⟨_, hP⟩
        · rw [hP, disciplined_after_lock _ _ hq]
          simp [disciplined, hu]
        · rw [hP, List.append_assoc, disciplined_after_lock _ _ hq]
          simp only [List.cons_append, List.nil_append, disciplined, if_true, Bool.true_and]
          exact (quiet_events false _ (releaseEvents_quiet t)).2

/-! ## Facts about the lights -/

theorem registeredLights_append (t1 t2 : List Event) :
    registeredLights (t1 ++ t2) = registeredLights t1 ++ registeredLights t2 := by
  simp [registeredLights, List.filterMap_append]

theorem lights_emit (st : ProcessState) (events : List Event) :
    registeredLights (st.emit events).trace =
      registeredLights st.trace ++ registeredLights events :=
  registeredLights_append _ _

/-- A loop whose body registers the lights `g x` registers `gather g xs` as a
whole. -/
theorem lights_foldl {α : Type} (f : ProcessState → α → ProcessState) (g : α → List String)
    (h : ∀ st x, registeredLights (f st x).trace = registeredLights st.trace ++ g x)
    (xs : List α) (st : ProcessState) :
    registeredLights (xs.foldl f st).trace = registeredLights st.trace ++ gather g xs := by
  induction xs generalizing st with
  | nil => simp [gather]
  | cons x xs ih => rw [List.foldl_cons, ih, h, gather, List.append_assoc]

theorem gather_nil {α β : Type} (xs : List α) : gather (fun _ : α => ([] : List β)) xs = [] := by
  induction xs with
  | nil => rfl
  | cons x xs ih => simp [gather, ih]

theorem AddLight_lights (st : ProcessState) (light : Light) :
    registeredLights (AddLight st light).trace = registeredLights st.trace ++ lightName light := by
  unfold AddLight lightName
  split
  · rw [lights_emit, lights_emit]
    simp [registeredLights]
  · rw [lights_emit]
    simp [registeredLights]

theorem visitLightMember_lights (st : ProcessState) (member : GroupMember) :
    registeredLights (visitLightMember st member).trace =
      registeredLights st.trace ++ memberLight member := by
  unfold visitLightMember memberLight
  split
  · rw [AddLight_lights, lights_emit]
    simp [registeredLights]
  · rw [lights_emit]
    simp [registeredLights]

theorem visitOcclusionMember_lights (st : ProcessState) (gchild : GroupMember) :
    registeredLights (visitOcclusionMember st gchild).trace = registeredLights st.trace ++ [] := by
  unfold visitOcclusionMember AddOcclusionMesh
  split
  · cases hm : gchild.polygonMesh with
    | none => simp [ProcessState.emit, registeredLights, List.filterMap_append]
    | some geom => simp [ProcessState.emit, registeredLights, List.filterMap_append]
  · simp [ProcessState.emit, registeredLights, List.filterMap_append]

theorem visitGroup_lights (inp : ProcessInput) (st : ProcessState) (group : Group) :
    registeredLights (visitGroup inp st group).trace =
      registeredLights st.trace ++ groupLightsOfGroup inp group := by
  unfold visitGroup groupLightsOfGroup
  split
  · rw [lights_foldl _ _ visitOcclusionMember_lights, lights_emit, gather_nil]
    simp [registeredLights]
  · split
    · rw [lights_foldl _ _ visitLightMember_lights, lights_emit]
      simp [registeredLights]
    · rw [lights_emit]
      simp [registeredLights]

theorem addPointCloud_lights (st : ProcessState) (geom : Geometry) :
    registeredLights (addPointCloud st geom).trace = registeredLights st.trace ++ [] := by
  unfold addPointCloud
  split
  · simp [ProcessState.emit, registeredLights, List.filterMap_append]
  · simp [ProcessState.emit, registeredLights, List.filterMap_append]

theorem visitSceneRef_lights (inp : ProcessInput) (st : ProcessState) (ref : SceneRef) :
    registeredLights (visitSceneRef inp st ref).trace =
      registeredLights st.trace ++ groupLightsOfRef inp ref := by
  unfold visitSceneRef groupLightsOfRef
  have hc := lights_foldl _ _ addPointCloud_lights ref.pointClouds st
  rw [gather_nil, List.append_nil] at hc
  split
  · split
    · split
      · rw [lights_foldl _ _ (visitGroup_lights inp), hc]
      · simp [hc]
    · simp [hc]
  · simp

theorem addSceneLights_lights (inp : ProcessInput) (st : ProcessState) :
    registeredLights (addSceneLights inp st).trace =
      registeredLights st.trace ++ specSceneLights inp := by
  unfold addSceneLights specSceneLights
  split
  · rw [lights_foldl _ _ AddLight_lights]
  · simp

theorem setupFileSaver_lights (inp : ProcessInput) (st : ProcessState) :
    registeredLights (setupFileSaver inp st).state.trace = registeredLights st.trace := by
  unfold setupFileSaver useNoSave
  split
  · cases hm : inp.frameBuffers.find? (fun fb => fb.name == "Main") with
    | none => simp [Step.state, ProcessState.emit, registeredLights, List.filterMap_append]
    | some fb =>
      simp only
      split
      · split <;> simp [Step.state, ProcessState.emit, registeredLights, List.filterMap_append]
      · simp [Step.state, ProcessState.emit, registeredLights, List.filterMap_append]
  · simp [Step.state, ProcessState.emit, registeredLights, List.filterMap_append]

theorem setupPrtOutput_lights (inp : ProcessInput) (st : ProcessState) :
    registeredLights (setupPrtOutput inp st).state.trace = registeredLights st.trace := by
  unfold setupPrtOutput
  split
  · split
    · rfl
    · simp only
      split
      · simp [Step.state, ProcessState.emit, registeredLights, List.filterMap_append]
      · split
        · simp [Step.state, ProcessState.emit, registeredLights, List.filterMap_append]
        · split <;> simp [Step.state, ProcessState.emit, registeredLights, List.filterMap_append]
  · rfl

theorem snapshotScene_lights (inp : ProcessInput) (st : ProcessState) :
    (∀ t, snapshotScene inp st = Step.next t →
      registeredLights t.trace =
        registeredLights st.trace ++ (specGroupLights inp ++ specSceneLights inp)) ∧
    (∀ status t, snapshotScene inp st = Step.exit status t →
      registeredLights t.trace = registeredLights st.trace) := by
  have h0 : registeredLights (st.emit
      [Event.sceneQuery "render context", Event.sceneQuery "renderer property"]).trace =
      registeredLights st.trace := by
    rw [lights_emit]
    simp [registeredLights]
  have l1 := setupFileSaver_lights inp
    (st.emit [Event.sceneQuery "render context", Event.sceneQuery "renderer property"])
  unfold snapshotScene
  cases h1 : setupFileSaver inp
      (st.emit [Event.sceneQuery "render context", Event.sceneQuery "renderer property"]) with
  | exit status1 t1 =>
    rw [h1] at l1
    simp only [Step.state] at l1
    simp only [h1]
    constructor
    · intro t ht
      cases ht
    · intro status t ht
      cases ht
      rw [l1, h0]
  | next t1 =>
    rw [h1] at l1
    simp only [Step.state] at l1
    simp only [h1]
    have hc : registeredLights (t1.emit [Event.sceneQuery "camera"]).trace =
        registeredLights st.trace := by
      rw [lights_emit, l1, h0]
      simp [registeredLights]
    have l2 := setupPrtOutput_lights inp (t1.emit [Event.sceneQuery "camera"])
    cases h2 : setupPrtOutput inp (t1.emit [Event.sceneQuery "camera"]) with
    | exit status2 t2 =>
      rw [h2] at l2
      simp only [Step.state] at l2
      simp only [h2]
      constructor
      · intro t ht
        cases ht
      · intro status t ht
        cases ht
        rw [l2, hc]
    | next t2 =>
      rw [h2] at l2
      simp only [Step.state] at l2
      simp only [h2]
      constructor
      · intro t ht
        cases ht
        rw [addSceneLights_lights, lights_foldl _ _ (visitSceneRef_lights inp), lights_emit,
          l2, hc]
        simp [registeredLights, specGroupLights]
      · intro status t ht
        cases ht

theorem registeredLights_releaseEvents (t : ProcessState) :
    registeredLights (releaseEvents t) = [] := by
  unfold releaseEvents registeredLights
  cases t.pSaver <;> simp [List.filterMap_append, List.filterMap_map, Function.comp_def]

theorem gather_eq_nil {α β : Type} (g : α → List β) (xs : List α) (h : ∀ x, g x = []) :
    gather g xs = [] := by
  induction xs with
  | nil => rfl
  | cons x xs ih => simp [gather, ih, h]

theorem mem_gather {α β : Type} (g : α → List β) (xs : List α) (y : β) :
    y ∈ gather g xs ↔ ∃ x ∈ xs, y ∈ g x := by
  induction xs with
  | nil => simp [gather]
  | cons x xs ih => simp [gather, ih]

/-- The lights a run hands to the engine: those of the light group followed
by those of the scene light list, or none when the run returns before the
scene loop. -/
theorem Process_lights (inp : ProcessInput) :
    registeredLights (KrakatoaSR_Process inp).trace =
        specGroupLights inp ++ specSceneLights inp ∨
      (registeredLights (KrakatoaSR_Process inp).trace = [] ∧
        renderInvoked (KrakatoaSR_Process inp).trace = false) := by
  by_cases hlock : inp.lockResults 0 = CStatus.OK
  · rcases snapshotScene_cases inp lockedState with ⟨status, t, hs, hx, _⟩ | ⟨t, hs, hx⟩
    · right
      obtain ⟨hl, hu, _⟩ := extends_lockedState hx
      refine ⟨?_, (Process_of_exit inp status t hs).1⟩
      rw [Process_exit inp hlock status t hs hl hu, registeredLights_append,
        (snapshotScene_lights inp lockedState).2 status t hs]
      rfl
    · left
      obtain ⟨hl, hu, _⟩ := extends_lockedState hx
      have hlights := (snapshotScene_lights inp lockedState).1 t hs
      by_cases hok : inp.unlockResults 0 = CStatus.OK
      · rw [Process_rendered inp hlock t hs hl hu hok, registeredLights_append,
          registeredLights_append, registeredLights_releaseEvents, hlights]
        simp [registeredLights, lockedState]
      · rw [Process_unlock_fails inp hlock t hs hl hu hok, registeredLights_append, hlights]
        simp [registeredLights, lockedState]
  · right
    rw [Process_lock_refused inp hlock]
    exact ⟨rfl, rfl⟩

theorem specGroupLights_nil (inp : ProcessInput)
    (h : ¬ (inp.method = rendering_method_t.METHOD_PARTICLE ∧ inp.useLightGroup = true)) :
    specGroupLights inp = [] := by
  have hg : ∀ group, groupLightsOfGroup inp group = [] := by
    intro group
    unfold groupLightsOfGroup
    split
    · rfl
    · rw [if_neg (fun hc => h ⟨hc.1, hc.2.1⟩)]
  unfold specGroupLights
  apply gather_eq_nil
  intro ref
  unfold groupLightsOfRef
  split
  · split
    · split
      · exact gather_eq_nil _ _ hg
      · rfl
    · rfl
  · rfl

theorem specSceneLights_nil (inp : ProcessInput)
    (h : ¬ (inp.method = rendering_method_t.METHOD_PARTICLE ∧ inp.useLightGroup = false)) :
    specSceneLights inp = [] := by
  unfold specSceneLights
  rw [if_neg h]

theorem lightName_mem (light : Light) (name : String) (h : name ∈ lightName light) :
    light.name = name := by
  unfold lightName at h
  split at h
  · exact (List.mem_singleton.mp h).symm
  · cases h

/-- C22: in every run of `KrakatoaSR_Process` the lights handed to the engine
are those of the members of the light group followed by those of the scene
light list (none at all when the run returns before the scene loop); with
the light-group option off the first list is empty, with the option on the
second is, so lights never come from both; and outside particle mode no
light is registered. The second list only holds lights of the scene light
list, the first only lights of members of groups that carry the name of the
light group. -/
theorem lights_from_one_source (inp : ProcessInput) :
    (registeredLights (KrakatoaSR_Process inp).trace =
        specGroupLights inp ++ specSceneLights inp ∨
      (registeredLights (KrakatoaSR_Process inp).trace = [] ∧
        renderInvoked (KrakatoaSR_Process inp).trace = false)) ∧
    ((inp.useLightGroup = false ∧ specGroupLights inp = []) ∨
      (inp.useLightGroup = true ∧ specSceneLights inp = [])) ∧
    (inp.method = rendering_method_t.METHOD_PARTICLE ∨
      registeredLights (KrakatoaSR_Process inp).trace = []) ∧
    (∀ name ∈ specSceneLights inp, ∃ light ∈ inp.lights, light.name = name) ∧
    (∀ name ∈ specGroupLights inp, ∃ ref ∈ inp.scene, ∃ group ∈ ref.groups,
      group.name = inp.lightGroupName ∧ ∃ member ∈ group.members,
        member.light.name = name) := by
  refine ⟨Process_lights inp, ?_, ?_, ?_, ?_⟩
  · cases hu : inp.useLightGroup with
    | false => exact Or.inl ⟨rfl, specGroupLights_nil inp (by simp [hu])⟩
    | true => exact Or.inr ⟨rfl, specSceneLights_nil inp (by simp [hu])⟩
  · by_cases hm : inp.method = rendering_method_t.METHOD_PARTICLE
    · exact Or.inl hm
    · right
      rcases Process_lights inp with h | ⟨h, _⟩
      · rw [h, specGroupLights_nil inp (fun hc => hm hc.1),
          specSceneLights_nil inp (fun hc => hm hc.1)]
        rfl
      · exact h
  · intro name hn
    unfold specSceneLights at hn
    split at hn
    · obtain ⟨light, hl, hname⟩ := (mem_gather _ _ _).mp hn
      exact ⟨light, hl, lightName_mem light name hname⟩
    · cases hn
  · intro name hn
    unfold specGroupLights at hn
    obtain ⟨ref, href, hn⟩ := (mem_gather _ _ _).mp hn
    refine ⟨ref, href, ?_⟩
    unfold groupLightsOfRef at hn
    split at hn
    · split at hn
      · split at hn
        · obtain ⟨group, hgroup, hn⟩ := (mem_gather _ _ _).mp hn
          refine ⟨group, hgroup, ?_⟩
          unfold groupLightsOfGroup at hn
          split at hn
          · cases hn
          · split at hn
            · rename_i hc
              refine ⟨hc.2.2, ?_⟩
              obtain ⟨member, hmember, hn⟩ := (mem_gather _ _ _).mp hn
              refine ⟨member, hmember, ?_⟩
              unfold memberLight at hn
              split at hn
              · exact lightName_mem _ _ hn
              · cases hn
            · cases hn
        · cases hn
      · cases hn
    · cases hn

/-- The run with the light group: only the spot light of the group is
registered, the scene light `key` is not. -/
theorem lightGroupInput_lights :
    registeredLights (KrakatoaSR_Process lightGroupInput).trace = ["spot"] ∧
    registeredLights (KrakatoaSR_Process sampleInput).trace = ["key"] := by
  refine ⟨by decide, by decide⟩

/-! ## The claim about the render call and the scene lock -/

theorem heldAfter_granted_lock (events : List Event)
    (hq : ∀ e ∈ events, e.isLockOperation = false) :
    heldAfter false (Event.LockSceneData CStatus.OK :: events) = true := by
  have h := (quiet_events true events hq).1
  unfold heldAfter at h
  unfold heldAfter
  rw [List.foldl_cons]
  exact h

/-- C18: in every run of `KrakatoaSR_Process` that calls `render()` the log
reads `LockSceneData` returning OK, events that call neither the lock nor
`render()`, `UnlockSceneData` returning OK, `NewFrame`, `render()`, and then
events that do not touch the lock; so the lock is not held when `render()` is
called and the last lock operation before it is an unlock that returned OK.
But the scene is read after that unlock: on the sample run the stream of the
two-point sample cloud is registered, and every pull the engine makes of it
while `render()` runs calls `GetDataType()` on the attributes of the cloud and
indexes the SDK data array of its position attribute; the two pulls of the
render make six such calls. -/
theorem render_pulls_read_host_unlocked :
    (∀ inp : ProcessInput, renderInvoked (KrakatoaSR_Process inp).trace = true →
      ∃ events after : List Event,
        (KrakatoaSR_Process inp).trace =
          Event.LockSceneData CStatus.OK :: events ++
            [Event.UnlockSceneData CStatus.OK, Event.NewFrame,
              Event.render inp.renderOutcome] ++ after ∧
        (∀ e ∈ events, e.isLockOperation = false) ∧
        renderInvoked (Event.LockSceneData CStatus.OK :: events) = false ∧
        lockHeld (Event.LockSceneData CStatus.OK :: events ++
          [Event.UnlockSceneData CStatus.OK, Event.NewFrame]) = false ∧
        (∀ e ∈ Event.NewFrame :: Event.render inp.renderOutcome :: after,
          e.isLockOperation = false)) ∧
    renderInvoked (KrakatoaSR_Process sampleInput).trace = true ∧
    registeredStreams (KrakatoaSR_Process sampleInput).trace =
      [SIPointCloudParticleStream.create sampleCloud] ∧
    particle_count (SIPointCloudParticleStream.create sampleCloud) = Except.ok 2 ∧
    hostCallsOfCall (SIPointCloudParticleStream.create sampleCloud) =
      [HostCall.GetDataType "PointPosition", HostCall.dataArrayElement "PointPosition" 0,
        HostCall.GetDataType "Density"] ∧
    hostCallsDuringRender (KrakatoaSR_Process sampleInput).trace =
      [HostCall.GetDataType "PointPosition", HostCall.dataArrayElement "PointPosition" 0,
        HostCall.GetDataType "Density",
        HostCall.GetDataType "PointPosition", HostCall.dataArrayElement "PointPosition" 1,
        HostCall.GetDataType "Density"] := by
  refine ⟨?_, by decide, by decide, rfl, by decide, by decide⟩
  intro inp h
  obtain ⟨_, _, events, t, hsn, _, _, hP⟩ := Process_of_renderInvoked inp h
  have hq : ∀ e ∈ events, e.isLockOperation = false :=
    fun e he => isSnapshot_not_lockOperation e (hsn e he)
  refine ⟨events, Event.reset_renderer :: releaseEvents t, ?_, hq, ?_, ?_, ?_⟩
  · rw [hP]
    simp
  · rw [renderInvoked_cons, renderInvoked_of_isSnapshot events hsn]
    rfl
  · unfold lockHeld
    rw [heldAfter_append, heldAfter_granted_lock events hq]
    rfl
  · intro e he
    simp only [List.mem_cons] at he
    rcases he with rfl | rfl | rfl | he
    · rfl
    · rfl
    · rfl
    · exact releaseEvents_quiet t e he

end Krakatoa
